import Mathlib

/-!
# Chatify backend: membership and authorization engine

A shallow embedding of `src/controllers/chatController.js`, of `sendMessage`,
`reactToMessage` and `deleteMessage` in `src/controllers/messageController.js`, of
`getStatuses` in `src/controllers/statusController.js`, of `updateUserProfile` in
`src/controllers/userController.js` and of the socket handlers `setup` and
`disconnect` in `src/server.js` (with the schemas of `src/models`), and the
properties of these handlers.

Modelling conventions.

* A MongoDB collection is a list of documents in insertion order.  Object ids are
  natural numbers; a fresh id is drawn from the counter `Store.nextId`.
* `Model.findById id` is the first document whose id is `id`;
  `findByIdAndUpdate` rewrites that first document, `findByIdAndDelete` erases it.
  A lookup by an absent reference (`undefined`, sent to the database as `null`)
  matches nothing; the handlers reach it only on a chat without `groupDetails`.
* Request bodies are taken as parsed: ids are well-formed, and the `users` field of
  a group request is the array obtained by `JSON.parse`.
* The update operators are those of MongoDB: `$push` appends, `$pull` removes every
  occurrence, `$addToSet` appends unless already present.
* A handler takes the store, the authenticated user (`req.user`) and the request
  fields, and returns the new store together with the HTTP response.  An exception
  that leaves the handler (express-async-handler forwards it to the error
  middleware) is `Response.thrown` with the status set before the throw, if any.
* Store calls succeed unless a `StoreFault` is injected (only `createGroupChat`
  takes one); the `createdAt` and `updatedAt` timestamps of chats and messages are
  not stored (`fetchChats` takes them as a parameter), and the populated user
  profiles of a response are not modelled.
* Dates are milliseconds since the epoch; a handler that reads the clock takes the
  time `now` as a parameter.
-/

namespace Chatify

set_option linter.unusedVariables false

/-! ## Documents -/

/-- A user document (`models/User.js`); the fields after `blockedUsers` carry the
defaults of the schema. Dates are milliseconds since the epoch. The password hash,
the email and the push token are left out. -/
structure User where
  id : Nat
  firstName : String
  lastName : String
  blockedUsers : List Nat
  username : String := ""
  mobile : String := ""
  gender : String := "Not Specified"
  pic : String :=
    "https://icon-library.com/images/anonymous-avatar-icon/anonymous-avatar-icon-25.jpg"
  about : String := "Hey there! I am using Chatify."
  isOnline : Bool := false
  lastSeen : Nat := 0
  lastUsernameChange : Option Nat := none
  searchByUsername : Bool := true
  searchByMobile : Bool := true
deriving DecidableEq, Repr

/-- A chat document (`models/Chat.js`). -/
structure Chat where
  id : Nat
  chatName : String
  isGroupChat : Bool
  users : List Nat
  latestMessage : Option Nat
  groupDetails : Option Nat
  mutedBy : List Nat
  sharedPhoneNumbers : List Nat
  archivedBy : List Nat
  deletedBy : List Nat
deriving DecidableEq, Repr

/-- The `settings` sub-document of a group. -/
structure GroupSettings where
  onlyAdminsPost : Bool
  hideMembers : Bool
  isPrivate : Bool
deriving DecidableEq, Repr

/-- A group document (`models/Group.js`). -/
structure Group where
  id : Nat
  chatId : Nat
  name : String
  description : String
  icon : String
  admins : List Nat
  joinRequests : List Nat
  settings : GroupSettings
deriving DecidableEq, Repr

/-- The `type` enum of a message. -/
inductive MessageType where
  | text
  | image
  | video
  | system
deriving DecidableEq, Repr

/-- A message document (`models/Message.js`); `sender = none` is a system message. -/
structure Message where
  id : Nat
  sender : Option Nat
  content : String
  chat : Nat
  readBy : List Nat
  type : MessageType
  replyTo : Option Nat
  reactions : List (Nat × String)
  isDeleted : Bool
deriving DecidableEq, Repr

/-- The `type` enum of a status. -/
inductive StatusType where
  | text
  | image
  | video
deriving DecidableEq, Repr

/-- A status document (`models/Status.js`); `group = none` is a personal status.
Dates are milliseconds since the epoch. -/
structure Status where
  id : Nat
  user : Nat
  group : Option Nat
  type : StatusType
  content : String
  caption : String
  color : String
  viewers : List Nat
  likes : List Nat
  expiresAt : Nat
  createdAt : Nat
deriving DecidableEq, Repr

/-- The database: the collections and the object-id counter. -/
structure Store where
  users : List User
  chats : List Chat
  groups : List Group
  messages : List Message
  nextId : Nat
  statuses : List Status := []
deriving DecidableEq, Repr

/-- The empty database. -/
def Store.empty : Store :=
  { users := [], chats := [], groups := [], messages := [], nextId := 0 }

/-- A database with registered users and no chat, group or message yet. -/
def Store.ofUsers (us : List User) : Store :=
  { Store.empty with users := us }

/-! ## Responses -/

/-- What a handler writes into the response. -/
inductive Body where
  | empty
  | text (s : String)
  | note (message : String)
  | chat (c : Option Chat) (g : Option Group)
  | joined (message : String) (status : String) (c : Option Chat) (g : Option Group)
  | flagged (message : String) (flag : Bool)
  | chats (cs : List Chat)
  | message (m : Message)
  | statuses (sts : List Status)
  | profile (u : User)
deriving DecidableEq, Repr

/-- The outcome seen by the client: a response that was sent, or an exception that
left the handler (with the status code set before the throw, if any). -/
inductive Response where
  | sent (status : Nat) (body : Body)
  | thrown (status : Option Nat) (message : String)
deriving DecidableEq, Repr

/-- The status code set by the handler. -/
def Response.status? : Response → Option Nat
  | .sent st _ => some st
  | .thrown st _ => st

/-- Id of the chat carried by a response body, if it carries one. -/
def Response.chatId? : Response → Option Nat
  | .sent _ (.chat (some c) _) => some c.id
  | .sent _ (.joined _ _ (some c) _) => some c.id
  | _ => none

/-- The boolean state carried by the answer of a toggle (`isMuted`, `isShared`,
`isBlocked`, `isArchived`, `isDeleted`). -/
def Response.flag? : Response → Option Bool
  | .sent _ (.flagged _ b) => some b
  | _ => none

/-- The statuses listed by a response. -/
def Response.statuses : Response → List Status
  | .sent _ (.statuses sts) => sts
  | _ => []

/-- The chats listed by a response. -/
def Response.chats : Response → List Chat
  | .sent _ (.chats cs) => cs
  | _ => []

/-- New store and response of one handler call. -/
structure Outcome where
  store : Store
  response : Response
deriving DecidableEq, Repr

/-- A failure of the storage collaborator inside `createGroupChat`, with the
message of the error it raises. -/
inductive StoreFault where
  | noFault
  | onChatCreate (msg : String)
  | onGroupCreate (msg : String)
  | onChatLink (msg : String)
deriving DecidableEq, Repr

/-! ## Strings -/

/-- ECMAScript WhiteSpace and LineTerminator code points, those removed by
`String.prototype.trim`. -/
def isJsSpace (c : Char) : Bool :=
  let n := c.toNat
  (9 ≤ n && n ≤ 13) || n == 32 || n == 160 || n == 5760 || (8192 ≤ n && n ≤ 8202)
    || n == 8232 || n == 8233 || n == 8239 || n == 8287 || n == 12288 || n == 65279

/-- The `trim: true` schema option and `String.prototype.trim`. -/
def jsTrim (s : String) : String :=
  String.mk ((s.data.dropWhile isJsSpace).reverse.dropWhile isJsSpace).reverse

/-! ## Collection primitives -/

/-- Rewrite the first element satisfying `p`. -/
def updateFirst {α : Type} (p : α → Bool) (f : α → α) : List α → List α
  | [] => []
  | x :: xs => if p x then f x :: xs else x :: updateFirst p f xs

/-- The `$push` operator. -/
def push (xs : List Nat) (u : Nat) : List Nat := xs ++ [u]

/-- The `$pull` operator. -/
def pull (xs : List Nat) (u : Nat) : List Nat := xs.filter (fun x => x != u)

/-- The `$addToSet` operator. -/
def addToSet (xs : List Nat) (u : Nat) : List Nat :=
  if xs.contains u then xs else xs ++ [u]

/-- `Chat.findById`. -/
def Store.findChat (s : Store) (chatId : Nat) : Option Chat :=
  s.chats.find? (fun c => c.id == chatId)

/-- `Group.findById` on a reference that may be absent. -/
def Store.findGroup (s : Store) (ref : Option Nat) : Option Group :=
  match ref with
  | none => none
  | some gid => s.groups.find? (fun g => g.id == gid)

/-- `User.findById`. -/
def Store.findUser (s : Store) (userId : Nat) : Option User :=
  s.users.find? (fun u => u.id == userId)

/-- `Chat.findByIdAndUpdate`: the store after the update. -/
def Store.updateChat (s : Store) (chatId : Nat) (f : Chat → Chat) : Store :=
  { s with chats := updateFirst (fun c => c.id == chatId) f s.chats }

/-- `Group.findByIdAndUpdate` on a reference that may be absent. -/
def Store.updateGroup (s : Store) (ref : Option Nat) (f : Group → Group) : Store :=
  { s with
    groups :=
      match ref with
      | none => s.groups
      | some gid => updateFirst (fun g => g.id == gid) f s.groups }

/-- `Chat.create`: the document is appended and its id is taken from the counter. -/
def Store.insertChat (s : Store) (c : Chat) : Store :=
  { s with chats := s.chats ++ [c], nextId := s.nextId + 1 }

/-- `Group.create`. -/
def Store.insertGroup (s : Store) (g : Group) : Store :=
  { s with groups := s.groups ++ [g], nextId := s.nextId + 1 }

/-- `Message.create`: the document is appended and its id is taken from the counter. -/
def Store.insertMessage (s : Store) (m : Message) : Store :=
  { s with messages := s.messages ++ [m], nextId := s.nextId + 1 }

/-- `Message.findById`. -/
def Store.findMessage (s : Store) (messageId : Nat) : Option Message :=
  s.messages.find? (fun m => m.id == messageId)

/-- The method `message.save()` after fields of the loaded document were changed. -/
def Store.updateMessage (s : Store) (messageId : Nat) (f : Message → Message) : Store :=
  { s with messages := updateFirst (fun m => m.id == messageId) f s.messages }

/-- `User.findByIdAndUpdate`. -/
def Store.updateUser (s : Store) (userId : Nat) (f : User → User) : Store :=
  { s with users := updateFirst (fun u => u.id == userId) f s.users }

/-- `Chat.findByIdAndDelete`. -/
def Store.deleteChat (s : Store) (chatId : Nat) : Store :=
  { s with chats := s.chats.eraseP (fun c => c.id == chatId) }

/-- `Group.findByIdAndDelete` on a reference that may be absent. -/
def Store.deleteGroupDoc (s : Store) (ref : Option Nat) : Store :=
  { s with
    groups :=
      match ref with
      | none => s.groups
      | some gid => s.groups.eraseP (fun g => g.id == gid) }

/-- `Message.deleteMany({ chat: chatId })`. -/
def Store.deleteMessagesOf (s : Store) (chatId : Nat) : Store :=
  { s with messages := s.messages.filter (fun m => m.chat != chatId) }

/-- Helper `createSystemMessage`: one sender-less message of type `system`. -/
def createSystemMessage (s : Store) (chatId : Nat) (content : String) : Store :=
  { s with
    messages := s.messages ++
      [{ id := s.nextId, sender := none, content := jsTrim content, chat := chatId,
         readBy := [], type := MessageType.system, replyTo := none, reactions := [],
         isDeleted := false }]
    nextId := s.nextId + 1 }

/-! ## Handlers of `chatController.js` -/

/-- Matches of the query of `accessChat`: one-to-one chats holding both users. -/
def directChats (s : Store) (a b : Nat) : List Chat :=
  s.chats.filter (fun c => !c.isGroupChat && c.users.contains a && c.users.contains b)

/-- The chat document written by `accessChat` when no chat is found (`chatData`). -/
def newDirectChat (s : Store) (actor : User) (target : Nat) (foundByMobile : Bool) : Chat :=
  { id := s.nextId, chatName := jsTrim "sender", isGroupChat := false,
    users := [actor.id, target], latestMessage := none, groupDetails := none,
    mutedBy := [], sharedPhoneNumbers := if foundByMobile then [target] else [],
    archivedBy := [], deletedBy := [] }

/-- Handler `accessChat`: create or fetch the one-to-one chat with `userId`. -/
def accessChat (s : Store) (actor : User) (userId : Option Nat) (foundByMobile : Bool) :
    Outcome :=
  match userId with
  | none => { store := s, response := .sent 400 .empty }
  | some target =>
    match directChats s actor.id target with
    | chat :: _ =>
      if foundByMobile then
        let shared : Store × Option Chat :=
          if !chat.sharedPhoneNumbers.contains target then
            let s1 := s.updateChat chat.id
              (fun c => { c with sharedPhoneNumbers := addToSet c.sharedPhoneNumbers target })
            (s1, s1.findChat chat.id)
          else (s, some chat)
        match shared.2 with
        | none => { store := shared.1, response := .thrown none "TypeError" }
        | some chat1 =>
          let s2 :=
            if chat1.deletedBy.contains actor.id then
              shared.1.updateChat chat1.id
                (fun c => { c with deletedBy := pull c.deletedBy actor.id })
            else shared.1
          { store := s2, response := .sent 200 (.chat (some chat1) none) }
      else { store := s, response := .sent 200 (.chat (some chat) none) }
    | [] =>
      let created := newDirectChat s actor target foundByMobile
      let s1 := s.insertChat created
      { store := s1, response := .sent 200 (.chat (s1.findChat created.id) none) }

/-- Body of the group-creation request: `users` is the parsed JSON array (absent
when the field is missing or the empty string), `name` is empty when missing. -/
structure GroupRequest where
  users : Option (List Nat)
  name : String
  isPrivate : Option Bool
deriving DecidableEq, Repr

/-- The chat document written by `createGroupChat`: the parsed members followed by
the requesting user. -/
def newGroupChat (s : Store) (actor : User) (name : String) (members : List Nat) : Chat :=
  { id := s.nextId, chatName := jsTrim name, isGroupChat := true,
    users := members ++ [actor.id], latestMessage := none, groupDetails := none,
    mutedBy := [], sharedPhoneNumbers := [], archivedBy := [], deletedBy := [] }

/-- The group document written by `createGroupChat` for the chat `chatId`, with the
schema defaults. -/
def newGroup (s : Store) (chatId : Nat) (actor : User) (name : String)
    (isPrivate : Option Bool) : Group :=
  { id := s.nextId, chatId := chatId, name := jsTrim name,
    description := "This is a group chat.",
    icon := "https://icon-library.com/images/anonymous-avatar-icon/anonymous-avatar-icon-25.jpg",
    admins := [actor.id], joinRequests := [],
    settings := { onlyAdminsPost := false, hideMembers := false,
                  isPrivate := isPrivate.getD false } }

/-- Handler `createGroupChat`. -/
def createGroupChat (fault : StoreFault) (s : Store) (actor : User) (req : GroupRequest) :
    Outcome :=
  match req.users with
  | none => { store := s, response := .sent 400 (.note "Please Fill all the fields") }
  | some members =>
    if req.name == "" then
      { store := s, response := .sent 400 (.note "Please Fill all the fields") }
    else if members.length < 1 then
      { store := s,
        response := .sent 400 (.text "More than 2 users are required to form a group chat") }
    else
      match fault with
      | .onChatCreate msg => { store := s, response := .thrown (some 400) msg }
      | _ =>
        let groupChat := newGroupChat s actor req.name members
        let s1 := s.insertChat groupChat
        match fault with
        | .onGroupCreate msg => { store := s1, response := .thrown (some 400) msg }
        | _ =>
          let groupDetails := newGroup s1 groupChat.id actor req.name req.isPrivate
          let s2 := s1.insertGroup groupDetails
          match fault with
          | .onChatLink msg => { store := s2, response := .thrown (some 400) msg }
          | _ =>
            let s3 := s2.updateChat groupChat.id
              (fun c => { c with groupDetails := some groupDetails.id })
            let full := s3.findChat groupChat.id
            { store := s3,
              response := .sent 200 (.chat full (s3.findGroup (full.bind Chat.groupDetails))) }

/-- Handler `renameGroup`. -/
def renameGroup (s : Store) (actor : User) (chatId : Nat) (chatName : String) : Outcome :=
  let s1 := s.updateChat chatId (fun c => { c with chatName := jsTrim chatName })
  match s1.findChat chatId with
  | none => { store := s1, response := .thrown (some 404) "Chat Not Found" }
  | some updatedChat =>
    let populated := s1.findGroup updatedChat.groupDetails
    let s2 :=
      match populated with
      | some g => s1.updateGroup (some g.id) (fun g => { g with name := jsTrim chatName })
      | none => s1
    { store := s2, response := .sent 200 (.chat (some updatedChat) populated) }

/-- Handler `addToGroup`. -/
def addToGroup (s : Store) (actor : User) (chatId userId : Nat) : Outcome :=
  let s1 := s.updateChat chatId (fun c => { c with users := push c.users userId })
  match s1.findChat chatId with
  | none => { store := s1, response := .thrown (some 404) "Chat Not Found" }
  | some added =>
    { store := s1, response := .sent 200 (.chat (some added) (s1.findGroup added.groupDetails)) }

/-- The display name used in the admin announcements: the populated member is
looked up among the chat users that still have a user document; the user schema
has no `name` path, so the template renders `undefined` for a member found. -/
def announcedName (s : Store) (c : Chat) (userId : Nat) : String :=
  if c.users.any (fun u => u == userId && (s.findUser u).isSome) then "undefined"
  else "A member"

/-- Handler `makeGroupAdmin`. -/
def makeGroupAdmin (s : Store) (actor : User) (chatId userId : Nat) : Outcome :=
  match s.findChat chatId with
  | none => { store := s, response := .thrown (some 404) "Chat Not Found" }
  | some chat =>
    let s1 := s.updateGroup chat.groupDetails
      (fun g => { g with admins := addToSet g.admins userId })
    match s1.findChat chatId with
    | none => { store := s1, response := .thrown none "TypeError" }
    | some updatedChat =>
      let s2 := createSystemMessage s1 chatId
        (announcedName s1 updatedChat userId ++ " is now an admin.")
      { store := s2,
        response := .sent 200 (.chat (some updatedChat) (s1.findGroup updatedChat.groupDetails)) }

/-- Handler `removeGroupAdmin`. -/
def removeGroupAdmin (s : Store) (actor : User) (chatId userId : Nat) : Outcome :=
  match s.findChat chatId with
  | none => { store := s, response := .thrown (some 404) "Chat Not Found" }
  | some chat =>
    let s1 := s.updateGroup chat.groupDetails
      (fun g => { g with admins := pull g.admins userId })
    match s1.findChat chatId with
    | none => { store := s1, response := .thrown none "TypeError" }
    | some updatedChat =>
      let s2 := createSystemMessage s1 chatId
        (announcedName s1 updatedChat userId ++ " is no longer an admin.")
      { store := s2,
        response := .sent 200 (.chat (some updatedChat) (s1.findGroup updatedChat.groupDetails)) }

/-- Handler `removeFromGroup`. -/
def removeFromGroup (s : Store) (actor : User) (chatId userId : Nat) : Outcome :=
  let s1 := s.updateChat chatId (fun c => { c with users := pull c.users userId })
  match s1.findChat chatId with
  | none => { store := s1, response := .thrown (some 404) "Chat Not Found" }
  | some chat =>
    let s2 := s1.updateGroup chat.groupDetails
      (fun g => { g with admins := pull g.admins userId })
    match s2.findChat chatId with
    | none => { store := s2, response := .thrown (some 404) "Chat Not Found" }
    | some updatedChat =>
      let s3 := createSystemMessage s2 chatId "A member left the group."
      { store := s3,
        response := .sent 200 (.chat (some updatedChat) (s2.findGroup updatedChat.groupDetails)) }

/-- Handler `deleteGroup`. -/
def deleteGroup (s : Store) (actor : User) (chatId : Nat) : Outcome :=
  match s.findChat chatId with
  | none => { store := s, response := .thrown (some 404) "Chat Not Found" }
  | some chat =>
    match s.findGroup chat.groupDetails with
    | none => { store := s.deleteChat chatId, response := .sent 200 (.note "Group Removed") }
    | some group =>
      if !group.admins.any (fun a => a == actor.id) then
        { store := s, response := .thrown (some 401) "Only admins can delete the group" }
      else
        let s1 := s.deleteGroupDoc chat.groupDetails
        let s2 := s1.deleteChat chatId
        let s3 := s2.deleteMessagesOf chatId
        { store := s3, response := .sent 200 (.note "Group Deleted Successfully") }

/-- Handler `joinGroup`. -/
def joinGroup (s : Store) (actor : User) (chatId : Nat) : Outcome :=
  match s.findChat chatId with
  | none => { store := s, response := .thrown (some 404) "Chat Not Found" }
  | some chat =>
    if chat.users.contains actor.id then
      { store := s, response := .sent 400 (.note "You are already in this group") }
    else
      match s.findGroup chat.groupDetails with
      | none => { store := s, response := .thrown none "TypeError" }
      | some group =>
        if group.settings.isPrivate then
          if group.joinRequests.contains actor.id then
            { store := s, response := .sent 400 (.note "Join request already sent") }
          else
            let s1 := s.updateGroup (some group.id)
              (fun g => { g with joinRequests := push g.joinRequests actor.id })
            { store := s1,
              response := .sent 200 (.joined "Join request sent to admins" "requested" none none) }
        else
          let s1 := s.updateChat chatId (fun c => { c with users := push c.users actor.id })
          let s2 := createSystemMessage s1 chatId (actor.firstName ++ " joined via QR code.")
          let fullChat := s2.findChat chatId
          { store := s2,
            response := .sent 200 (.joined "Joined group" "joined" fullChat
              (s2.findGroup (fullChat.bind Chat.groupDetails))) }

/-- Handler `handleJoinRequest`; `action` is `accept` or anything else (reject). -/
def handleJoinRequest (s : Store) (actor : User) (chatId userId : Nat) (action : String) :
    Outcome :=
  match s.findChat chatId with
  | none => { store := s, response := .thrown (some 404) "Chat Not Found" }
  | some chat =>
    match s.findGroup chat.groupDetails with
    | none => { store := s, response := .thrown none "TypeError" }
    | some group =>
      if !group.admins.any (fun a => a == actor.id) then
        { store := s, response := .thrown (some 401) "Admins only" }
      else if action == "accept" then
        let s1 := s.updateChat chatId (fun c => { c with users := push c.users userId })
        let s2 := s1.updateGroup (some group.id)
          (fun g => { g with joinRequests := pull g.joinRequests userId })
        match s2.findUser userId with
        | none => { store := s2, response := .thrown none "TypeError" }
        | some user =>
          let s3 := createSystemMessage s2 chatId (user.firstName ++ " join request accepted.")
          { store := s3, response := .sent 200 (.note "Request Accepted") }
      else
        let s1 := s.updateGroup (some group.id)
          (fun g => { g with joinRequests := pull g.joinRequests userId })
        { store := s1, response := .sent 200 (.note "Request Rejected") }


/-- Handler `fetchChats`: the chats of the user that the user has not deleted,
newest first. The `updatedAt` timestamps are not kept in the store; `updatedAt` gives
the timestamp of a chat at the time of the call. -/
def fetchChats (updatedAt : Chat → Nat) (s : Store) (actor : User) : Outcome :=
  let results := s.chats.filter
    (fun c => c.users.contains actor.id && !c.deletedBy.contains actor.id)
  { store := s,
    response := .sent 200
      (.chats (results.insertionSort (fun a b => updatedAt b ≤ updatedAt a))) }

/-- Handler `toggleMute`. -/
def toggleMute (s : Store) (actor : User) (chatId : Nat) : Outcome :=
  match s.findChat chatId with
  | none => { store := s, response := .thrown (some 404) "Chat Not Found" }
  | some chat =>
    let userId := actor.id
    if chat.mutedBy.contains userId then
      { store := s.updateChat chatId (fun c => { c with mutedBy := pull c.mutedBy userId }),
        response := .sent 200 (.flagged "Chat Unmuted" false) }
    else
      { store := s.updateChat chatId (fun c => { c with mutedBy := addToSet c.mutedBy userId }),
        response := .sent 200 (.flagged "Chat Muted" true) }

/-- Handler `toggleSharePhone`. -/
def toggleSharePhone (s : Store) (actor : User) (chatId : Nat) : Outcome :=
  match s.findChat chatId with
  | none => { store := s, response := .thrown (some 404) "Chat Not Found" }
  | some chat =>
    let userId := actor.id
    if chat.sharedPhoneNumbers.contains userId then
      { store := s.updateChat chatId
          (fun c => { c with sharedPhoneNumbers := pull c.sharedPhoneNumbers userId }),
        response := .sent 200 (.flagged "Stopped Sharing Phone" false) }
    else
      { store := s.updateChat chatId
          (fun c => { c with sharedPhoneNumbers := addToSet c.sharedPhoneNumbers userId }),
        response := .sent 200 (.flagged "Phone Shared" true) }

/-- Handler `blockUser`: the block list is read from the stored document of the
requesting user. -/
def blockUser (s : Store) (actor : User) (targetId : Nat) : Outcome :=
  match s.findUser actor.id with
  | none => { store := s, response := .thrown none "TypeError" }
  | some user =>
    if user.blockedUsers.contains targetId then
      { store := s.updateUser actor.id
          (fun u => { u with blockedUsers := pull u.blockedUsers targetId }),
        response := .sent 200 (.flagged "User Unblocked" false) }
    else
      { store := s.updateUser actor.id
          (fun u => { u with blockedUsers := addToSet u.blockedUsers targetId }),
        response := .sent 200 (.flagged "User Blocked" true) }

/-- Handler `toggleArchive`. -/
def toggleArchive (s : Store) (actor : User) (chatId : Nat) : Outcome :=
  match s.findChat chatId with
  | none => { store := s, response := .thrown (some 404) "Chat Not Found" }
  | some chat =>
    let userId := actor.id
    if chat.archivedBy.contains userId then
      { store := s.updateChat chatId
          (fun c => { c with archivedBy := pull c.archivedBy userId }),
        response := .sent 200 (.flagged "Chat Unarchived" false) }
    else
      { store := s.updateChat chatId
          (fun c => { c with archivedBy := addToSet c.archivedBy userId }),
        response := .sent 200 (.flagged "Chat Archived" true) }

/-- Handler `deleteUserChat`: one update with `$addToSet` on `deletedBy` and `$pull`
on `archivedBy`. -/
def deleteUserChat (s : Store) (actor : User) (chatId : Nat) : Outcome :=
  match s.findChat chatId with
  | none => { store := s, response := .thrown (some 404) "Chat Not Found" }
  | some _ =>
    let userId := actor.id
    { store := s.updateChat chatId
        (fun c => { c with deletedBy := addToSet c.deletedBy userId,
                           archivedBy := pull c.archivedBy userId }),
      response := .sent 200 (.flagged "Chat Deleted" true) }

/-! ## Handlers of `messageController.js` -/

/-- Body of a `sendMessage` request; `content` is empty when missing. -/
structure MessageRequest where
  content : String
  chatId : Option Nat
  type : Option String
  replyTo : Option Nat
deriving DecidableEq, Repr

/-- The `enum` validator of the `type` path. -/
def MessageType.ofString? (t : String) : Option MessageType :=
  if t == "text" then some .text
  else if t == "image" then some .image
  else if t == "video" then some .video
  else if t == "system" then some .system
  else none

/-- The expression `type || "text"` of `sendMessage`. -/
def MessageRequest.typeName (req : MessageRequest) : String :=
  match req.type with
  | none => "text"
  | some t => if t == "" then "text" else t

/-- The message document written by `sendMessage` (`newMessage`). -/
def newMessage (s : Store) (actor : User) (req : MessageRequest) (chatId : Nat)
    (ty : MessageType) : Message :=
  { id := s.nextId, sender := some actor.id, content := jsTrim req.content,
    chat := chatId, readBy := [], type := ty, replyTo := req.replyTo,
    reactions := [], isDeleted := false }

/-- Handler `sendMessage`, up to the response; the push notifications sent after the
response do not touch the store. A `type` outside the enum makes `Message.create`
throw, which the handler turns into status 400. -/
def sendMessage (s : Store) (actor : User) (req : MessageRequest) : Outcome :=
  match req.chatId with
  | none => { store := s, response := .sent 400 .empty }
  | some chatId =>
    if req.content == "" then { store := s, response := .sent 400 .empty }
    else
      match MessageType.ofString? req.typeName with
      | none => { store := s, response := .thrown (some 400) "Message validation failed" }
      | some ty =>
        let message := newMessage s actor req chatId ty
        let s1 := s.insertMessage message
        let s2 := s1.updateChat chatId (fun c => { c with latestMessage := some message.id })
        { store := s2, response := .sent 200 (.message message) }


/-! ## Two `accessChat` calls in flight -/

/-- The part of `accessChat` that runs once its query has returned `isChat`: answer
with the chat found, or create one. -/
def accessChatResume (s : Store) (actor : User) (target : Nat) (foundByMobile : Bool)
    (isChat : List Chat) : Outcome :=
  match isChat with
  | chat :: _ =>
    if foundByMobile then
      let shared : Store × Option Chat :=
        if !chat.sharedPhoneNumbers.contains target then
          let s1 := s.updateChat chat.id
            (fun c => { c with sharedPhoneNumbers := addToSet c.sharedPhoneNumbers target })
          (s1, s1.findChat chat.id)
        else (s, some chat)
      match shared.2 with
      | none => { store := shared.1, response := .thrown none "TypeError" }
      | some chat1 =>
        let s2 :=
          if chat1.deletedBy.contains actor.id then
            shared.1.updateChat chat1.id
              (fun c => { c with deletedBy := pull c.deletedBy actor.id })
          else shared.1
        { store := s2, response := .sent 200 (.chat (some chat1) none) }
    else { store := s, response := .sent 200 (.chat (some chat) none) }
  | [] =>
    let created := newDirectChat s actor target foundByMobile
    let s1 := s.insertChat created
    { store := s1, response := .sent 200 (.chat (s1.findChat created.id) none) }

/-- Progress of one `accessChat` call: not started, query answered, or finished. -/
inductive CallState where
  | idle
  | found (isChat : List Chat)
  | done (response : Response)
deriving DecidableEq, Repr

/-- The chat id answered by a finished call. -/
def CallState.chatId? : CallState → Option Nat
  | .done r => r.chatId?
  | _ => none

/-- One step of a call on the current store: its find step, then its create-or-answer
step. -/
def CallState.step (actor : User) (target : Nat) (foundByMobile : Bool) (s : Store) :
    CallState → Store × CallState
  | .idle => (s, .found (directChats s actor.id target))
  | .found isChat =>
    ((accessChatResume s actor target foundByMobile isChat).store,
      .done (accessChatResume s actor target foundByMobile isChat).response)
  | .done r => (s, .done r)


/-- The test of `findIndex` in `reactToMessage`: the reaction is by user `u` with
this emoji. -/
def isReactionOf (u : Nat) (emoji : String) (r : Nat × String) : Bool :=
  r.1 == u && r.2 == emoji

/-- The reactions after the toggle of `reactToMessage`: `splice` at the index found
erases the first matching entry, otherwise the reaction is pushed. -/
def toggleReaction (reactions : List (Nat × String)) (u : Nat) (emoji : String) :
    List (Nat × String) :=
  if reactions.any (isReactionOf u emoji) then reactions.eraseP (isReactionOf u emoji)
  else reactions ++ [(u, emoji)]

/-- The body `res.json(doc)` for a message looked up again (`null` when absent). -/
def Body.ofMessage : Option Message → Body
  | some m => .message m
  | none => .empty

/-- Handler `reactToMessage`; `emoji` is empty when missing, and a pushed reaction
without emoji fails the `required` validator on save. -/
def reactToMessage (s : Store) (actor : User) (messageId : Nat) (emoji : String) : Outcome :=
  match s.findMessage messageId with
  | none => { store := s, response := .thrown (some 404) "Message not found" }
  | some message =>
    if !message.reactions.any (isReactionOf actor.id emoji) && emoji == "" then
      { store := s, response := .thrown none "Message validation failed" }
    else
      let s1 := s.updateMessage messageId
        (fun m => { m with reactions := toggleReaction message.reactions actor.id emoji })
      { store := s1, response := .sent 200 (Body.ofMessage (s1.findMessage messageId)) }

/-- Handler `deleteMessage`; `message.sender.toString()` throws on a message without
sender. -/
def deleteMessage (s : Store) (actor : User) (messageId : Nat) : Outcome :=
  match s.findMessage messageId with
  | none => { store := s, response := .thrown (some 404) "Message not found" }
  | some message =>
    match message.sender with
    | none => { store := s, response := .thrown none "TypeError" }
    | some sender =>
      if sender != actor.id then
        { store := s, response := .thrown (some 401) "Not authorized to delete this message" }
      else
        { store := s.updateMessage messageId (fun m => { m with isDeleted := true }),
          response := .sent 200 (.message { message with isDeleted := true }) }


/-! ## Group settings -/

/-- Body of an `updateGroupSettings` request; a field is `none` when it is
`undefined`, and a toggle carries the truth value of what was sent. -/
structure SettingsRequest where
  about : Option String
  chatImage : Option String
  onlyAdminsCanMessage : Option Bool
  hideMembersList : Option Bool
  isPrivate : Option Bool
deriving DecidableEq, Repr

/-- The text `systemMsg` accumulated by `updateGroupSettings`. -/
def settingsMessage (req : SettingsRequest) : String :=
  let m0 := ""
  let m1 := match req.about with
    | some _ => m0 ++ "Group about updated. "
    | none => m0
  let m2 := match req.chatImage with
    | some _ => m1 ++ "Group icon updated. "
    | none => m1
  let m3 := match req.onlyAdminsCanMessage with
    | some b =>
      m2 ++ (if b then "Only admins can send messages now. "
             else "All members can send messages now. ")
    | none => m2
  let m4 := match req.hideMembersList with
    | some b =>
      m3 ++ (if b then "Members list is now hidden for non-admins. "
             else "Members list is visible to everyone. ")
    | none => m3
  match req.isPrivate with
  | some b => m4 ++ (if b then "Group is now Private. " else "Group is now Public. ")
  | none => m4

/-- The fields `updateFields` applied to the group document. -/
def applySettings (req : SettingsRequest) (g : Group) : Group :=
  { g with
    description := req.about.getD g.description
    icon := req.chatImage.getD g.icon
    settings :=
      { onlyAdminsPost := req.onlyAdminsCanMessage.getD g.settings.onlyAdminsPost
        hideMembers := req.hideMembersList.getD g.settings.hideMembers
        isPrivate := req.isPrivate.getD g.settings.isPrivate } }

/-- Handler `updateGroupSettings`. -/
def updateGroupSettings (s : Store) (actor : User) (chatId : Nat) (req : SettingsRequest) :
    Outcome :=
  match s.findChat chatId with
  | none => { store := s, response := .thrown (some 404) "Chat Not Found" }
  | some chat =>
    let systemMsg := settingsMessage req
    let s1 := s.updateGroup chat.groupDetails (applySettings req)
    let updatedChat := s1.findChat chatId
    let s2 := if systemMsg != "" then createSystemMessage s1 chatId (jsTrim systemMsg) else s1
    { store := s2,
      response := .sent 200
        (.chat updatedChat (s1.findGroup (updatedChat.bind Chat.groupDetails))) }


/-! ## Handler `getStatuses` of `statusController.js` -/

/-- Handler `getStatuses` at the time `now` (`new Date()`): the unexpired personal
statuses of the user and of the other members of the one-to-one chats of the user,
and the unexpired statuses of the groups of the user, newest first. -/
def getStatuses (s : Store) (actor : User) (now : Nat) : Outcome :=
  let myId := actor.id
  let chats := s.chats.filter (fun c => c.users.contains myId)
  let friendIds :=
    ((chats.filter (fun c => !c.isGroupChat)).map
      (fun c => c.users.filter (fun u => u != myId))).flatten ++ [myId]
  let groupIds := (chats.filter (fun c => c.isGroupChat)).filterMap Chat.groupDetails
  let statuses := s.statuses.filter (fun st =>
    ((friendIds.contains st.user && st.group.isNone) ||
      (match st.group with
        | some g => groupIds.contains g
        | none => false)) && decide (now < st.expiresAt))
  { store := s,
    response := .sent 200
      (.statuses (statuses.insertionSort (fun a b => b.createdAt ≤ a.createdAt))) }

/-! ## Socket sessions of `server.js` -/

/-- A connected socket: `userData` is the user id stored by `setup`, `rooms` the rooms
joined. -/
structure Session where
  id : Nat
  userData : Option Nat
  rooms : List Nat
deriving DecidableEq, Repr

/-- An event sent to the sockets `recipients`. -/
structure Emit where
  event : String
  payload : Option Nat
  recipients : List Nat
deriving DecidableEq, Repr

/-- The server: the database, the connected sockets and the events emitted so far. -/
structure Server where
  store : Store
  sessions : List Session
  emitted : List Emit
deriving DecidableEq, Repr

/-- Event `connection`: a socket is connected. -/
def Server.connect (sv : Server) (socketId : Nat) : Server :=
  { sv with sessions := sv.sessions ++ [{ id := socketId, userData := none, rooms := [] }] }

/-- Handler of `setup`: the socket joins the room of the user and keeps the user
data, the user is stored as online, `user_online` goes to every other socket and
`connected` to the socket itself. -/
def Server.setup (sv : Server) (socketId userId : Nat) : Server :=
  match sv.sessions.find? (fun x => x.id == socketId) with
  | none => sv
  | some _ =>
    { store := sv.store.updateUser userId (fun u => { u with isOnline := true }),
      sessions := updateFirst (fun x => x.id == socketId)
        (fun x => { x with userData := some userId, rooms := x.rooms ++ [userId] })
        sv.sessions,
      emitted := sv.emitted ++
        [{ event := "user_online", payload := some userId,
           recipients := (sv.sessions.filter (fun x => x.id != socketId)).map Session.id },
         { event := "connected", payload := none, recipients := [socketId] }] }

/-- Handler of `disconnect` at the time `now`: when the socket was set up, its user is
stored as offline with `lastSeen = now` and `user_offline` goes to every other
socket. -/
def Server.disconnect (sv : Server) (socketId now : Nat) : Server :=
  match sv.sessions.find? (fun x => x.id == socketId) with
  | none => sv
  | some socket =>
    let others := sv.sessions.eraseP (fun x => x.id == socketId)
    match socket.userData with
    | none => { sv with sessions := others }
    | some userId =>
      { store := sv.store.updateUser userId
          (fun u => { u with isOnline := false, lastSeen := now }),
        sessions := others,
        emitted := sv.emitted ++
          [{ event := "user_offline", payload := some userId,
             recipients := others.map Session.id }] }


/-! ## Handler `updateUserProfile` of `userController.js` -/

/-- The `privacy` object of a profile request. -/
structure PrivacyRequest where
  searchByUsername : Option Bool
  searchByMobile : Option Bool
deriving DecidableEq, Repr

/-- Body of the profile request; a field is `none` when it is missing. The password is
left out, as in `User`. -/
structure ProfileRequest where
  firstName : Option String
  lastName : Option String
  mobile : Option String
  pic : Option String
  gender : Option String
  about : Option String
  username : Option String
  privacy : Option PrivacyRequest
deriving DecidableEq, Repr

/-- The expression `value || stored` on a string field: a missing or empty value is
falsy. -/
def orStored (value : Option String) (stored : String) : String :=
  match value with
  | some v => if v == "" then stored else v
  | none => stored

/-- The constant `fourteenDays`, in milliseconds. -/
def fourteenDays : Nat := 14 * 24 * 60 * 60 * 1000

/-- One day, `24 * 60 * 60 * 1000` milliseconds. -/
def oneDay : Nat := 24 * 60 * 60 * 1000

/-- The value `Math.ceil((fourteenDays - diff) / (24 * 60 * 60 * 1000))`, computed where
`diff < fourteenDays`. The quotient of the two integers is either an integer or at
least `1 / 86400000` away from one, far more than the rounding error of the division,
so the ceiling of the floating-point quotient is the ceiling of the exact one. -/
def daysLeft (diff : Int) : Nat :=
  (((fourteenDays : Int) - diff).toNat + (oneDay - 1)) / oneDay

/-- The message of the error thrown during the cooldown. -/
def cooldownMessage (daysLeft : Nat) : String :=
  "You can change username again in " ++ toString daysLeft ++ " days."

/-- Step 3 of `updateUserProfile` on the loaded document `user` at the time `now`: the
document with the new username, or the exception thrown. -/
def usernameLogic (s : Store) (user : User) (username : Option String) (now : Nat) :
    Except Response User :=
  match username with
  | none => .ok user
  | some name =>
    if name != "" && name != user.username then
      let cooling : Option Nat :=
        match user.lastUsernameChange with
        | some lastChange =>
          let diff : Int := (now : Int) - (lastChange : Int)
          if diff < (fourteenDays : Int) then some (daysLeft diff) else none
        | none => none
      match cooling with
      | some days => .error (.thrown (some 400) (cooldownMessage days))
      | none =>
        if s.users.any (fun u => u.username == name) then
          .error (.thrown (some 400) "Username already taken.")
        else .ok { user with username := name, lastUsernameChange := some now }
    else .ok user

/-- Step 6 of `updateUserProfile`: a system message with the announcement is created in
each of the chats and made the latest message of the chat. -/
def announce (s : Store) (announcementText : String) : List Chat → Store
  | [] => s
  | chat :: rest =>
    let message : Message :=
      { id := s.nextId, sender := none, content := jsTrim announcementText, chat := chat.id,
        readBy := [], type := MessageType.system, replyTo := none, reactions := [],
        isDeleted := false }
    announce
      ((s.insertMessage message).updateChat chat.id
        (fun c => { c with latestMessage := some message.id }))
      announcementText rest

/-- Step 2 of `updateUserProfile`: the fields of the request are set on the loaded
document. -/
def applyUpdates (user : User) (req : ProfileRequest) : User :=
  { user with
    firstName := orStored req.firstName user.firstName,
    lastName := orStored req.lastName user.lastName,
    mobile := orStored req.mobile user.mobile,
    pic := orStored req.pic user.pic,
    gender := orStored req.gender user.gender,
    about := orStored req.about user.about }

/-- Handler `updateUserProfile` at the time `now` (`new Date()`). The fields are set on
the loaded document and reach the store with `user.save()`, which is taken to succeed;
the token of the response and the socket events are not modelled. -/
def updateUserProfile (s : Store) (actor : User) (req : ProfileRequest) (now : Nat) :
    Outcome :=
  match s.findUser actor.id with
  | none => { store := s, response := .thrown (some 404) "User not found" }
  | some user =>
    match usernameLogic s (applyUpdates user req) req.username now with
    | .error thrown => { store := s, response := thrown }
    | .ok named =>
      let updatedUser : User :=
        match req.privacy with
        | some privacy =>
          { named with
            searchByUsername := privacy.searchByUsername.getD named.searchByUsername,
            searchByMobile := privacy.searchByMobile.getD named.searchByMobile }
        | none => named
      let s1 := s.updateUser user.id (fun _ => updatedUser)
      let oldName := jsTrim (user.firstName ++ " " ++ user.lastName)
      let newName := jsTrim (updatedUser.firstName ++ " " ++ updatedUser.lastName)
      let announcements : List String :=
        (if user.username != updatedUser.username then
          ["changed username from @" ++ user.username ++ " to @" ++ updatedUser.username]
        else []) ++
        (if oldName != newName then
          ["changed name from \x27" ++ oldName ++ "\x27 to \x27" ++ newName ++ "\x27"]
        else [])
      let s2 :=
        if announcements.length > 0 then
          announce s1 (newName ++ " " ++ " and ".intercalate announcements)
            (s1.chats.filter (fun c => c.users.contains actor.id))
        else s1
      { store := s2, response := .sent 200 (.profile updatedUser) }

/-! ## Sample data -/

/-- Sample user 1. -/
def ann : User := { id := 1, firstName := "Ann", lastName := "Ames", blockedUsers := [] }

/-- Sample user 2. -/
def bob : User := { id := 2, firstName := "Bob", lastName := "Burk", blockedUsers := [] }

/-- Sample user 4, member of no sample group. -/
def dan : User := { id := 4, firstName := "Dan", lastName := "Dorn", blockedUsers := [] }

/-- A database holding only the sample users. -/
def usersOnly : Store := Store.ofUsers [ann, bob, dan]

/-- The request by which Ann creates a public group with members 2 and 3. -/
def teamRequest : GroupRequest := { users := some [2, 3], name := "Team", isPrivate := none }

/-- The database after Ann created the group of `teamRequest`: chat 0, group 1. -/
def teamStore : Store := (createGroupChat .noFault usersOnly ann teamRequest).store

/-- The database after Ann created a private group with members 2 and 3. -/
def privateTeamStore : Store :=
  (createGroupChat .noFault usersOnly ann
    { users := some [2, 3], name := "Team", isPrivate := some true }).store

/-! ## Call sequences, invariants and further sample data -/

/-- The stores after each of a series of `joinGroup` calls by one actor. -/
def joinGroupRepeatedly (s : Store) (actor : User) : List Nat → Store
  | [] => s
  | chatId :: rest => joinGroupRepeatedly (joinGroup s actor chatId).store actor rest

/-- User `u` occurs at most once in the users of every chat and at most once in the
join requests of every group. -/
def ListedOnce (u : Nat) (s : Store) : Prop :=
  (∀ c ∈ s.chats, c.users.count u ≤ 1) ∧ (∀ g ∈ s.groups, g.joinRequests.count u ≤ 1)

instance (u : Nat) (s : Store) : Decidable (ListedOnce u s) := by
  unfold ListedOnce
  infer_instance

/-- The database after Ann opened a one-to-one chat with Bob: chat 0, no group. -/
def directStore : Store := (accessChat usersOnly ann (some 2) false).store

/-- Object ids are unique inside the chat and the group collection. -/
def UniqueIds (s : Store) : Prop :=
  (s.chats.map Chat.id).Nodup ∧ (s.groups.map Group.id).Nodup

instance (s : Store) : Decidable (UniqueIds s) := by
  unfold UniqueIds
  infer_instance

/-- A database with two groups: chat 0 with group 1 and one system message (id 2),
then chat 3 with group 4 created by Bob. -/
def twoTeams : Store :=
  (createGroupChat .noFault (removeFromGroup teamStore ann 0 2).store bob
    { users := some [4], name := "Other", isPrivate := none }).store

/-- One `accessChat` call between two fixed users: its direction and its flag. -/
structure DirectCall where
  fromFirst : Bool
  foundByMobile : Bool
deriving DecidableEq, Repr

/-- The call `accessChat` made by `a` for `b`, or by `b` for `a`. -/
def accessBetween (a b : User) (s : Store) (call : DirectCall) : Outcome :=
  if call.fromFirst then accessChat s a (some b.id) call.foundByMobile
  else accessChat s b (some a.id) call.foundByMobile

/-- Outcomes of a series of `accessChat` calls between `a` and `b`, run one after
the other. -/
def accessSeries (a b : User) : Store → List DirectCall → List Outcome
  | _, [] => []
  | s, call :: rest =>
    accessBetween a b s call :: accessSeries a b (accessBetween a b s call).store rest

/-- Ids of the one-to-one chats holding both users. -/
def directIds (s : Store) (a b : Nat) : List Nat := (directChats s a b).map Chat.id

/-- A call of one of the handlers that edit group membership. -/
inductive Op where
  | createGroupChat (actor : User) (req : GroupRequest)
  | addToGroup (actor : User) (chatId userId : Nat)
  | removeFromGroup (actor : User) (chatId userId : Nat)
  | makeGroupAdmin (actor : User) (chatId userId : Nat)
  | removeGroupAdmin (actor : User) (chatId userId : Nat)
  | joinGroup (actor : User) (chatId : Nat)
  | handleJoinRequest (actor : User) (chatId userId : Nat) (action : String)
deriving DecidableEq, Repr

/-- The handler call denoted by an `Op`; the storage collaborator succeeds. -/
def Op.apply (s : Store) : Op → Outcome
  | .createGroupChat actor req => Chatify.createGroupChat .noFault s actor req
  | .addToGroup actor chatId userId => Chatify.addToGroup s actor chatId userId
  | .removeFromGroup actor chatId userId => Chatify.removeFromGroup s actor chatId userId
  | .makeGroupAdmin actor chatId userId => Chatify.makeGroupAdmin s actor chatId userId
  | .removeGroupAdmin actor chatId userId => Chatify.removeGroupAdmin s actor chatId userId
  | .joinGroup actor chatId => Chatify.joinGroup s actor chatId
  | .handleJoinRequest actor chatId userId action =>
    Chatify.handleJoinRequest s actor chatId userId action

/-- The store after a sequence of calls, run one after the other. -/
def run (s : Store) : List Op → Store
  | [] => s
  | op :: rest => run (op.apply s).store rest

/-- A `makeGroupAdmin` call names a user that is in the users of the chat it names
(every other call passes). -/
def Op.targetsMember (s : Store) : Op → Bool
  | .makeGroupAdmin _ chatId userId =>
    match s.findChat chatId with
    | some c => c.users.contains userId
    | none => true
  | _ => true

/-- Every `makeGroupAdmin` call of the sequence names a member of the chat at the
time it is made. -/
def promotesMembersOnly (s : Store) : List Op → Bool
  | [] => true
  | op :: rest => op.targetsMember s && promotesMembersOnly (op.apply s).store rest

/-- Every group has its chat in the store, and its admins are among the users of
that chat. -/
def AdminsAreMembers (s : Store) : Prop :=
  ∀ g ∈ s.groups, (∃ c ∈ s.chats, c.id = g.chatId) ∧
    ∀ c ∈ s.chats, c.id = g.chatId → ∀ a ∈ g.admins, a ∈ c.users

instance (s : Store) : Decidable (AdminsAreMembers s) := by
  unfold AdminsAreMembers
  infer_instance

/-- The consistency kept by the membership handlers: ids are unique and below the
counter, a chat and its group refer to each other, and admins are members. -/
structure Linked (s : Store) : Prop where
  chatIds : (s.chats.map Chat.id).Nodup
  groupIds : (s.groups.map Group.id).Nodup
  chatFresh : ∀ c ∈ s.chats, c.id < s.nextId
  groupFresh : ∀ g ∈ s.groups, g.id < s.nextId
  refFresh : ∀ c ∈ s.chats, ∀ gid, c.groupDetails = some gid → gid < s.nextId
  refBack : ∀ c ∈ s.chats, ∀ g ∈ s.groups, c.groupDetails = some g.id → g.chatId = c.id
  admins : ∀ g ∈ s.groups, ∃ c ∈ s.chats, c.id = g.chatId ∧ c.groupDetails = some g.id ∧
    ∀ a ∈ g.admins, a ∈ c.users


/-- A user whose account was deleted: no sample store holds a document for id 7. -/
def eve : User := { id := 7, firstName := "Eve", lastName := "Eads", blockedUsers := [] }

/-- The private sample group after Dan asked to join. -/
def danRequested : Store := (joinGroup privateTeamStore dan 0).store

/-- The private sample group after Eve asked to join and then deleted her account. -/
def eveRequested : Store := (joinGroup privateTeamStore eve 0).store


/-- Stored flag read by `toggleMute`: user `u` is in `mutedBy` of the chat. -/
def isMutedBy (chatId u : Nat) (s : Store) : Bool :=
  match s.findChat chatId with
  | some c => c.mutedBy.contains u
  | none => false

/-- Stored flag read by `toggleArchive`: user `u` is in `archivedBy` of the chat. -/
def isArchivedBy (chatId u : Nat) (s : Store) : Bool :=
  match s.findChat chatId with
  | some c => c.archivedBy.contains u
  | none => false

/-- Stored flag read by `toggleSharePhone`: user `u` is in `sharedPhoneNumbers` of the
chat. -/
def sharesPhoneIn (chatId u : Nat) (s : Store) : Bool :=
  match s.findChat chatId with
  | some c => c.sharedPhoneNumbers.contains u
  | none => false

/-- Stored flag read by `blockUser`: `target` is in `blockedUsers` of user `u`. -/
def hasBlocked (u target : Nat) (s : Store) : Bool :=
  match s.findUser u with
  | some d => d.blockedUsers.contains target
  | none => false

/-- The call toggles the stored flag at `s`: it answers the negation of the flag and
stores it, and a second call answers and stores the original flag. -/
def TogglesFlag (flag : Store → Bool) (call : Store → Outcome) (s : Store) : Prop :=
  (call s).response.flag? = some (!flag s) ∧ flag (call s).store = !flag s ∧
  (call (call s).store).response.flag? = some (flag s) ∧
  flag (call (call s).store).store = flag s

instance (flag : Store → Bool) (call : Store → Outcome) (s : Store) :
    Decidable (TogglesFlag flag call s) := by
  unfold TogglesFlag
  infer_instance

/-- A store in which Ann has muted and archived chat 0 and blocked user 2. -/
def mutedStore : Store :=
  (blockUser (toggleArchive (toggleMute teamStore ann 0).store ann 0).store ann 2).store


/-- The one-to-one chat of Ann and Bob after Ann deleted it for herself. -/
def hiddenDirectStore : Store := (deleteUserChat directStore ann 0).store


/-- Bob answers in chat 3 of `twoTeams` to message 2, which belongs to chat 0. -/
def crossReply : MessageRequest :=
  { content := "see above", chatId := some 3, type := none, replyTo := some 2 }

/-- Dan, who is in no chat, posts into chat 0 of the sample group. -/
def outsiderPost : MessageRequest :=
  { content := "hello", chatId := some 0, type := none, replyTo := none }


/-- The requesting user of a call between `a` and `b`. -/
def DirectCall.actor (a b : User) (call : DirectCall) : User :=
  if call.fromFirst then a else b

/-- The user id asked for by a call between `a` and `b`. -/
def DirectCall.target (a b : User) (call : DirectCall) : Nat :=
  if call.fromFirst then b.id else a.id

/-- The store and the progress of two `accessChat` calls between `a` and `b`. -/
structure Race where
  store : Store
  first : CallState
  second : CallState
deriving DecidableEq, Repr

/-- The first call, or else the second, takes its next step. -/
def Race.step (a b : User) (c1 c2 : DirectCall) (r : Race) (firstMoves : Bool) : Race :=
  if firstMoves then
    { r with
      store := (r.first.step (c1.actor a b) (c1.target a b) c1.foundByMobile r.store).1
      first := (r.first.step (c1.actor a b) (c1.target a b) c1.foundByMobile r.store).2 }
  else
    { r with
      store := (r.second.step (c2.actor a b) (c2.target a b) c2.foundByMobile r.store).1
      second := (r.second.step (c2.actor a b) (c2.target a b) c2.foundByMobile r.store).2 }

/-- Two calls run under a schedule that names, step by step, the call that moves. -/
def race (a b : User) (c1 c2 : DirectCall) (s : Store) (schedule : List Bool) : Race :=
  schedule.foldl (Race.step a b c1 c2) { store := s, first := .idle, second := .idle }

/-- The interleavings in which one call finishes before the other starts. -/
def serialSchedules : List (List Bool) :=
  [[true, true, false, false], [false, false, true, true]]

/-- The interleavings in which the calls overlap: both find steps come before both
create steps. -/
def overlappingSchedules : List (List Bool) :=
  [[true, false, true, false], [true, false, false, true],
   [false, true, true, false], [false, true, false, true]]


/-- The store after `n` successive `reactToMessage` calls by one user with one emoji. -/
def reactRepeatedly (s : Store) (actor : User) (messageId : Nat) (emoji : String) :
    Nat → Store
  | 0 => s
  | n + 1 => (reactToMessage (reactRepeatedly s actor messageId emoji n) actor messageId
      emoji).store

/-- One `reactToMessage` call: who reacts, to which message, with which emoji. -/
structure ReactCall where
  actor : User
  messageId : Nat
  emoji : String
deriving DecidableEq, Repr

/-- The store after a sequence of `reactToMessage` calls. -/
def reactAll (s : Store) : List ReactCall → Store
  | [] => s
  | call :: rest => reactAll (reactToMessage s call.actor call.messageId call.emoji).store rest

/-- The sample group after Bob posted one message (id 2) into chat 0. -/
def postedStore : Store :=
  (sendMessage teamStore bob
    { content := "hello team", chatId := some 0, type := none, replyTo := none }).store

/-- The store `postedStore` with the same reaction entered twice on message 2. -/
def doubledReactionStore : Store :=
  postedStore.updateMessage 2 (fun m => { m with reactions := [(1, "+1"), (1, "+1")] })

/-- The sample group after Ann removed Bob: message 2 is a system message. -/
def systemMessageStore : Store := (removeFromGroup teamStore ann 0 2).store


/-- The sentence announcing each supplied field, in the order `about`, `chatImage`,
`onlyAdminsCanMessage`, `hideMembersList`, `isPrivate`, as the specification lists
them. -/
def settingsSentences (req : SettingsRequest) : List String :=
  (match req.about with
    | some _ => ["Group about updated."]
    | none => []) ++
  (match req.chatImage with
    | some _ => ["Group icon updated."]
    | none => []) ++
  (match req.onlyAdminsCanMessage with
    | some true => ["Only admins can send messages now."]
    | some false => ["All members can send messages now."]
    | none => []) ++
  (match req.hideMembersList with
    | some true => ["Members list is now hidden for non-admins."]
    | some false => ["Members list is visible to everyone."]
    | none => []) ++
  (match req.isPrivate with
    | some true => ["Group is now Private."]
    | some false => ["Group is now Public."]
    | none => [])

/-- A settings request that touches all five fields. -/
def allSettings : SettingsRequest :=
  { about := some "We ship.", chatImage := some "team.png",
    onlyAdminsCanMessage := some true, hideMembersList := some false,
    isPrivate := some true }

/-- A settings request that touches no field. -/
def noSettings : SettingsRequest :=
  { about := none, chatImage := none, onlyAdminsCanMessage := none,
    hideMembersList := none, isPrivate := none }


/-- Ann is connected with two set-up sockets, 10 and 11, and Bob with socket 12. -/
def twoSessions : Server :=
  (((((({ store := usersOnly, sessions := [], emitted := [] } : Server).connect 10).setup
    10 1).connect 11).setup 11 1).connect 12).setup 12 2

/-- A personal status of Bob and a status of group 1, both expiring at time 100, and a
personal status of Bob expiring at time 500. -/
def statusStore : Store :=
  { teamStore with
    statuses :=
      [{ id := 50, user := 2, group := none, type := .text, content := "old", caption := "",
         color := "#000000", viewers := [], likes := [], expiresAt := 100, createdAt := 10 },
       { id := 51, user := 1, group := some 1, type := .image, content := "g.png",
         caption := "", color := "#000000", viewers := [], likes := [], expiresAt := 100,
         createdAt := 20 },
       { id := 52, user := 1, group := none, type := .text, content := "new", caption := "",
         color := "#000000", viewers := [], likes := [], expiresAt := 500,
         createdAt := 30 }] }


/-- Every group of the store has an admin. -/
def EveryGroupHasAdmin (s : Store) : Prop := ∀ g ∈ s.groups, g.admins ≠ []

instance (s : Store) : Decidable (EveryGroupHasAdmin s) := by
  unfold EveryGroupHasAdmin
  infer_instance

/-- A `removeGroupAdmin` or `removeFromGroup` call names a user besides whom the group
of the chat has another admin (every other call passes, and so does a call on a chat
that is not found or has no group). -/
def Op.sparesAnAdmin (s : Store) : Op → Bool
  | .removeGroupAdmin _ chatId userId | .removeFromGroup _ chatId userId =>
    match s.findChat chatId with
    | some c =>
      match s.findGroup c.groupDetails with
      | some g => g.admins.any (fun a => a != userId)
      | none => true
    | none => true
  | _ => true

/-- Every `removeGroupAdmin` and `removeFromGroup` call of the sequence leaves the group
another admin at the time it is made. -/
def sparesAdmins (s : Store) : List Op → Bool
  | [] => true
  | op :: rest => op.sparesAnAdmin s && sparesAdmins (op.apply s).store rest


/-- A call of one of the handlers that write the users of a chat, `createGroupChat`
apart. -/
inductive ChatOp where
  | accessChat (actor : User) (userId : Option Nat) (foundByMobile : Bool)
  | addToGroup (actor : User) (chatId userId : Nat)
  | removeFromGroup (actor : User) (chatId userId : Nat)
  | joinGroup (actor : User) (chatId : Nat)
  | handleJoinRequest (actor : User) (chatId userId : Nat) (action : String)
deriving DecidableEq, Repr

/-- The handler call denoted by a `ChatOp`. -/
def ChatOp.apply (s : Store) : ChatOp → Outcome
  | .accessChat actor userId foundByMobile => Chatify.accessChat s actor userId foundByMobile
  | .addToGroup actor chatId userId => Chatify.addToGroup s actor chatId userId
  | .removeFromGroup actor chatId userId => Chatify.removeFromGroup s actor chatId userId
  | .joinGroup actor chatId => Chatify.joinGroup s actor chatId
  | .handleJoinRequest actor chatId userId action =>
    Chatify.handleJoinRequest s actor chatId userId action

/-- The store after a sequence of `ChatOp` calls, run one after the other. -/
def runChatOps (s : Store) : List ChatOp → Store
  | [] => s
  | op :: rest => runChatOps (op.apply s).store rest

/-- A chat that is not a group chat has two users, different from each other. -/
def Chat.isPair (c : Chat) : Prop :=
  c.isGroupChat = false → c.users.length = 2 ∧ c.users.Nodup

instance (c : Chat) : Decidable c.isPair := by
  unfold Chat.isPair
  infer_instance

/-- Every chat of the store that is not a group chat has two different users. -/
def DirectChatsArePairs (s : Store) : Prop := ∀ c ∈ s.chats, c.isPair

instance (s : Store) : Decidable (DirectChatsArePairs s) := by
  unfold DirectChatsArePairs
  infer_instance

/-- No chat of the store that is not a group chat refers to a group document. -/
def DirectChatsHaveNoGroup (s : Store) : Prop :=
  ∀ c ∈ s.chats, c.isGroupChat = false → c.groupDetails = none

instance (s : Store) : Decidable (DirectChatsHaveNoGroup s) := by
  unfold DirectChatsHaveNoGroup
  infer_instance

/-- An `accessChat` call names a user other than the caller, and an `addToGroup` or
`removeFromGroup` call names a group chat or a chat that is not found. -/
def ChatOp.respectsPairs (s : Store) : ChatOp → Bool
  | .accessChat actor userId _ => userId != some actor.id
  | .addToGroup _ chatId _ | .removeFromGroup _ chatId _ =>
    match s.findChat chatId with
    | some c => c.isGroupChat
    | none => true
  | _ => true

/-- Every call of the sequence respects the pairs at the time it is made. -/
def respectPairs (s : Store) : List ChatOp → Bool
  | [] => true
  | op :: rest => op.respectsPairs s && respectPairs (op.apply s).store rest

/-- The sample group (chat 0, group 1) next to the one-to-one chat 2 of Ann and Bob. -/
def teamAndDirect : Store := (accessChat teamStore ann (some 2) false).store


/-- The two properties of one-to-one chats that the handlers keep together. -/
def PairsKept (s : Store) : Prop :=
  ∀ c ∈ s.chats, c.isGroupChat = false →
    (c.users.length = 2 ∧ c.users.Nodup) ∧ c.groupDetails = none


/-- The sample group, where Ann has the username `ann`, set at time 1000. -/
def namedStore : Store :=
  teamStore.updateUser 1
    (fun u => { u with username := "ann", mobile := "555", lastUsernameChange := some 1000 })

/-- Ann asks for the username `annie` and the first name `Anna`. -/
def renameRequest : ProfileRequest :=
  { firstName := some "Anna", lastName := none, mobile := none, pic := none, gender := none,
    about := none, username := some "annie", privacy := none }


/-- Two one-to-one chats of Ann and Bob, reached by handler calls alone: chat 0 is
created, Bob is removed from it, chat 2 is created for the pair, Bob is put back
into chat 0, and Ann deletes chat 2 for herself. -/
def twoDirectChats : Store :=
  (deleteUserChat
    (addToGroup
      (accessChat (removeFromGroup directStore ann 0 2).store ann (some 2) false).store
      ann 0 2).store
    ann 2).store

/-- Ann posts into chat 0 with a type outside the enum. -/
def bogusPost : MessageRequest :=
  { content := "hello", chatId := some 0, type := some "bogus", replyTo := none }

/-! ## Lemmas on the collection primitives -/

theorem updateFirst_find_same {α : Type} (p : α → Bool) (f : α → α)
    (hf : ∀ x, p (f x) = p x) (xs : List α) :
    (updateFirst p f xs).find? p = (xs.find? p).map f := by
  induction xs with
  | nil => rfl
  | cons x xs ih =>
    by_cases hx : p x = true
    · simp [updateFirst, hx, List.find?, hf]
    · simp only [Bool.not_eq_true] at hx
      simp [updateFirst, hx, List.find?, ih]

theorem updateFirst_find_other {α : Type} (p q : α → Bool) (f : α → α)
    (hq : ∀ x, q (f x) = q x) (hpq : ∀ x, p x = true → q x = false) (xs : List α) :
    (updateFirst p f xs).find? q = xs.find? q := by
  induction xs with
  | nil => rfl
  | cons x xs ih =>
    by_cases hx : p x = true
    · simp [updateFirst, hx, List.find?, hq, hpq x hx]
    · simp only [Bool.not_eq_true] at hx
      simp [updateFirst, hx, List.find?, ih]

theorem updateFirst_append_fresh {α : Type} (p : α → Bool) (f : α → α) (xs : List α) (y : α)
    (hxs : ∀ x ∈ xs, p x = false) (hy : p y = true) :
    updateFirst p f (xs ++ [y]) = xs ++ [f y] := by
  induction xs with
  | nil => simp [updateFirst, hy]
  | cons x xs ih =>
    have hx : p x = false := hxs x (List.mem_cons_self x xs)
    simp [updateFirst, hx, ih (fun z hz => hxs z (List.mem_cons_of_mem x hz))]

theorem find_append_fresh {α : Type} (p : α → Bool) (xs : List α) (y : α)
    (hxs : ∀ x ∈ xs, p x = false) (hy : p y = true) :
    (xs ++ [y]).find? p = some y := by
  induction xs with
  | nil => simp [List.find?, hy]
  | cons x xs ih =>
    have hx : p x = false := hxs x (List.mem_cons_self x xs)
    simp [List.find?, hx, ih (fun z hz => hxs z (List.mem_cons_of_mem x hz))]

theorem mem_pull (xs : List Nat) (u x : Nat) : x ∈ pull xs u ↔ x ∈ xs ∧ x ≠ u := by
  simp [pull]

theorem not_mem_pull (xs : List Nat) (u : Nat) : u ∉ pull xs u := by
  simp [pull]

theorem mem_push (xs : List Nat) (u x : Nat) : x ∈ push xs u ↔ x ∈ xs ∨ x = u := by
  simp [push]

theorem mem_addToSet (xs : List Nat) (u x : Nat) : x ∈ addToSet xs u ↔ x ∈ xs ∨ x = u := by
  unfold addToSet
  split
  · rename_i h
    constructor
    · exact fun hx => Or.inl hx
    · rintro (hx | rfl)
      · exact hx
      · simpa using h
  · simp

theorem jsTrim_left : jsTrim "A member left the group." = "A member left the group." := by
  decide

/-! ## Lemmas on the store primitives -/

theorem findChat_updateChat_same (s : Store) (chatId : Nat) (f : Chat → Chat)
    (hf : ∀ c, (f c).id = c.id) :
    (s.updateChat chatId f).findChat chatId = (s.findChat chatId).map f := by
  unfold Store.findChat Store.updateChat
  exact updateFirst_find_same _ f (fun c => by simp [hf c]) s.chats

theorem findChat_updateChat_other (s : Store) (chatId other : Nat) (f : Chat → Chat)
    (hf : ∀ c, (f c).id = c.id) (hne : other ≠ chatId) :
    (s.updateChat chatId f).findChat other = s.findChat other := by
  unfold Store.findChat Store.updateChat
  refine updateFirst_find_other _ _ f (fun c => by simp [hf c]) (fun c hc => ?_) s.chats
  simp only [beq_iff_eq] at hc
  simp [hc, Ne.symm hne]

theorem findGroup_updateGroup_same (s : Store) (gid : Nat) (f : Group → Group)
    (hf : ∀ g, (f g).id = g.id) :
    (s.updateGroup (some gid) f).findGroup (some gid) = (s.findGroup (some gid)).map f := by
  unfold Store.findGroup Store.updateGroup
  exact updateFirst_find_same _ f (fun g => by simp [hf g]) s.groups

theorem findChat_updateGroup (s : Store) (ref : Option Nat) (f : Group → Group) (chatId : Nat) :
    (s.updateGroup ref f).findChat chatId = s.findChat chatId := by
  cases ref <;> rfl

theorem findGroup_updateChat (s : Store) (chatId : Nat) (f : Chat → Chat) (ref : Option Nat) :
    (s.updateChat chatId f).findGroup ref = s.findGroup ref := by
  cases ref <;> rfl

theorem findChat_createSystemMessage (s : Store) (chatId : Nat) (content : String) (c : Nat) :
    (createSystemMessage s chatId content).findChat c = s.findChat c := rfl

theorem findGroup_createSystemMessage (s : Store) (chatId : Nat) (content : String)
    (ref : Option Nat) :
    (createSystemMessage s chatId content).findGroup ref = s.findGroup ref := by
  cases ref <;> rfl

/-! ## removeFromGroup -/

/-- C2: on an existing group chat, `removeFromGroup chatId u` succeeds; afterwards the
chat users and the group admins are the former lists with every occurrence of `u`
removed and nothing else changed, so `u` is in neither, and exactly one sender-less
system message `A member left the group.` has been appended for that chat. -/
theorem removeFromGroup_removes_member (s : Store) (actor : User) (chatId u : Nat)
    (c : Chat) (g : Group) (hc : s.findChat chatId = some c)
    (hg : s.findGroup c.groupDetails = some g) :
    (removeFromGroup s actor chatId u).response.status? = some 200 ∧
    (∃ c1, (removeFromGroup s actor chatId u).store.findChat chatId = some c1 ∧
      c1.users = c.users.filter (fun x => x != u) ∧ u ∉ c1.users ∧
      c1.groupDetails = c.groupDetails) ∧
    (∃ g1, (removeFromGroup s actor chatId u).store.findGroup c.groupDetails = some g1 ∧
      g1.admins = g.admins.filter (fun x => x != u) ∧ u ∉ g1.admins) ∧
    (removeFromGroup s actor chatId u).store.messages = s.messages ++
      [{ id := s.nextId, sender := none, content := "A member left the group.",
         chat := chatId, readBy := [], type := MessageType.system, replyTo := none,
         reactions := [], isDeleted := false }] := by
  have h1 := findChat_updateChat_same s chatId (fun c => { c with users := pull c.users u })
    (fun _ => rfl)
  rw [hc, Option.map_some'] at h1
  obtain ⟨gid, hgid⟩ : ∃ gid, c.groupDetails = some gid := by
    cases hd : c.groupDetails with
    | none => rw [hd] at hg; simp [Store.findGroup] at hg
    | some gid => exact ⟨gid, rfl⟩
  have h2 := findGroup_updateGroup_same
    (s.updateChat chatId (fun c => { c with users := pull c.users u })) gid
    (fun g => { g with admins := pull g.admins u }) (fun _ => rfl)
  rw [findGroup_updateChat, ← hgid, hg, Option.map_some'] at h2
  simp only [removeFromGroup, h1, findChat_updateGroup]
  refine ⟨rfl, ⟨{ c with users := pull c.users u }, ?_, rfl, not_mem_pull _ _, rfl⟩,
    ⟨{ g with admins := pull g.admins u }, ?_, rfl, not_mem_pull _ _⟩, ?_⟩
  · rw [findChat_createSystemMessage, findChat_updateGroup]; exact h1
  · rw [findGroup_createSystemMessage]; exact h2
  · simp only [createSystemMessage, jsTrim_left]
    cases hd : c.groupDetails <;> rfl

/-- C2, the scenario of the specification: in the group created by user 1 with members
2 and 3, removing user 2 leaves users 3 and 1, admins 1, and one system message. -/
theorem removeFromGroup_removes_member_witness :
    teamStore.findChat 0 = some
      { id := 0, chatName := "Team", isGroupChat := true, users := [2, 3, 1],
        latestMessage := none, groupDetails := some 1, mutedBy := [],
        sharedPhoneNumbers := [], archivedBy := [], deletedBy := [] } ∧
    ((removeFromGroup teamStore ann 0 2).store.findChat 0).map Chat.users = some [3, 1] ∧
    ((removeFromGroup teamStore ann 0 2).store.findGroup (some 1)).map Group.admins
      = some [1] ∧
    (removeFromGroup teamStore ann 0 2).store.messages.length = 1 := by
  have h := removeFromGroup_removes_member teamStore ann 0 2
    { id := 0, chatName := "Team", isGroupChat := true, users := [2, 3, 1],
      latestMessage := none, groupDetails := some 1, mutedBy := [],
      sharedPhoneNumbers := [], archivedBy := [], deletedBy := [] }
    { id := 1, chatId := 0, name := "Team", description := "This is a group chat.",
      icon := "https://icon-library.com/images/anonymous-avatar-icon/anonymous-avatar-icon-25.jpg",
      admins := [1], joinRequests := [],
      settings := { onlyAdminsPost := false, hideMembers := false, isPrivate := false } }
    (by decide) (by decide)
  obtain ⟨_, ⟨c1, hc1, hu, _, _⟩, ⟨g1, hg1, ha, _⟩, hm⟩ := h
  refine ⟨by decide, ?_, ?_, ?_⟩
  · rw [hc1, Option.map_some', hu]; decide
  · rw [hg1, Option.map_some', ha]; decide
  · rw [hm]; decide

/-! ## createGroupChat -/

theorem createGroupChat_ok (s : Store) (actor : User) (req : GroupRequest)
    (members : List Nat) (hu : req.users = some members) (hname : req.name ≠ "")
    (hm : members ≠ []) (hfresh : ∀ c ∈ s.chats, c.id ≠ s.nextId) :
    (createGroupChat .noFault s actor req).store =
      { s with
        chats := s.chats ++
          [{ newGroupChat s actor req.name members with groupDetails := some (s.nextId + 1) }]
        groups := s.groups ++
          [newGroup (s.insertChat (newGroupChat s actor req.name members)) s.nextId actor
            req.name req.isPrivate]
        nextId := s.nextId + 2 } ∧
    (createGroupChat .noFault s actor req).response.status? = some 200 := by
  have hlen : ¬ members.length < 1 := by
    cases members with
    | nil => exact absurd rfl hm
    | cons a as => simp
  have hupd : updateFirst (fun c : Chat => c.id == s.nextId)
      (fun c => { c with groupDetails := some (s.nextId + 1) })
      (s.chats ++ [newGroupChat s actor req.name members]) =
      s.chats ++ [{ newGroupChat s actor req.name members with
        groupDetails := some (s.nextId + 1) }] :=
    updateFirst_append_fresh _ _ _ _ (fun c hc => by simpa using hfresh c hc)
      (by simp [newGroupChat])
  constructor
  · simp only [createGroupChat, hu, beq_iff_eq, hname, if_false, hlen, Store.updateChat,
      Store.insertChat, Store.insertGroup]
    simp only [newGroupChat, newGroup] at hupd ⊢
    rw [hupd]
  · simp only [createGroupChat, hu, beq_iff_eq, hname, if_false, hlen]
    rfl

/-- C4: for a request with a non-empty name and a member list, `createGroupChat`
answers 400 and leaves the store unchanged when the list is empty; otherwise it
answers 200 and appends exactly one group chat, whose users are the given members
followed by the actor, and exactly one group, whose admins are the actor alone. -/
theorem createGroupChat_creates (s : Store) (actor : User) (req : GroupRequest)
    (members : List Nat) (hu : req.users = some members) (hname : req.name ≠ "")
    (hfresh : ∀ c ∈ s.chats, c.id ≠ s.nextId) :
    (members = [] →
      (createGroupChat .noFault s actor req).response.status? = some 400 ∧
      (createGroupChat .noFault s actor req).store = s) ∧
    (members ≠ [] →
      (createGroupChat .noFault s actor req).response.status? = some 200 ∧
      ∃ c g, (createGroupChat .noFault s actor req).store.chats = s.chats ++ [c] ∧
        (createGroupChat .noFault s actor req).store.groups = s.groups ++ [g] ∧
        c.isGroupChat = true ∧ c.users = members ++ [actor.id] ∧
        c.groupDetails = some g.id ∧ g.chatId = c.id ∧ g.admins = [actor.id]) := by
  constructor
  · intro hm
    subst hm
    simp only [createGroupChat, hu, beq_iff_eq, hname, if_false]
    exact ⟨rfl, rfl⟩
  · intro hm
    obtain ⟨hs, hr⟩ := createGroupChat_ok s actor req members hu hname hm hfresh
    refine ⟨hr, { newGroupChat s actor req.name members with
      groupDetails := some (s.nextId + 1) },
      newGroup (s.insertChat (newGroupChat s actor req.name members)) s.nextId actor
        req.name req.isPrivate,
      ?_, ?_, rfl, rfl, rfl, rfl, rfl⟩
    · rw [hs]
    · rw [hs]

/-- C4 at a concrete request: Ann creates the group of `teamRequest`. -/
theorem createGroupChat_creates_witness :
    teamRequest.users = some [2, 3] ∧ teamRequest.name ≠ "" ∧
    (createGroupChat .noFault usersOnly ann teamRequest).response.status? = some 200 ∧
    (createGroupChat .noFault usersOnly ann teamRequest).store.chats.map Chat.users
      = [[2, 3, 1]] ∧
    (createGroupChat .noFault usersOnly ann teamRequest).store.groups.map Group.admins
      = [[1]] := by
  have h := (createGroupChat_creates usersOnly ann teamRequest [2, 3] rfl (by decide)
    (by decide)).2 (by decide)
  obtain ⟨hr, c, g, hc, hg, _, hu, _, _, ha⟩ := h
  refine ⟨rfl, by decide, hr, ?_, ?_⟩
  · rw [hc]; simp [usersOnly, Store.ofUsers, Store.empty, hu, ann]
  · rw [hg]; simp [usersOnly, Store.ofUsers, Store.empty, ha, ann]

/-- C5 as stated fails: when the group creation fails after the chat was created,
the chat collection is not the one before the call. -/
theorem createGroupChat_not_atomic :
    (createGroupChat (.onGroupCreate "write failed") usersOnly ann teamRequest).store.chats
      ≠ usersOnly.chats := by
  decide

/-- C5 (amended): when the chat record is created and the group creation then fails,
`createGroupChat` answers with status 400 and the message of the storage error;
the store keeps the new chat, without a group reference, and no group is added. -/
theorem createGroupChat_group_failure (s : Store) (actor : User) (req : GroupRequest)
    (members : List Nat) (msg : String) (hu : req.users = some members)
    (hname : req.name ≠ "") (hm : members ≠ []) :
    (createGroupChat (.onGroupCreate msg) s actor req).response = .thrown (some 400) msg ∧
    (createGroupChat (.onGroupCreate msg) s actor req).store.chats =
      s.chats ++ [newGroupChat s actor req.name members] ∧
    (createGroupChat (.onGroupCreate msg) s actor req).store.groups = s.groups ∧
    (createGroupChat (.onGroupCreate msg) s actor req).store.messages = s.messages := by
  have hlen : ¬ members.length < 1 := by
    cases members with
    | nil => exact absurd rfl hm
    | cons a as => simp
  simp [createGroupChat, hu, hname, hlen, Store.insertChat]

/-- C5 (amended) at a concrete request. -/
theorem createGroupChat_group_failure_witness :
    teamRequest.users = some [2, 3] ∧ teamRequest.name ≠ "" ∧
    (createGroupChat (.onGroupCreate "write failed") usersOnly ann teamRequest).response
      = .thrown (some 400) "write failed" ∧
    (createGroupChat (.onGroupCreate "write failed") usersOnly ann teamRequest).store.chats
      = [newGroupChat usersOnly ann "Team" [2, 3]] :=
  have h := createGroupChat_group_failure usersOnly ann teamRequest [2, 3] "write failed"
    rfl (by decide) (by decide)
  ⟨rfl, by decide, h.1, h.2.1⟩

/-! ## joinGroup -/

theorem find_some_id_chat (s : Store) (chatId : Nat) (c : Chat)
    (hc : s.findChat chatId = some c) : c.id = chatId ∧ c ∈ s.chats := by
  unfold Store.findChat at hc
  exact ⟨by simpa using List.find?_some hc, List.mem_of_find?_eq_some hc⟩

theorem find_some_id_group (s : Store) (ref : Option Nat) (g : Group)
    (hg : s.findGroup ref = some g) : ref = some g.id ∧ g ∈ s.groups := by
  cases ref with
  | none => simp [Store.findGroup] at hg
  | some gid =>
    simp only [Store.findGroup] at hg
    have h := List.find?_some hg
    simp only [beq_iff_eq] at h
    exact ⟨by rw [h], List.mem_of_find?_eq_some hg⟩

/-- C9: on a group chat where the actor is neither a member nor a requester,
`joinGroup` on a private group answers `requested`, appends the actor to
`joinRequests` and leaves every chat unchanged; on a public group it answers
`joined`, appends the actor to the chat users and leaves every group unchanged. -/
theorem joinGroup_requests_or_joins (s : Store) (actor : User) (chatId : Nat)
    (c : Chat) (g : Group) (hc : s.findChat chatId = some c)
    (hg : s.findGroup c.groupDetails = some g) (hu : actor.id ∉ c.users)
    (hr : actor.id ∉ g.joinRequests) :
    (g.settings.isPrivate = true →
      (joinGroup s actor chatId).response =
        .sent 200 (.joined "Join request sent to admins" "requested" none none) ∧
      (joinGroup s actor chatId).store.findGroup c.groupDetails =
        some { g with joinRequests := g.joinRequests ++ [actor.id] } ∧
      (joinGroup s actor chatId).store.chats = s.chats) ∧
    (g.settings.isPrivate = false →
      (joinGroup s actor chatId).response =
        .sent 200 (.joined "Joined group" "joined"
          (some { c with users := c.users ++ [actor.id] }) (some g)) ∧
      (joinGroup s actor chatId).store.findChat chatId =
        some { c with users := c.users ++ [actor.id] } ∧
      (joinGroup s actor chatId).store.groups = s.groups) := by
  have hu1 : c.users.contains actor.id = false := by simpa using hu
  have hr1 : g.joinRequests.contains actor.id = false := by simpa using hr
  have hgid := (find_some_id_group s _ g hg).1
  constructor
  · intro hp
    have h2 := findGroup_updateGroup_same s g.id
      (fun g => { g with joinRequests := push g.joinRequests actor.id }) (fun _ => rfl)
    rw [← hgid, hg, Option.map_some'] at h2
    have hk : joinGroup s actor chatId =
        { store := s.updateGroup (some g.id)
            (fun g => { g with joinRequests := push g.joinRequests actor.id }),
          response := .sent 200 (.joined "Join request sent to admins" "requested" none none) } := by
      simp only [joinGroup, hc, hu1, hg, hp, hr1, if_true, Bool.false_eq_true, if_false]
    rw [hk]
    refine ⟨rfl, ?_, rfl⟩
    rw [hgid]; rw [hgid] at h2; exact h2
  · intro hp
    have h1 := findChat_updateChat_same s chatId
      (fun c => { c with users := push c.users actor.id }) (fun _ => rfl)
    rw [hc, Option.map_some'] at h1
    have hk : joinGroup s actor chatId =
        { store := createSystemMessage
            (s.updateChat chatId (fun c => { c with users := push c.users actor.id })) chatId
            (actor.firstName ++ " joined via QR code."),
          response := .sent 200 (.joined "Joined group" "joined"
            (some { c with users := c.users ++ [actor.id] }) (some g)) } := by
      simp only [joinGroup, hc, hu1, hg, hp, Bool.false_eq_true, if_false,
        findChat_createSystemMessage, findGroup_createSystemMessage, h1, Option.some_bind,
        findGroup_updateChat]
      rfl
    rw [hk]
    exact ⟨rfl, h1, rfl⟩

/-- C9, the scenario of the specification: a non-member asks to join a private group
and is recorded as a requester, not as a member; in a public group the same user is
added to the members. -/
theorem joinGroup_requests_or_joins_witness :
    ((joinGroup privateTeamStore dan 0).response =
        .sent 200 (.joined "Join request sent to admins" "requested" none none) ∧
      ((joinGroup privateTeamStore dan 0).store.findGroup (some 1)).map Group.joinRequests
        = some [4] ∧
      (joinGroup privateTeamStore dan 0).store.chats = privateTeamStore.chats) ∧
    ((joinGroup teamStore dan 0).store.findChat 0).map Chat.users = some [2, 3, 1, 4] := by
  have hp := (joinGroup_requests_or_joins privateTeamStore dan 0
    { id := 0, chatName := "Team", isGroupChat := true, users := [2, 3, 1],
      latestMessage := none, groupDetails := some 1, mutedBy := [],
      sharedPhoneNumbers := [], archivedBy := [], deletedBy := [] }
    { id := 1, chatId := 0, name := "Team", description := "This is a group chat.",
      icon := "https://icon-library.com/images/anonymous-avatar-icon/anonymous-avatar-icon-25.jpg",
      admins := [1], joinRequests := [],
      settings := { onlyAdminsPost := false, hideMembers := false, isPrivate := true } }
    (by decide) (by decide) (by decide) (by decide)).1 rfl
  refine ⟨⟨hp.1, ?_, hp.2.2⟩, by decide⟩
  rw [hp.2.1]; rfl

theorem mem_updateFirst {α : Type} (p : α → Bool) (f : α → α) (xs : List α) (y : α)
    (hy : y ∈ updateFirst p f xs) :
    y ∈ xs ∨ ∃ x, xs.find? p = some x ∧ y = f x := by
  induction xs with
  | nil => simp [updateFirst] at hy
  | cons x xs ih =>
    by_cases hx : p x = true
    · simp only [updateFirst, hx, if_true, List.mem_cons] at hy
      rcases hy with rfl | hy
      · exact Or.inr ⟨x, by simp [List.find?, hx], rfl⟩
      · exact Or.inl (List.mem_cons_of_mem x hy)
    · simp only [Bool.not_eq_true] at hx
      simp only [updateFirst, hx, Bool.false_eq_true, if_false, List.mem_cons] at hy
      rcases hy with rfl | hy
      · exact Or.inl (List.mem_cons_self _ _)
      · rcases ih hy with h | ⟨z, hz, rfl⟩
        · exact Or.inl (List.mem_cons_of_mem x h)
        · exact Or.inr ⟨z, by simp [List.find?, hx, hz], rfl⟩

theorem joinGroup_listedOnce (s : Store) (actor : User) (chatId : Nat)
    (h : ListedOnce actor.id s) : ListedOnce actor.id (joinGroup s actor chatId).store := by
  unfold joinGroup
  split
  · exact h
  · rename_i chat hc
    split
    · exact h
    · rename_i hmem
      have hcount : chat.users.count actor.id = 0 := by
        rw [List.count_eq_zero]
        simpa using hmem
      split
      · exact h
      · rename_i group hg
        have hgid := (find_some_id_group s _ group hg).1
        split
        · split
          · exact h
          · rename_i hreq
            have hcount2 : group.joinRequests.count actor.id = 0 := by
              rw [List.count_eq_zero]
              simpa using hreq
            refine ⟨h.1, ?_⟩
            intro g1 hg1
            rcases mem_updateFirst _ _ _ _ hg1 with hold | ⟨x, hx, rfl⟩
            · exact h.2 g1 hold
            · have hxg : x = group := by
                rw [hgid] at hg
                simp only [Store.findGroup] at hg
                rw [hg] at hx
                exact (Option.some.inj hx).symm
              subst hxg
              simp [push, List.count_append, hcount2]
        · refine ⟨?_, h.2⟩
          intro c1 hc1
          rcases mem_updateFirst _ _ _ _ hc1 with hold | ⟨x, hx, rfl⟩
          · exact h.1 c1 hold
          · have hxc : x = chat := by
              unfold Store.findChat at hc
              rw [hc] at hx
              exact (Option.some.inj hx).symm
            subst hxc
            simp [push, List.count_append, hcount]

/-- C10: `joinGroup` answers 400 and leaves the store unchanged when the actor is
already in the chat users, and also when the group is private and the actor is
already in `joinRequests`; hence, over any series of `joinGroup` calls by one actor,
an actor listed at most once in every users list and every `joinRequests` list stays
listed at most once in each. -/
theorem joinGroup_rejects_repeats (s : Store) (actor : User) :
    (∀ chatId c, s.findChat chatId = some c → actor.id ∈ c.users →
      (joinGroup s actor chatId).response.status? = some 400 ∧
      (joinGroup s actor chatId).store = s) ∧
    (∀ chatId c g, s.findChat chatId = some c → s.findGroup c.groupDetails = some g →
      g.settings.isPrivate = true → actor.id ∈ g.joinRequests →
      (joinGroup s actor chatId).response.status? = some 400 ∧
      (joinGroup s actor chatId).store = s) ∧
    (∀ chatIds, ListedOnce actor.id s →
      ListedOnce actor.id (joinGroupRepeatedly s actor chatIds)) := by
  refine ⟨?_, ?_, ?_⟩
  · intro chatId c hc hu
    have hu1 : c.users.contains actor.id = true := by simpa using hu
    constructor <;> simp only [joinGroup, hc, hu1, if_true, Response.status?]
  · intro chatId c g hc hg hp hr
    have hr1 : g.joinRequests.contains actor.id = true := by simpa using hr
    by_cases hu : c.users.contains actor.id = true
    · constructor <;> simp only [joinGroup, hc, hu, if_true, Response.status?]
    · constructor <;>
        simp only [joinGroup, hc, hu, hg, hp, hr1, if_true, if_false, Response.status?,
          Bool.false_eq_true]
  · intro chatIds
    induction chatIds generalizing s with
    | nil => exact fun h => h
    | cons chatId rest ih =>
      intro h
      exact ih (joinGroup s actor chatId).store (joinGroup_listedOnce s actor chatId h)

/-- C10 at concrete calls: a member is refused, and three calls by a non-member on a
public group list that user once. -/
theorem joinGroup_rejects_repeats_witness :
    ((joinGroup teamStore bob 0).response.status? = some 400 ∧
      (joinGroup teamStore bob 0).store = teamStore) ∧
    ListedOnce dan.id (joinGroupRepeatedly teamStore dan [0, 0, 0]) ∧
    ((joinGroupRepeatedly teamStore dan [0, 0, 0]).findChat 0).map Chat.users
      = some [2, 3, 1, 4] :=
  ⟨(joinGroup_rejects_repeats teamStore bob).1 0
      { id := 0, chatName := "Team", isGroupChat := true, users := [2, 3, 1],
        latestMessage := none, groupDetails := some 1, mutedBy := [],
        sharedPhoneNumbers := [], archivedBy := [], deletedBy := [] }
      (by decide) (by decide),
    (joinGroup_rejects_repeats teamStore dan).2.2 [0, 0, 0] (by decide),
    by decide⟩

/-! ## deleteGroup -/

theorem eraseP_eq_filter_of_nodup {α : Type} (key : α → Nat) (k : Nat) (xs : List α)
    (h : (xs.map key).Nodup) :
    xs.eraseP (fun x => key x == k) = xs.filter (fun x => key x != k) := by
  induction xs with
  | nil => rfl
  | cons x xs ih =>
    rw [List.map_cons, List.nodup_cons] at h
    by_cases hx : key x = k
    · have hall : ∀ y ∈ xs, (key y != k) = true := by
        intro y hy
        have : key y ≠ k := by
          intro hyk
          exact h.1 (by rw [hx, ← hyk]; exact List.mem_map_of_mem key hy)
        simpa using this
      simp [List.eraseP_cons, hx, List.filter_eq_self.2 hall]
    · simp [List.eraseP_cons, hx, ih h.2]

/-- C7, the failing input: chat 0 of `directStore` is the one-to-one chat of users 1
and 2 and has no group. Dan, user 4, who is in no chat and admin of nothing, calls
`deleteGroup` on it: the call answers `Group Removed` and the chat is deleted, where an
authorization error and an unchanged store are due. On the group chat of `teamStore`
the same actor is refused with status 401. -/
theorem deleteGroup_unlinked_chat_any_actor :
    directStore.findChat 0 ≠ none ∧
    (directStore.findChat 0).map Chat.users = some [1, 2] ∧ dan.id ∉ [1, 2] ∧
    directStore.findGroup ((directStore.findChat 0).bind Chat.groupDetails) = none ∧
    (deleteGroup directStore dan 0).response = .sent 200 (.note "Group Removed") ∧
    (deleteGroup directStore dan 0).store.chats = [] ∧
    (deleteGroup teamStore dan 0).response =
      .thrown (some 401) "Only admins can delete the group" ∧
    (deleteGroup teamStore dan 0).store = teamStore := by
  decide

/-- The branches of `deleteGroup`: for a chat whose group document exists, an actor
outside the group admins is refused with status 401 and the store is unchanged, so
the chat is removed only for an admin; an unknown chat id fails with status 404 and
leaves the store unchanged; on a chat whose group is not found the admin test is not
reached and the chat is removed for every actor, groups and messages staying as they
were. -/
theorem deleteGroup_authorization (s : Store) (actor : User) (chatId : Nat) :
    (s.findChat chatId = none →
      (deleteGroup s actor chatId).response = .thrown (some 404) "Chat Not Found" ∧
      (deleteGroup s actor chatId).store = s) ∧
    (∀ c g, s.findChat chatId = some c → s.findGroup c.groupDetails = some g →
      actor.id ∉ g.admins →
      (deleteGroup s actor chatId).response =
        .thrown (some 401) "Only admins can delete the group" ∧
      (deleteGroup s actor chatId).store = s) ∧
    (∀ c g, s.findChat chatId = some c → s.findGroup c.groupDetails = some g →
      (deleteGroup s actor chatId).store.chats ≠ s.chats → actor.id ∈ g.admins) ∧
    (∀ c, s.findChat chatId = some c → s.findGroup c.groupDetails = none →
      (deleteGroup s actor chatId).response = .sent 200 (.note "Group Removed") ∧
      (deleteGroup s actor chatId).store.chats =
        s.chats.eraseP (fun c => c.id == chatId) ∧
      (deleteGroup s actor chatId).store.groups = s.groups ∧
      (deleteGroup s actor chatId).store.messages = s.messages) := by
  have hdeny : ∀ c g, s.findChat chatId = some c → s.findGroup c.groupDetails = some g →
      actor.id ∉ g.admins →
      deleteGroup s actor chatId =
        { store := s, response := .thrown (some 401) "Only admins can delete the group" } := by
    intro c g hc hg ha
    have ha1 : g.admins.any (fun a => a == actor.id) = false := by
      rw [List.any_eq_false]
      intro x hx hxa
      simp only [beq_iff_eq] at hxa
      exact ha (hxa ▸ hx)
    simp only [deleteGroup, hc, hg, ha1, Bool.not_false, if_true]
  refine ⟨?_, ?_, ?_, ?_⟩
  · intro hc
    constructor <;> simp only [deleteGroup, hc]
  · intro c g hc hg ha
    rw [hdeny c g hc hg ha]
    exact ⟨rfl, rfl⟩
  · intro c g hc hg hne
    by_contra ha
    rw [hdeny c g hc hg ha] at hne
    exact hne rfl
  · intro c hc hg
    have hk : deleteGroup s actor chatId =
        { store := s.deleteChat chatId, response := .sent 200 (.note "Group Removed") } := by
      simp only [deleteGroup, hc, hg]
    rw [hk]
    exact ⟨rfl, rfl, rfl, rfl⟩

/-- The branches of `deleteGroup` at concrete calls: a non-admin is refused on a group
chat, and an unlinked chat is removed for a non-member. -/
theorem deleteGroup_authorization_witness :
    ((deleteGroup teamStore dan 0).response =
        .thrown (some 401) "Only admins can delete the group" ∧
      (deleteGroup teamStore dan 0).store = teamStore) ∧
    (deleteGroup directStore dan 0).store.chats = [] := by
  refine ⟨(deleteGroup_authorization teamStore dan 0).2.1
      { id := 0, chatName := "Team", isGroupChat := true, users := [2, 3, 1],
        latestMessage := none, groupDetails := some 1, mutedBy := [],
        sharedPhoneNumbers := [], archivedBy := [], deletedBy := [] }
      { id := 1, chatId := 0, name := "Team", description := "This is a group chat.",
        icon := "https://icon-library.com/images/anonymous-avatar-icon/anonymous-avatar-icon-25.jpg",
        admins := [1], joinRequests := [],
        settings := { onlyAdminsPost := false, hideMembers := false, isPrivate := false } }
      (by decide) (by decide) (by decide), ?_⟩
  have h := (deleteGroup_authorization directStore dan 0).2.2.2
    { id := 0, chatName := "sender", isGroupChat := false, users := [1, 2],
      latestMessage := none, groupDetails := none, mutedBy := [],
      sharedPhoneNumbers := [], archivedBy := [], deletedBy := [] }
    (by decide) (by decide)
  rw [h.2.1]
  decide

/-- C8: when an admin deletes an existing group chat, the call succeeds and the
store then holds no chat with that id, no group with the id of its group and no
message of that chat, while all other chats, groups and messages are kept as they
were, in order. -/
theorem deleteGroup_cascades (s : Store) (actor : User) (chatId : Nat) (c : Chat)
    (g : Group) (hc : s.findChat chatId = some c)
    (hg : s.findGroup c.groupDetails = some g) (ha : actor.id ∈ g.admins)
    (hids : UniqueIds s) :
    (deleteGroup s actor chatId).response = .sent 200 (.note "Group Deleted Successfully") ∧
    (deleteGroup s actor chatId).store.chats = s.chats.filter (fun x => x.id != chatId) ∧
    (deleteGroup s actor chatId).store.groups = s.groups.filter (fun x => x.id != g.id) ∧
    (deleteGroup s actor chatId).store.messages =
      s.messages.filter (fun m => m.chat != chatId) ∧
    (∀ x ∈ (deleteGroup s actor chatId).store.chats, x.id ≠ chatId) ∧
    (∀ x ∈ (deleteGroup s actor chatId).store.groups, x.id ≠ g.id) ∧
    (∀ m ∈ (deleteGroup s actor chatId).store.messages, m.chat ≠ chatId) := by
  have ha1 : g.admins.any (fun a => a == actor.id) = true := by
    rw [List.any_eq_true]
    exact ⟨actor.id, ha, by simp⟩
  have hgid := (find_some_id_group s _ g hg).1
  have hg1 : s.findGroup (some g.id) = some g := by rw [← hgid]; exact hg
  have hk : deleteGroup s actor chatId =
      { store := ((s.deleteGroupDoc (some g.id)).deleteChat chatId).deleteMessagesOf chatId,
        response := .sent 200 (.note "Group Deleted Successfully") } := by
    simp only [deleteGroup, hc, hgid, hg1, ha1, Bool.not_true, Bool.false_eq_true, if_false]
  have hchats : (deleteGroup s actor chatId).store.chats
      = s.chats.filter (fun x => x.id != chatId) := by
    rw [hk]
    exact eraseP_eq_filter_of_nodup Chat.id chatId s.chats hids.1
  have hgroups : (deleteGroup s actor chatId).store.groups
      = s.groups.filter (fun x => x.id != g.id) := by
    rw [hk]
    exact eraseP_eq_filter_of_nodup Group.id g.id s.groups hids.2
  have hmsgs : (deleteGroup s actor chatId).store.messages
      = s.messages.filter (fun m => m.chat != chatId) := by
    rw [hk]
    rfl
  refine ⟨by rw [hk], hchats, hgroups, hmsgs, ?_, ?_, ?_⟩
  · intro x hx
    rw [hchats] at hx
    simpa using (List.mem_filter.1 hx).2
  · intro x hx
    rw [hgroups] at hx
    simpa using (List.mem_filter.1 hx).2
  · intro m hm
    rw [hmsgs] at hm
    simpa using (List.mem_filter.1 hm).2

/-- C8 at a concrete store: Ann, admin of chat 0, deletes it; chat 0, group 1 and the
message of chat 0 are gone, chat 3 and group 4 remain. -/
theorem deleteGroup_cascades_witness :
    UniqueIds twoTeams ∧
    (deleteGroup twoTeams ann 0).store.chats.map Chat.id = [3] ∧
    (deleteGroup twoTeams ann 0).store.groups.map Group.id = [4] ∧
    (deleteGroup twoTeams ann 0).store.messages = [] ∧
    twoTeams.messages.length = 1 := by
  have h := deleteGroup_cascades twoTeams ann 0
    { id := 0, chatName := "Team", isGroupChat := true, users := [3, 1],
      latestMessage := none, groupDetails := some 1, mutedBy := [],
      sharedPhoneNumbers := [], archivedBy := [], deletedBy := [] }
    { id := 1, chatId := 0, name := "Team", description := "This is a group chat.",
      icon := "https://icon-library.com/images/anonymous-avatar-icon/anonymous-avatar-icon-25.jpg",
      admins := [1], joinRequests := [],
      settings := { onlyAdminsPost := false, hideMembers := false, isPrivate := false } }
    (by decide) (by decide) (by decide) (by decide)
  refine ⟨by decide, ?_, ?_, ?_, by decide⟩
  · rw [h.2.1]; decide
  · rw [h.2.2.1]; decide
  · rw [h.2.2.2.1]; decide

/-! ## Operations without an admin check -/

/-- C6 as stated fails: Dan is not an admin (not even a member) of the group of chat 0,
yet his `addToGroup` call succeeds and changes the chat users. -/
theorem addToGroup_by_non_admin :
    (teamStore.findGroup (some 1)).map Group.admins = some [1] ∧
    dan.id ∉ [1] ∧
    (addToGroup teamStore dan 0 4).response.status? = some 200 ∧
    ((addToGroup teamStore dan 0 4).store.findChat 0).map Chat.users = some [2, 3, 1, 4] ∧
    (addToGroup teamStore dan 0 4).store ≠ teamStore := by
  decide

/-- C6 (amended): `addToGroup` and `renameGroup` make no admin check. On every
existing chat and for every actor, admin or not, `addToGroup` succeeds and appends
the target to the chat users, `renameGroup` succeeds and sets the trimmed name on the
chat and on its group, and `removeFromGroup` with the actor as target succeeds and
leaves the actor out of the chat users. -/
theorem membership_edits_need_no_admin (s : Store) (actor : User) (chatId : Nat) (c : Chat)
    (hc : s.findChat chatId = some c) :
    (∀ userId,
      (addToGroup s actor chatId userId).response.status? = some 200 ∧
      (addToGroup s actor chatId userId).store.findChat chatId =
        some { c with users := c.users ++ [userId] } ∧
      (addToGroup s actor chatId userId).store.groups = s.groups) ∧
    (∀ chatName,
      (renameGroup s actor chatId chatName).response.status? = some 200 ∧
      (renameGroup s actor chatId chatName).store.findChat chatId =
        some { c with chatName := jsTrim chatName } ∧
      ∀ g, s.findGroup c.groupDetails = some g →
        (renameGroup s actor chatId chatName).store.findGroup c.groupDetails =
          some { g with name := jsTrim chatName }) ∧
    ((removeFromGroup s actor chatId actor.id).response.status? = some 200 ∧
      ∃ c1, (removeFromGroup s actor chatId actor.id).store.findChat chatId = some c1 ∧
        actor.id ∉ c1.users) := by
  refine ⟨?_, ?_, ?_⟩
  · intro userId
    have h1 := findChat_updateChat_same s chatId
      (fun c => { c with users := push c.users userId }) (fun _ => rfl)
    rw [hc, Option.map_some'] at h1
    have hk : addToGroup s actor chatId userId =
        { store := s.updateChat chatId (fun c => { c with users := push c.users userId }),
          response := .sent 200 (.chat (some { c with users := push c.users userId })
            (s.findGroup c.groupDetails)) } := by
      simp only [addToGroup, h1, findGroup_updateChat]
    rw [hk]
    exact ⟨rfl, h1, rfl⟩
  · intro chatName
    have h1 := findChat_updateChat_same s chatId
      (fun c => { c with chatName := jsTrim chatName }) (fun _ => rfl)
    rw [hc, Option.map_some'] at h1
    cases hg : s.findGroup c.groupDetails with
    | none =>
      have hk : renameGroup s actor chatId chatName =
          { store := s.updateChat chatId (fun c => { c with chatName := jsTrim chatName }),
            response := .sent 200 (.chat (some { c with chatName := jsTrim chatName }) none) } := by
        simp only [renameGroup, h1, findGroup_updateChat, hg]
      rw [hk]
      exact ⟨rfl, h1, fun g hg1 => by simp at hg1⟩
    | some g =>
      have hgid := (find_some_id_group s _ g hg).1
      have hg0 : s.findGroup (some g.id) = some g := by rw [← hgid]; exact hg
      have h2 := findGroup_updateGroup_same
        (s.updateChat chatId (fun c => { c with chatName := jsTrim chatName })) g.id
        (fun g => { g with name := jsTrim chatName }) (fun _ => rfl)
      rw [findGroup_updateChat, hg0, Option.map_some'] at h2
      have hk : renameGroup s actor chatId chatName =
          { store := (s.updateChat chatId
              (fun c => { c with chatName := jsTrim chatName })).updateGroup (some g.id)
              (fun g => { g with name := jsTrim chatName }),
            response := .sent 200 (.chat (some { c with chatName := jsTrim chatName })
              (some g)) } := by
        simp only [renameGroup, h1, findGroup_updateChat, hg]
      rw [hk]
      refine ⟨rfl, ?_, ?_⟩
      · rw [findChat_updateGroup]; exact h1
      · intro g1 hg1
        cases hg1
        show ((s.updateChat chatId
          (fun c => { c with chatName := jsTrim chatName })).updateGroup (some g.id)
          (fun g => { g with name := jsTrim chatName })).findGroup c.groupDetails = _
        rw [hgid]
        exact h2
  · have h1 := findChat_updateChat_same s chatId
      (fun c => { c with users := pull c.users actor.id }) (fun _ => rfl)
    rw [hc, Option.map_some'] at h1
    simp only [removeFromGroup, h1, findChat_updateGroup]
    refine ⟨rfl, { c with users := pull c.users actor.id }, ?_, not_mem_pull _ _⟩
    rw [findChat_createSystemMessage, findChat_updateGroup]
    exact h1

/-- C6 (amended) at concrete calls by Dan, who is no admin of chat 0. -/
theorem membership_edits_need_no_admin_witness :
    ((addToGroup teamStore dan 0 4).response.status? = some 200 ∧
      ((addToGroup teamStore dan 0 4).store.findChat 0).map Chat.users
        = some [2, 3, 1, 4]) ∧
    ((renameGroup teamStore dan 0 " Crew ").store.findChat 0).map Chat.chatName
      = some "Crew" := by
  have h := membership_edits_need_no_admin teamStore dan 0
    { id := 0, chatName := "Team", isGroupChat := true, users := [2, 3, 1],
      latestMessage := none, groupDetails := some 1, mutedBy := [],
      sharedPhoneNumbers := [], archivedBy := [], deletedBy := [] }
    (by decide)
  refine ⟨⟨(h.1 4).1, ?_⟩, ?_⟩
  · rw [(h.1 4).2.1]; rfl
  · rw [(h.2.1 " Crew ").2.1]; decide

/-! ## accessChat -/

theorem directChats_comm (s : Store) (a b : Nat) : directChats s a b = directChats s b a := by
  unfold directChats
  apply List.filter_congr
  intro c _
  cases c.isGroupChat <;> cases c.users.contains a <;> cases c.users.contains b <;> rfl

theorem filter_updateFirst_map {α β : Type} (p q : α → Bool) (f : α → α) (key : α → β)
    (hq : ∀ x, q (f x) = q x) (hk : ∀ x, key (f x) = key x) (xs : List α) :
    ((updateFirst p f xs).filter q).map key = (xs.filter q).map key := by
  induction xs with
  | nil => rfl
  | cons x xs ih =>
    by_cases hx : p x = true
    · by_cases hqx : q x = true
      · simp [updateFirst, hx, List.filter_cons, hq, hqx, hk]
      · simp [updateFirst, hx, List.filter_cons, hq, hqx]
    · by_cases hqx : q x = true
      · simp [updateFirst, hx, List.filter_cons, hqx, ih]
      · simp [updateFirst, hx, List.filter_cons, hqx, ih]

theorem directIds_updateChat (s : Store) (chatId : Nat) (f : Chat → Chat) (a b : Nat)
    (hid : ∀ c, (f c).id = c.id) (hgrp : ∀ c, (f c).isGroupChat = c.isGroupChat)
    (husers : ∀ c, (f c).users = c.users) :
    directIds (s.updateChat chatId f) a b = directIds s a b := by
  unfold directIds directChats Store.updateChat
  exact filter_updateFirst_map _ _ f Chat.id (fun c => by simp [hgrp c, husers c]) hid s.chats

theorem findChat_of_mem (s : Store) (c : Chat) (hc : c ∈ s.chats) :
    ∃ c0, s.findChat c.id = some c0 ∧ c0.id = c.id := by
  cases h : s.findChat c.id with
  | none =>
    unfold Store.findChat at h
    rw [List.find?_eq_none] at h
    exact absurd (by simp) (h c hc)
  | some c0 => exact ⟨c0, rfl, (find_some_id_chat s c.id c0 h).1⟩

theorem accessChat_found (s : Store) (actor : User) (target : Nat) (fm : Bool) (chat : Chat)
    (rest : List Chat) (hd : directChats s actor.id target = chat :: rest) (a b : Nat) :
    (accessChat s actor (some target) fm).response.chatId? = some chat.id ∧
    directIds (accessChat s actor (some target) fm).store a b = directIds s a b := by
  have hmem : chat ∈ s.chats := by
    have : chat ∈ directChats s actor.id target := by rw [hd]; exact List.mem_cons_self _ _
    exact (List.mem_filter.1 this).1
  obtain ⟨c0, hc0, hid0⟩ := findChat_of_mem s chat hmem
  cases fm with
  | false =>
    constructor <;>
      simp only [accessChat, hd, Bool.false_eq_true, if_false, Response.chatId?]
  | true =>
    by_cases hsh : chat.sharedPhoneNumbers.contains target = true
    · by_cases hdel : chat.deletedBy.contains actor.id = true
      · have hk : accessChat s actor (some target) true =
            { store := s.updateChat chat.id
                (fun c => { c with deletedBy := pull c.deletedBy actor.id }),
              response := .sent 200 (.chat (some chat) none) } := by
          simp only [accessChat, hd, if_true, hsh, Bool.not_true, Bool.false_eq_true, if_false,
            hdel]
        rw [hk]
        exact ⟨rfl, directIds_updateChat s chat.id
          (fun c => { c with deletedBy := pull c.deletedBy actor.id }) a b
          (fun _ => rfl) (fun _ => rfl) (fun _ => rfl)⟩
      · have hk : accessChat s actor (some target) true =
            { store := s, response := .sent 200 (.chat (some chat) none) } := by
          simp only [accessChat, hd, if_true, hsh, Bool.not_true, Bool.false_eq_true, if_false,
            hdel]
        rw [hk]
        exact ⟨rfl, rfl⟩
    · simp only [Bool.not_eq_true] at hsh
      have h1 := findChat_updateChat_same s chat.id
        (fun c => { c with sharedPhoneNumbers := addToSet c.sharedPhoneNumbers target })
        (fun _ => rfl)
      rw [hc0, Option.map_some'] at h1
      have hi1 := directIds_updateChat s chat.id
        (fun c => { c with sharedPhoneNumbers := addToSet c.sharedPhoneNumbers target }) a b
        (fun _ => rfl) (fun _ => rfl) (fun _ => rfl)
      by_cases hdel : c0.deletedBy.contains actor.id = true
      · have hk : accessChat s actor (some target) true =
            { store := (s.updateChat chat.id (fun c =>
                  { c with sharedPhoneNumbers := addToSet c.sharedPhoneNumbers target })).updateChat
                c0.id (fun c => { c with deletedBy := pull c.deletedBy actor.id }),
              response := .sent 200 (.chat (some
                { c0 with sharedPhoneNumbers := addToSet c0.sharedPhoneNumbers target }) none) } := by
          simp only [accessChat, hd, if_true, hsh, Bool.not_false, h1, hdel]
        rw [hk]
        exact ⟨congrArg some hid0, (directIds_updateChat _ c0.id
          (fun c => { c with deletedBy := pull c.deletedBy actor.id }) a b
          (fun _ => rfl) (fun _ => rfl) (fun _ => rfl)).trans hi1⟩
      · have hk : accessChat s actor (some target) true =
            { store := s.updateChat chat.id (fun c =>
                  { c with sharedPhoneNumbers := addToSet c.sharedPhoneNumbers target }),
              response := .sent 200 (.chat (some
                { c0 with sharedPhoneNumbers := addToSet c0.sharedPhoneNumbers target }) none) } := by
          simp only [accessChat, hd, if_true, hsh, Bool.not_false, h1, hdel, if_false,
            Bool.false_eq_true]
        rw [hk]
        exact ⟨congrArg some hid0, hi1⟩

theorem accessChat_created (s : Store) (actor : User) (target : Nat) (fm : Bool)
    (hd : directChats s actor.id target = []) :
    (accessChat s actor (some target) fm).response.chatId? = some s.nextId ∧
    directIds (accessChat s actor (some target) fm).store actor.id target = [s.nextId] := by
  have hk : accessChat s actor (some target) fm =
      { store := s.insertChat (newDirectChat s actor target fm),
        response := .sent 200 (.chat
          ((s.insertChat (newDirectChat s actor target fm)).findChat s.nextId) none) } := by
    simp only [accessChat, hd]
    rfl
  obtain ⟨c0, hc0, hid0⟩ := findChat_of_mem (s.insertChat (newDirectChat s actor target fm))
    (newDirectChat s actor target fm) (by simp [Store.insertChat])
  have hc1 : (s.insertChat (newDirectChat s actor target fm)).findChat s.nextId = some c0 := hc0
  rw [hk, hc1]
  refine ⟨congrArg some hid0, ?_⟩
  unfold directChats at hd
  have hnone := List.filter_eq_nil_iff.1 hd
  simp only [directIds, directChats, Store.insertChat, List.filter_append, hd, newDirectChat]
  simp

theorem accessBetween_found (a b : User) (s : Store) (call : DirectCall) (k : Nat)
    (hk : directIds s a.id b.id = [k]) :
    (accessBetween a b s call).response.chatId? = some k ∧
    directIds (accessBetween a b s call).store a.id b.id = [k] := by
  obtain ⟨chat, hchat, hid⟩ : ∃ chat, directChats s a.id b.id = [chat] ∧ chat.id = k := by
    unfold directIds at hk
    cases hd : directChats s a.id b.id with
    | nil => rw [hd] at hk; simp at hk
    | cons c cs =>
      rw [hd] at hk
      cases cs with
      | nil => exact ⟨c, rfl, by simpa using hk⟩
      | cons c2 cs2 => simp at hk
  unfold accessBetween
  cases call.fromFirst with
  | true =>
    have h := accessChat_found s a b.id call.foundByMobile chat [] hchat a.id b.id
    simp only [if_true]
    exact ⟨by rw [h.1, hid], by rw [h.2, hk]⟩
  | false =>
    have h := accessChat_found s b a.id call.foundByMobile chat []
      (by rw [directChats_comm]; exact hchat) a.id b.id
    simp only [Bool.false_eq_true, if_false]
    exact ⟨by rw [h.1, hid], by rw [h.2, hk]⟩

theorem accessBetween_created (a b : User) (s : Store) (call : DirectCall)
    (hk : directIds s a.id b.id = []) :
    (accessBetween a b s call).response.chatId? = some s.nextId ∧
    directIds (accessBetween a b s call).store a.id b.id = [s.nextId] := by
  have hnil : directChats s a.id b.id = [] := by
    unfold directIds at hk
    exact List.map_eq_nil_iff.1 hk
  unfold accessBetween
  cases call.fromFirst with
  | true =>
    simp only [if_true]
    exact accessChat_created s a b.id call.foundByMobile hnil
  | false =>
    have h := accessChat_created s b a.id call.foundByMobile
      (by rw [directChats_comm]; exact hnil)
    simp only [Bool.false_eq_true, if_false]
    refine ⟨h.1, ?_⟩
    unfold directIds
    rw [directChats_comm]
    exact h.2

theorem accessSeries_found (a b : User) (k : Nat) (calls : List DirectCall) (s : Store)
    (hk : directIds s a.id b.id = [k]) :
    ∀ o ∈ accessSeries a b s calls,
      o.response.chatId? = some k ∧ directIds o.store a.id b.id = [k] := by
  induction calls generalizing s with
  | nil => intro o ho; simp [accessSeries] at ho
  | cons call rest ih =>
    intro o ho
    have hstep := accessBetween_found a b s call k hk
    simp only [accessSeries, List.mem_cons] at ho
    rcases ho with rfl | ho
    · exact hstep
    · exact ih _ hstep.2 o ho

/-- C3: for two distinct users and a store holding at most one one-to-one chat of the
pair, every series of `accessChat` calls between them, in either direction and with
or without `foundByMobile`, run one after the other, returns one and the same chat
id in every call, and after every call the store holds at most one one-to-one chat
whose users contain both. -/
theorem accessChat_one_chat_per_pair (a b : User) (s : Store) (calls : List DirectCall)
    (hab : a.id ≠ b.id) (hone : (directChats s a.id b.id).length ≤ 1) :
    ∃ k, ∀ o ∈ accessSeries a b s calls,
      o.response.chatId? = some k ∧ (directChats o.store a.id b.id).length ≤ 1 := by
  have hlen : ∀ (t : Store) (k : Nat), directIds t a.id b.id = [k] →
      (directChats t a.id b.id).length ≤ 1 := by
    intro t k ht
    have := congrArg List.length ht
    simp only [directIds, List.length_map, List.length_singleton] at this
    omega
  cases calls with
  | nil => exact ⟨0, fun o ho => by simp [accessSeries] at ho⟩
  | cons call rest =>
    have hfirst : ∃ k, (accessBetween a b s call).response.chatId? = some k ∧
        directIds (accessBetween a b s call).store a.id b.id = [k] := by
      cases hd : directIds s a.id b.id with
      | nil => exact ⟨_, accessBetween_created a b s call hd⟩
      | cons k ks =>
        cases ks with
        | nil => exact ⟨k, accessBetween_found a b s call k hd⟩
        | cons k2 ks2 =>
          have := congrArg List.length hd
          simp only [directIds, List.length_map, List.length_cons] at this
          omega
    obtain ⟨k, hr, hids⟩ := hfirst
    refine ⟨k, fun o ho => ?_⟩
    simp only [accessSeries, List.mem_cons] at ho
    rcases ho with rfl | ho
    · exact ⟨hr, hlen _ k hids⟩
    · have h := accessSeries_found a b k rest _ hids o ho
      exact ⟨h.1, hlen _ k h.2⟩

/-- C3 at a concrete series: Ann and Bob call `accessChat` four times in both
directions, with and without the flag; every call returns chat 0. -/
theorem accessChat_one_chat_per_pair_witness :
    ann.id ≠ bob.id ∧ (directChats usersOnly ann.id bob.id).length ≤ 1 ∧
    (accessSeries ann bob usersOnly
      [⟨true, false⟩, ⟨false, true⟩, ⟨true, true⟩, ⟨false, false⟩]).map
        (fun o => o.response.chatId?) = [some 0, some 0, some 0, some 0] ∧
    ∃ k, ∀ o ∈ accessSeries ann bob usersOnly
        [⟨true, false⟩, ⟨false, true⟩, ⟨true, true⟩, ⟨false, false⟩],
      o.response.chatId? = some k ∧ (directChats o.store ann.id bob.id).length ≤ 1 :=
  ⟨by decide, by decide, by decide,
    accessChat_one_chat_per_pair ann bob usersOnly
      [⟨true, false⟩, ⟨false, true⟩, ⟨true, true⟩, ⟨false, false⟩] (by decide) (by decide)⟩

/-! ## Group administrators stay members -/

theorem updateFirst_eq_map {α : Type} (key : α → Nat) (k : Nat) (f : α → α) (xs : List α)
    (h : (xs.map key).Nodup) :
    updateFirst (fun x => key x == k) f xs = xs.map (fun x => if key x == k then f x else x) := by
  induction xs with
  | nil => rfl
  | cons x xs ih =>
    rw [List.map_cons, List.nodup_cons] at h
    by_cases hx : key x = k
    · have hrest : xs.map (fun x => if key x == k then f x else x) = xs := by
        conv_rhs => rw [← List.map_id xs]
        apply List.map_congr_left
        intro y hy
        have : key y ≠ k := by
          intro hyk
          exact h.1 (by rw [hx, ← hyk]; exact List.mem_map_of_mem key hy)
        simp [this]
      simp only [updateFirst, List.map_cons, hx, beq_self_eq_true, if_true, hrest]
    · have hx1 : (key x == k) = false := by simpa using hx
      simp only [updateFirst, List.map_cons, hx1, Bool.false_eq_true, if_false, ih h.2]

theorem eq_of_mem_of_id_eq {α : Type} (key : α → Nat) (xs : List α)
    (h : (xs.map key).Nodup) (x y : α) (hx : x ∈ xs) (hy : y ∈ xs) (hxy : key x = key y) :
    x = y :=
  List.inj_on_of_nodup_map h hx hy hxy

theorem Linked.map {s : Store} (h : Linked s) (FC : Chat → Chat) (FG : Group → Group)
    (ms : List Message) (n : Nat) (hn : s.nextId ≤ n)
    (hcid : ∀ c, (FC c).id = c.id) (hcref : ∀ c, (FC c).groupDetails = c.groupDetails)
    (hgid : ∀ g, (FG g).id = g.id) (hgch : ∀ g, (FG g).chatId = g.chatId)
    (hsub : ∀ g ∈ s.groups, ∀ c ∈ s.chats, c.id = g.chatId → c.groupDetails = some g.id →
      (∀ a ∈ g.admins, a ∈ c.users) → ∀ a ∈ (FG g).admins, a ∈ (FC c).users) :
    Linked { s with chats := s.chats.map FC, groups := s.groups.map FG, messages := ms,
                    nextId := n } := by
  have hmc : (s.chats.map FC).map Chat.id = s.chats.map Chat.id := by
    rw [List.map_map]
    exact List.map_congr_left (fun c _ => hcid c)
  have hmg : (s.groups.map FG).map Group.id = s.groups.map Group.id := by
    rw [List.map_map]
    exact List.map_congr_left (fun g _ => hgid g)
  refine ⟨by rw [hmc]; exact h.chatIds, by rw [hmg]; exact h.groupIds, ?_, ?_, ?_, ?_, ?_⟩
  · intro c hc
    obtain ⟨c0, hc0, rfl⟩ := List.mem_map.1 hc
    rw [hcid]
    exact Nat.lt_of_lt_of_le (h.chatFresh c0 hc0) hn
  · intro g hg
    obtain ⟨g0, hg0, rfl⟩ := List.mem_map.1 hg
    rw [hgid]
    exact Nat.lt_of_lt_of_le (h.groupFresh g0 hg0) hn
  · intro c hc gid hgd
    obtain ⟨c0, hc0, rfl⟩ := List.mem_map.1 hc
    rw [hcref] at hgd
    exact Nat.lt_of_lt_of_le (h.refFresh c0 hc0 gid hgd) hn
  · intro c hc g hg hgd
    obtain ⟨c0, hc0, rfl⟩ := List.mem_map.1 hc
    obtain ⟨g0, hg0, rfl⟩ := List.mem_map.1 hg
    rw [hcref, hgid] at hgd
    rw [hgch, hcid]
    exact h.refBack c0 hc0 g0 hg0 hgd
  · intro g hg
    obtain ⟨g0, hg0, rfl⟩ := List.mem_map.1 hg
    obtain ⟨c0, hc0, hid, href, hadm⟩ := h.admins g0 hg0
    refine ⟨FC c0, List.mem_map_of_mem FC hc0, ?_, ?_, ?_⟩
    · rw [hcid, hgch]; exact hid
    · rw [hcref, hgid]; exact href
    · exact hsub g0 hg0 c0 hc0 hid href hadm

theorem Linked.update {s : Store} (h : Linked s) (k : Nat) (fc : Chat → Chat)
    (ref : Option Nat) (fg : Group → Group) (ms : List Message) (n : Nat)
    (hn : s.nextId ≤ n)
    (hcid : ∀ c, (fc c).id = c.id) (hcref : ∀ c, (fc c).groupDetails = c.groupDetails)
    (hgid : ∀ g, (fg g).id = g.id) (hgch : ∀ g, (fg g).chatId = g.chatId)
    (hsub : ∀ g ∈ s.groups, ∀ c ∈ s.chats, c.id = g.chatId → c.groupDetails = some g.id →
      (∀ a ∈ g.admins, a ∈ c.users) →
      ∀ a ∈ (if ref = some g.id then fg g else g).admins,
        a ∈ (if c.id = k then fc c else c).users) :
    Linked { (s.updateChat k fc).updateGroup ref fg with messages := ms, nextId := n } := by
  have hchats : ((s.updateChat k fc).updateGroup ref fg).chats =
      s.chats.map (fun c => if c.id = k then fc c else c) := by
    have : ((s.updateChat k fc).updateGroup ref fg).chats = (s.updateChat k fc).chats := by
      cases ref <;> rfl
    rw [this]
    unfold Store.updateChat
    simp only [updateFirst_eq_map Chat.id k fc s.chats h.chatIds, beq_iff_eq]
  have hgroups : ((s.updateChat k fc).updateGroup ref fg).groups =
      s.groups.map (fun g => if ref = some g.id then fg g else g) := by
    cases ref with
    | none =>
      simp only [Store.updateGroup, Store.updateChat, reduceCtorEq, if_false, List.map_id']
    | some gid =>
      simp only [Store.updateGroup, Store.updateChat,
        updateFirst_eq_map Group.id gid fg s.groups h.groupIds, beq_iff_eq, Option.some.injEq]
      apply List.map_congr_left
      intro g _
      by_cases hg : g.id = gid
      · simp [hg]
      · simp [hg, Ne.symm hg]
  have hmap := Linked.map h (fun c => if c.id = k then fc c else c)
    (fun g => if ref = some g.id then fg g else g) ms n hn
    (fun c => by dsimp only; split <;> simp [hcid])
    (fun c => by dsimp only; split <;> simp [hcref])
    (fun g => by dsimp only; split <;> simp [hgid])
    (fun g => by dsimp only; split <;> simp [hgch])
    hsub
  have heq : ({ (s.updateChat k fc).updateGroup ref fg with messages := ms, nextId := n } : Store)
      = { s with chats := s.chats.map (fun c => if c.id = k then fc c else c),
                 groups := s.groups.map (fun g => if ref = some g.id then fg g else g),
                 messages := ms, nextId := n } := by
    have husers : ((s.updateChat k fc).updateGroup ref fg).users = s.users := by
      cases ref <;> rfl
    rw [← hchats, ← hgroups, ← husers]
    rfl
  rw [heq]
  exact hmap

theorem Linked.edit {s : Store} (h : Linked s) (k : Nat) (fc : Chat → Chat)
    (ref : Option Nat) (fg : Group → Group) (ms : List Message) (n : Nat)
    (hn : s.nextId ≤ n)
    (hcid : ∀ c, (fc c).id = c.id) (hcref : ∀ c, (fc c).groupDetails = c.groupDetails)
    (hgid : ∀ g, (fg g).id = g.id) (hgch : ∀ g, (fg g).chatId = g.chatId)
    (hgrow : ∀ c a, a ∈ c.users → a ∈ (fc c).users)
    (hshrink : ∀ g a, a ∈ (fg g).admins → a ∈ g.admins) :
    Linked { (s.updateChat k fc).updateGroup ref fg with messages := ms, nextId := n } := by
  refine Linked.update h k fc ref fg ms n hn hcid hcref hgid hgch ?_
  intro g _ c _ _ _ hadm a ha
  have ha1 : a ∈ g.admins := by
    split at ha
    · exact hshrink g a ha
    · exact ha
  split
  · exact hgrow c a (hadm a ha1)
  · exact hadm a ha1

theorem updateFirst_id {α : Type} (p : α → Bool) (xs : List α) :
    updateFirst p (fun x => x) xs = xs := by
  induction xs with
  | nil => rfl
  | cons x xs ih => by_cases hx : p x = true <;> simp [updateFirst, hx, ih]

theorem updateChat_id (s : Store) (k : Nat) : s.updateChat k (fun c => c) = s := by
  unfold Store.updateChat
  rw [updateFirst_id]

theorem Linked.editGroup {s : Store} (h : Linked s) (ref : Option Nat) (fg : Group → Group)
    (ms : List Message) (n : Nat) (hn : s.nextId ≤ n)
    (hgid : ∀ g, (fg g).id = g.id) (hgch : ∀ g, (fg g).chatId = g.chatId)
    (hshrink : ∀ g a, a ∈ (fg g).admins → a ∈ g.admins) :
    Linked { s.updateGroup ref fg with messages := ms, nextId := n } := by
  have := Linked.edit h 0 (fun c => c) ref fg ms n hn (fun _ => rfl) (fun _ => rfl) hgid hgch
    (fun _ _ ha => ha) hshrink
  rw [updateChat_id] at this
  exact this

theorem Linked.addToGroup {s : Store} (h : Linked s) (actor : User) (chatId userId : Nat) :
    Linked (addToGroup s actor chatId userId).store := by
  have h1 : Linked (s.updateChat chatId (fun c => { c with users := push c.users userId })) :=
    Linked.edit h chatId (fun c => { c with users := push c.users userId }) none
      (fun g => g) s.messages s.nextId (Nat.le_refl _) (fun _ => rfl) (fun _ => rfl)
      (fun _ => rfl) (fun _ => rfl) (fun c a ha => (mem_push _ _ _).2 (Or.inl ha))
      (fun _ _ ha => ha)
  unfold Chatify.addToGroup
  dsimp only
  split <;> exact h1

theorem Linked.removeGroupAdmin {s : Store} (h : Linked s) (actor : User)
    (chatId userId : Nat) : Linked (removeGroupAdmin s actor chatId userId).store := by
  unfold Chatify.removeGroupAdmin
  dsimp only
  split
  · exact h
  · rename_i chat hc
    split
    · exact Linked.editGroup h chat.groupDetails
        (fun g => { g with admins := pull g.admins userId }) s.messages s.nextId
        (Nat.le_refl _) (fun _ => rfl) (fun _ => rfl)
        (fun g a ha => ((mem_pull _ _ _).1 ha).1)
    · exact Linked.editGroup h chat.groupDetails
        (fun g => { g with admins := pull g.admins userId }) _ _
        (Nat.le_succ _) (fun _ => rfl) (fun _ => rfl)
        (fun g a ha => ((mem_pull _ _ _).1 ha).1)

theorem Linked.joinGroup {s : Store} (h : Linked s) (actor : User) (chatId : Nat) :
    Linked (joinGroup s actor chatId).store := by
  unfold Chatify.joinGroup
  dsimp only
  split
  · exact h
  · split
    · exact h
    · split
      · exact h
      · rename_i group hg
        split
        · split
          · exact h
          · exact Linked.editGroup h (some group.id)
              (fun g => { g with joinRequests := push g.joinRequests actor.id })
              s.messages s.nextId (Nat.le_refl _) (fun _ => rfl)
              (fun _ => rfl) (fun _ _ ha => ha)
        · exact Linked.edit h chatId (fun c => { c with users := push c.users actor.id }) none
            (fun g => g) _ _ (Nat.le_succ _) (fun _ => rfl) (fun _ => rfl)
            (fun _ => rfl) (fun _ => rfl) (fun c a ha => (mem_push _ _ _).2 (Or.inl ha))
            (fun _ _ ha => ha)

theorem Linked.handleJoinRequest {s : Store} (h : Linked s) (actor : User)
    (chatId userId : Nat) (action : String) :
    Linked (handleJoinRequest s actor chatId userId action).store := by
  unfold Chatify.handleJoinRequest
  dsimp only
  split
  · exact h
  · split
    · exact h
    · rename_i group hg
      split
      · exact h
      · split
        · split
          · exact Linked.edit h chatId (fun c => { c with users := push c.users userId })
              (some group.id) (fun g => { g with joinRequests := pull g.joinRequests userId })
              s.messages s.nextId (Nat.le_refl _) (fun _ => rfl) (fun _ => rfl)
              (fun _ => rfl) (fun _ => rfl) (fun c a ha => (mem_push _ _ _).2 (Or.inl ha))
              (fun _ _ ha => ha)
          · exact Linked.edit h chatId (fun c => { c with users := push c.users userId })
              (some group.id) (fun g => { g with joinRequests := pull g.joinRequests userId })
              _ _ (Nat.le_succ _) (fun _ => rfl) (fun _ => rfl)
              (fun _ => rfl) (fun _ => rfl) (fun c a ha => (mem_push _ _ _).2 (Or.inl ha))
              (fun _ _ ha => ha)
        · exact Linked.editGroup h (some group.id)
            (fun g => { g with joinRequests := pull g.joinRequests userId })
            s.messages s.nextId (Nat.le_refl _) (fun _ => rfl)
            (fun _ => rfl) (fun _ _ ha => ha)

theorem Linked.chat_unique {s : Store} (h : Linked s) (k : Nat) (c0 c : Chat)
    (hc0 : s.findChat k = some c0) (hc : c ∈ s.chats) (hid : c.id = k) : c = c0 := by
  obtain ⟨h0, hm0⟩ := find_some_id_chat s k c0 hc0
  exact eq_of_mem_of_id_eq Chat.id s.chats h.chatIds c c0 hc hm0 (by rw [hid, h0])

theorem Linked.removeFromGroup {s : Store} (h : Linked s) (actor : User)
    (chatId userId : Nat) : Linked (removeFromGroup s actor chatId userId).store := by
  have hfind := findChat_updateChat_same s chatId
    (fun c => { c with users := pull c.users userId }) (fun _ => rfl)
  have key : ∀ (ref : Option Nat) (ms : List Message) (n : Nat), s.nextId ≤ n →
      (∀ c0, s.findChat chatId = some c0 → ref = c0.groupDetails) →
      Linked { (s.updateChat chatId (fun c => { c with users := pull c.users userId })).updateGroup
        ref (fun g => { g with admins := pull g.admins userId }) with
        messages := ms, nextId := n } := by
    intro ref ms n hn href
    refine Linked.update h chatId (fun c => { c with users := pull c.users userId }) ref
      (fun g => { g with admins := pull g.admins userId }) ms n hn (fun _ => rfl) (fun _ => rfl)
      (fun _ => rfl) (fun _ => rfl) ?_
    intro g _ c hc _ hcg hadm a ha
    by_cases hk : c.id = chatId
    · obtain ⟨c0, hc0, _⟩ := findChat_of_mem s c hc
      rw [hk] at hc0
      have hcc : c = c0 := Linked.chat_unique h chatId c0 c hc0 hc hk
      have hr : ref = some g.id := by rw [href c0 hc0, ← hcc, hcg]
      rw [if_pos hr] at ha
      rw [if_pos hk]
      have ha2 := (mem_pull _ _ _).1 ha
      exact (mem_pull _ _ _).2 ⟨hadm a ha2.1, ha2.2⟩
    · rw [if_neg hk]
      apply hadm
      split at ha
      · exact ((mem_pull _ _ _).1 ha).1
      · exact ha
  unfold Chatify.removeFromGroup
  dsimp only
  split
  · rename_i hnone
    refine key none s.messages s.nextId (Nat.le_refl _) ?_
    intro c0 hc0
    rw [hfind, hc0] at hnone
    simp at hnone
  · rename_i chat hchat
    have href : ∀ c0, s.findChat chatId = some c0 → chat.groupDetails = c0.groupDetails := by
      intro c0 hc0
      rw [hfind, hc0, Option.map_some'] at hchat
      rw [← Option.some.inj hchat]
    split
    · exact key chat.groupDetails s.messages s.nextId (Nat.le_refl _) href
    · exact key chat.groupDetails _ _ (Nat.le_succ _) href

theorem Linked.makeGroupAdmin {s : Store} (h : Linked s) (actor : User)
    (chatId userId : Nat)
    (hmember : (Op.makeGroupAdmin actor chatId userId).targetsMember s = true) :
    Linked (makeGroupAdmin s actor chatId userId).store := by
  unfold Chatify.makeGroupAdmin
  dsimp only
  split
  · exact h
  · rename_i chat hc
    have hu : userId ∈ chat.users := by
      simp only [Op.targetsMember, hc] at hmember
      simpa using hmember
    have key : ∀ (ms : List Message) (n : Nat), s.nextId ≤ n →
        Linked { s.updateGroup chat.groupDetails
          (fun g => { g with admins := addToSet g.admins userId }) with
          messages := ms, nextId := n } := by
      intro ms n hn
      have := Linked.update h chatId (fun c => c) chat.groupDetails
        (fun g => { g with admins := addToSet g.admins userId }) ms n hn (fun _ => rfl)
        (fun _ => rfl) (fun _ => rfl) (fun _ => rfl) (by
          intro g hg c hcm hid hcg hadm a ha
          have hgoal : a ∈ c.users := by
            split at ha
            · rename_i hr
              obtain ⟨hcid, hcm0⟩ := find_some_id_chat s chatId chat hc
              have hback := h.refBack chat hcm0 g hg hr
              have hcc : c = chat :=
                Linked.chat_unique h chatId chat c hc hcm (by rw [hid, hback, hcid])
              rcases (mem_addToSet _ _ _).1 ha with ha1 | rfl
              · exact hadm a ha1
              · rw [hcc]; exact hu
            · exact hadm a ha
          split <;> exact hgoal)
      rw [updateChat_id] at this
      exact this
    split
    · exact key s.messages s.nextId (Nat.le_refl _)
    · exact key _ _ (Nat.le_succ _)

theorem Linked.createGroupChat {s : Store} (h : Linked s) (actor : User)
    (req : GroupRequest) : Linked (createGroupChat .noFault s actor req).store := by
  cases hu : req.users with
  | none =>
    have : (Chatify.createGroupChat .noFault s actor req).store = s := by
      simp only [Chatify.createGroupChat, hu]
    rw [this]; exact h
  | some members =>
    by_cases hname : req.name = ""
    · have : (Chatify.createGroupChat .noFault s actor req).store = s := by
        simp only [Chatify.createGroupChat, hu, hname, beq_self_eq_true, if_true]
      rw [this]; exact h
    · by_cases hm : members = []
      · have : (Chatify.createGroupChat .noFault s actor req).store = s := by
          simp [Chatify.createGroupChat, hu, hname, hm]
        rw [this]; exact h
      · have hfresh : ∀ c ∈ s.chats, c.id ≠ s.nextId :=
          fun c hc => Nat.ne_of_lt (h.chatFresh c hc)
        rw [(createGroupChat_ok s actor req members hu hname hm hfresh).1]
        refine ⟨?_, ?_, ?_, ?_, ?_, ?_, ?_⟩
        · simp only [List.map_append, List.map_cons, List.map_nil]
          refine List.Nodup.append h.chatIds (List.nodup_singleton _) ?_
          rw [List.disjoint_singleton]
          intro hin
          obtain ⟨c, hc, hid⟩ := List.mem_map.1 hin
          exact absurd hid (Nat.ne_of_lt (h.chatFresh c hc))
        · simp only [List.map_append, List.map_cons, List.map_nil]
          refine List.Nodup.append h.groupIds (List.nodup_singleton _) ?_
          rw [List.disjoint_singleton]
          intro hin
          obtain ⟨g, hg, hid⟩ := List.mem_map.1 hin
          have := h.groupFresh g hg
          simp only [newGroup, Store.insertChat] at hid
          omega
        · intro c hc
          rcases List.mem_append.1 hc with hc | hc
          · exact Nat.lt_of_lt_of_le (h.chatFresh c hc) (Nat.le_add_right _ _)
          · rw [List.mem_singleton.1 hc]
            simp [newGroupChat]
        · intro g hg
          rcases List.mem_append.1 hg with hg | hg
          · exact Nat.lt_of_lt_of_le (h.groupFresh g hg) (Nat.le_add_right _ _)
          · rw [List.mem_singleton.1 hg]
            simp [newGroup, Store.insertChat]
        · intro c hc gid hgd
          rcases List.mem_append.1 hc with hc | hc
          · exact Nat.lt_of_lt_of_le (h.refFresh c hc gid hgd) (Nat.le_add_right _ _)
          · rw [List.mem_singleton.1 hc] at hgd
            simp only [Option.some.injEq] at hgd
            show gid < s.nextId + 2
            omega
        · intro c hc g hg hgd
          rcases List.mem_append.1 hc with hc | hc
          · rcases List.mem_append.1 hg with hg | hg
            · exact h.refBack c hc g hg hgd
            · rw [List.mem_singleton.1 hg] at hgd
              have := h.refFresh c hc _ hgd
              simp only [newGroup, Store.insertChat] at this
              omega
          · rcases List.mem_append.1 hg with hg | hg
            · rw [List.mem_singleton.1 hc] at hgd
              have := h.groupFresh g hg
              simp only [Option.some.injEq] at hgd
              omega
            · rw [List.mem_singleton.1 hc, List.mem_singleton.1 hg]
              rfl
        · intro g hg
          rcases List.mem_append.1 hg with hg | hg
          · obtain ⟨c, hc, hrest⟩ := h.admins g hg
            exact ⟨c, List.mem_append_left _ hc, hrest⟩
          · rw [List.mem_singleton.1 hg]
            refine ⟨_, List.mem_append_right _ (List.mem_singleton_self _), rfl, rfl, ?_⟩
            intro a ha
            simp only [newGroup, List.mem_singleton] at ha
            simp [newGroupChat, ha]

theorem Linked.ofUsers (us : List User) : Linked (Store.ofUsers us) := by
  refine ⟨?_, ?_, ?_, ?_, ?_, ?_, ?_⟩ <;> simp [Store.ofUsers, Store.empty]

theorem Linked.apply {s : Store} (h : Linked s) (op : Op) (hop : op.targetsMember s = true) :
    Linked (op.apply s).store := by
  cases op with
  | createGroupChat actor req => exact Linked.createGroupChat h actor req
  | addToGroup actor chatId userId => exact Linked.addToGroup h actor chatId userId
  | removeFromGroup actor chatId userId => exact Linked.removeFromGroup h actor chatId userId
  | makeGroupAdmin actor chatId userId => exact Linked.makeGroupAdmin h actor chatId userId hop
  | removeGroupAdmin actor chatId userId => exact Linked.removeGroupAdmin h actor chatId userId
  | joinGroup actor chatId => exact Linked.joinGroup h actor chatId
  | handleJoinRequest actor chatId userId action =>
    exact Linked.handleJoinRequest h actor chatId userId action

theorem Linked.run (ops : List Op) (s : Store) (h : Linked s)
    (hops : promotesMembersOnly s ops = true) : Linked (run s ops) := by
  induction ops generalizing s with
  | nil => exact h
  | cons op rest ih =>
    simp only [promotesMembersOnly, Bool.and_eq_true] at hops
    exact ih _ (Linked.apply h op hops.1) hops.2

theorem Linked.adminsAreMembers {s : Store} (h : Linked s) : AdminsAreMembers s := by
  intro g hg
  obtain ⟨c, hc, hid, _, hadm⟩ := h.admins g hg
  refine ⟨⟨c, hc, hid⟩, ?_⟩
  intro c1 hc1 hid1
  have : c1 = c := eq_of_mem_of_id_eq Chat.id s.chats h.chatIds c1 c hc1 hc (by rw [hid1, hid])
  rw [this]
  exact hadm

/-- C1 as stated fails: `makeGroupAdmin` accepts any target id; after Ann promotes
user 4, who is not in the chat, the admins of the group are not among its users. -/
theorem makeGroupAdmin_of_non_member :
    ¬ AdminsAreMembers
      (run usersOnly [.createGroupChat ann teamRequest, .makeGroupAdmin ann 0 4]) := by
  decide

/-- C1 (amended): start from a store without chats and run any sequence of
`createGroupChat`, `addToGroup`, `removeFromGroup`, `makeGroupAdmin`,
`removeGroupAdmin`, `joinGroup` and `handleJoinRequest` calls, with arbitrary actors,
chat ids and user ids, in which every `makeGroupAdmin` call names a user who is in the
users of that chat when the call is made. Then every group has its chat in the store
and the admins of the group are among the users of that chat. -/
theorem admins_stay_members (us : List User) (ops : List Op)
    (hops : promotesMembersOnly (Store.ofUsers us) ops = true) :
    AdminsAreMembers (run (Store.ofUsers us) ops) :=
  Linked.adminsAreMembers (Linked.run ops (Store.ofUsers us) (Linked.ofUsers us) hops)

/-- C1 (amended) on a concrete history: a group is created, user 4 is added and made
admin, removed again, readmitted through a join, and user 2 leaves. -/
theorem admins_stay_members_witness :
    promotesMembersOnly (Store.ofUsers [ann, bob, dan])
      [.createGroupChat ann teamRequest, .addToGroup bob 0 4, .makeGroupAdmin ann 0 4,
       .removeFromGroup ann 0 4, .joinGroup dan 0, .removeGroupAdmin dan 0 1,
       .handleJoinRequest ann 0 7 "accept", .removeFromGroup bob 0 2] = true ∧
    AdminsAreMembers (run (Store.ofUsers [ann, bob, dan])
      [.createGroupChat ann teamRequest, .addToGroup bob 0 4, .makeGroupAdmin ann 0 4,
       .removeFromGroup ann 0 4, .joinGroup dan 0, .removeGroupAdmin dan 0 1,
       .handleJoinRequest ann 0 7 "accept", .removeFromGroup bob 0 2]) :=
  ⟨by decide, admins_stay_members [ann, bob, dan] _ (by decide)⟩

/-! ## handleJoinRequest -/

theorem updateFirst_eq_self {α : Type} (p : α → Bool) (f : α → α) (xs : List α)
    (h : ∀ x, xs.find? p = some x → f x = x) : updateFirst p f xs = xs := by
  induction xs with
  | nil => rfl
  | cons x xs ih =>
    by_cases hx : p x = true
    · have := h x (by simp [List.find?, hx])
      simp [updateFirst, hx, this]
    · simp only [Bool.not_eq_true] at hx
      have hrest : ∀ y, xs.find? p = some y → f y = y := by
        intro y hy
        exact h y (by simp [List.find?, hx, hy])
      simp [updateFirst, hx, ih hrest]

theorem pull_of_not_mem (xs : List Nat) (u : Nat) (h : u ∉ xs) : pull xs u = xs := by
  unfold pull
  rw [List.filter_eq_self]
  intro x hx
  have : x ≠ u := fun hxu => h (hxu ▸ hx)
  simpa using this

theorem any_admin (g : Group) (actor : User) (ha : actor.id ∈ g.admins) :
    g.admins.any (fun a => a == actor.id) = true := by
  rw [List.any_eq_true]
  exact ⟨actor.id, ha, by simp⟩

theorem handleJoinRequest_accept_eq (s : Store) (actor : User) (chatId t : Nat) (c : Chat)
    (g : Group) (hc : s.findChat chatId = some c) (hg : s.findGroup c.groupDetails = some g)
    (ha : actor.id ∈ g.admins) :
    handleJoinRequest s actor chatId t "accept" =
      match s.findUser t with
      | none =>
        { store := (s.updateChat chatId (fun c => { c with users := push c.users t })).updateGroup
            (some g.id) (fun g => { g with joinRequests := pull g.joinRequests t }),
          response := .thrown none "TypeError" }
      | some user =>
        { store := createSystemMessage
            ((s.updateChat chatId (fun c => { c with users := push c.users t })).updateGroup
              (some g.id) (fun g => { g with joinRequests := pull g.joinRequests t }))
            chatId (user.firstName ++ " join request accepted."),
          response := .sent 200 (.note "Request Accepted") } := by
  have ha1 := any_admin g actor ha
  have hu : ((s.updateChat chatId (fun c => { c with users := push c.users t })).updateGroup
      (some g.id) (fun g => { g with joinRequests := pull g.joinRequests t })).findUser t
      = s.findUser t := rfl
  simp only [handleJoinRequest, hc, hg, ha1, Bool.not_true, Bool.false_eq_true, if_false,
    beq_self_eq_true, if_true, hu]

theorem handleJoinRequest_reject_eq (s : Store) (actor : User) (chatId t : Nat)
    (action : String) (c : Chat) (g : Group) (hc : s.findChat chatId = some c)
    (hg : s.findGroup c.groupDetails = some g) (ha : actor.id ∈ g.admins)
    (hact : action ≠ "accept") :
    handleJoinRequest s actor chatId t action =
      { store := s.updateGroup (some g.id)
          (fun g => { g with joinRequests := pull g.joinRequests t }),
        response := .sent 200 (.note "Request Rejected") } := by
  have ha1 := any_admin g actor ha
  have hact1 : (action == "accept") = false := by simpa using hact
  simp only [handleJoinRequest, hc, hg, ha1, Bool.not_true, Bool.false_eq_true, if_false, hact1]

/-- For a requester whose user document exists, `handleJoinRequest` by an admin
resolves the request as the specification says: `accept` appends the requester to the
chat users, removes the request and appends one system message; any other action
removes the request, leaves every chat unchanged and creates no message. -/
theorem handleJoinRequest_resolves (s : Store) (actor : User) (chatId t : Nat) (c : Chat)
    (g : Group) (user : User) (hc : s.findChat chatId = some c)
    (hg : s.findGroup c.groupDetails = some g) (ha : actor.id ∈ g.admins)
    (huser : s.findUser t = some user) :
    ((handleJoinRequest s actor chatId t "accept").response =
        .sent 200 (.note "Request Accepted") ∧
      (handleJoinRequest s actor chatId t "accept").store.findChat chatId =
        some { c with users := c.users ++ [t] } ∧
      (handleJoinRequest s actor chatId t "accept").store.findGroup c.groupDetails =
        some { g with joinRequests := g.joinRequests.filter (fun x => x != t) } ∧
      (handleJoinRequest s actor chatId t "accept").store.messages = s.messages ++
        [{ id := s.nextId, sender := none,
           content := jsTrim (user.firstName ++ " join request accepted."),
           chat := chatId, readBy := [], type := MessageType.system, replyTo := none,
           reactions := [], isDeleted := false }]) ∧
    (∀ action, action ≠ "accept" →
      (handleJoinRequest s actor chatId t action).response =
        .sent 200 (.note "Request Rejected") ∧
      (handleJoinRequest s actor chatId t action).store.findGroup c.groupDetails =
        some { g with joinRequests := g.joinRequests.filter (fun x => x != t) } ∧
      (handleJoinRequest s actor chatId t action).store.chats = s.chats ∧
      (handleJoinRequest s actor chatId t action).store.messages = s.messages) := by
  have hgid := (find_some_id_group s _ g hg).1
  have hg0 : s.findGroup (some g.id) = some g := by rw [← hgid]; exact hg
  have h1 := findChat_updateChat_same s chatId (fun c => { c with users := push c.users t })
    (fun _ => rfl)
  rw [hc, Option.map_some'] at h1
  constructor
  · have h2 := findGroup_updateGroup_same
      (s.updateChat chatId (fun c => { c with users := push c.users t })) g.id
      (fun g => { g with joinRequests := pull g.joinRequests t }) (fun _ => rfl)
    rw [findGroup_updateChat, hg0, Option.map_some'] at h2
    rw [handleJoinRequest_accept_eq s actor chatId t c g hc hg ha, huser]
    refine ⟨rfl, ?_, ?_, rfl⟩
    · rw [findChat_createSystemMessage, findChat_updateGroup]; exact h1
    · rw [findGroup_createSystemMessage, hgid]; exact h2
  · intro action hact
    have h2 := findGroup_updateGroup_same s g.id
      (fun g => { g with joinRequests := pull g.joinRequests t }) (fun _ => rfl)
    rw [hg0, Option.map_some'] at h2
    rw [handleJoinRequest_reject_eq s actor chatId t action c g hc hg ha hact]
    refine ⟨rfl, ?_, rfl, rfl⟩
    rw [hgid]; exact h2

/-- C11, the failing input: user 7 asked to join the private group and the account
was deleted afterwards. The accept call of the admin moves the id from the requests
to the chat users and then throws on `user.firstName`: no system message is created
and the call ends in an error instead of `Request Accepted`. -/
theorem handleJoinRequest_accept_deleted_user :
    (eveRequested.findGroup (some 1)).map Group.joinRequests = some [7] ∧
    eveRequested.findUser 7 = none ∧
    (handleJoinRequest eveRequested ann 0 7 "accept").response = .thrown none "TypeError" ∧
    ((handleJoinRequest eveRequested ann 0 7 "accept").store.findChat 0).map Chat.users
      = some [2, 3, 1, 7] ∧
    ((handleJoinRequest eveRequested ann 0 7 "accept").store.findGroup (some 1)).map
      Group.joinRequests = some [] ∧
    (handleJoinRequest eveRequested ann 0 7 "accept").store.messages = [] := by
  decide

/-- C12 as stated fails: Dan is not in the join requests of the public sample group,
yet the accept call of the admin puts him into the chat users. -/
theorem handleJoinRequest_accept_without_request :
    (teamStore.findGroup (some 1)).map Group.joinRequests = some [] ∧
    (teamStore.findChat 0).map Chat.users = some [2, 3, 1] ∧
    (handleJoinRequest teamStore ann 0 4 "accept").response =
      .sent 200 (.note "Request Accepted") ∧
    ((handleJoinRequest teamStore ann 0 4 "accept").store.findChat 0).map Chat.users
      = some [2, 3, 1, 4] := by
  decide

/-- C12 (amended): for a target that is not in `joinRequests`, a reject by an admin is
a no-op that succeeds, the store being left as it was; an accept is not a no-op: it
appends the target to the chat users all the same, and leaves every group, hence
`joinRequests`, unchanged. -/
theorem handleJoinRequest_without_request (s : Store) (actor : User) (chatId t : Nat)
    (c : Chat) (g : Group) (hc : s.findChat chatId = some c)
    (hg : s.findGroup c.groupDetails = some g) (ha : actor.id ∈ g.admins)
    (ht : t ∉ g.joinRequests) :
    (∀ action, action ≠ "accept" →
      (handleJoinRequest s actor chatId t action).response =
        .sent 200 (.note "Request Rejected") ∧
      (handleJoinRequest s actor chatId t action).store = s) ∧
    ((handleJoinRequest s actor chatId t "accept").store.findChat chatId =
        some { c with users := c.users ++ [t] } ∧
      (handleJoinRequest s actor chatId t "accept").store.groups = s.groups) := by
  have hgid := (find_some_id_group s _ g hg).1
  have hg0 : s.findGroup (some g.id) = some g := by rw [← hgid]; exact hg
  have hsame : ∀ (s1 : Store), s1.groups = s.groups →
      (s1.updateGroup (some g.id)
        (fun g => { g with joinRequests := pull g.joinRequests t })).groups = s.groups := by
    intro s1 h1
    show updateFirst _ _ s1.groups = s.groups
    rw [h1]
    apply updateFirst_eq_self
    intro x hx
    have hxg : x = g := by
      simp only [Store.findGroup] at hg0
      rw [hg0] at hx
      exact (Option.some.inj hx).symm
    rw [hxg, pull_of_not_mem _ _ ht]
  constructor
  · intro action hact
    rw [handleJoinRequest_reject_eq s actor chatId t action c g hc hg ha hact]
    refine ⟨rfl, ?_⟩
    show ({ s with groups := (s.updateGroup (some g.id)
      (fun g => { g with joinRequests := pull g.joinRequests t })).groups } : Store) = s
    rw [hsame s rfl]
  · have h1 := findChat_updateChat_same s chatId
      (fun c => { c with users := push c.users t }) (fun _ => rfl)
    rw [hc, Option.map_some'] at h1
    rw [handleJoinRequest_accept_eq s actor chatId t c g hc hg ha]
    cases s.findUser t with
    | none => exact ⟨by rw [findChat_updateGroup]; exact h1, hsame _ rfl⟩
    | some user =>
      exact ⟨by rw [findChat_createSystemMessage, findChat_updateGroup]; exact h1,
        hsame _ rfl⟩

/-- C12 (amended) at concrete calls on the public sample group, where nobody has
asked to join: a reject leaves the store as it was, an accept adds user 4. -/
theorem handleJoinRequest_without_request_witness :
    ((handleJoinRequest teamStore ann 0 4 "reject").response =
        .sent 200 (.note "Request Rejected") ∧
      (handleJoinRequest teamStore ann 0 4 "reject").store = teamStore) ∧
    ((handleJoinRequest teamStore ann 0 4 "accept").store.findChat 0).map Chat.users
      = some [2, 3, 1, 4] := by
  have h := handleJoinRequest_without_request teamStore ann 0 4
    { id := 0, chatName := "Team", isGroupChat := true, users := [2, 3, 1],
      latestMessage := none, groupDetails := some 1, mutedBy := [],
      sharedPhoneNumbers := [], archivedBy := [], deletedBy := [] }
    { id := 1, chatId := 0, name := "Team", description := "This is a group chat.",
      icon := "https://icon-library.com/images/anonymous-avatar-icon/anonymous-avatar-icon-25.jpg",
      admins := [1], joinRequests := [],
      settings := { onlyAdminsPost := false, hideMembers := false, isPrivate := false } }
    (by decide) (by decide) (by decide) (by decide)
  refine ⟨h.1 "reject" (by decide), ?_⟩
  rw [h.2.1]
  rfl

/-! ## Toggles -/

theorem contains_pull (xs : List Nat) (u : Nat) : (pull xs u).contains u = false := by
  have := not_mem_pull xs u
  simpa using this

theorem contains_addToSet (xs : List Nat) (u : Nat) : (addToSet xs u).contains u = true := by
  have := (mem_addToSet xs u u).2 (Or.inr rfl)
  simpa using this

theorem togglesFlag_of_step (flag : Store → Bool) (call : Store → Outcome)
    (P : Store → Prop)
    (hstep : ∀ s, P s → (call s).response.flag? = some (!flag s) ∧
      flag (call s).store = !flag s ∧ P (call s).store)
    (s : Store) (hP : P s) : TogglesFlag flag call s := by
  obtain ⟨hr1, hf1, hP1⟩ := hstep s hP
  obtain ⟨hr2, hf2, _⟩ := hstep _ hP1
  refine ⟨hr1, hf1, ?_, ?_⟩
  · rw [hr2, hf1, Bool.not_not]
  · rw [hf2, hf1, Bool.not_not]

theorem findUser_updateUser_same (s : Store) (userId : Nat) (f : User → User)
    (hf : ∀ u, (f u).id = u.id) :
    (s.updateUser userId f).findUser userId = (s.findUser userId).map f := by
  unfold Store.findUser Store.updateUser
  exact updateFirst_find_same _ f (fun u => by simp [hf u]) s.users

theorem toggleMute_step (actor : User) (chatId : Nat) (s : Store)
    (h : (s.findChat chatId).isSome = true) :
    (toggleMute s actor chatId).response.flag? = some (!isMutedBy chatId actor.id s) ∧
    isMutedBy chatId actor.id (toggleMute s actor chatId).store
      = !isMutedBy chatId actor.id s ∧
    ((toggleMute s actor chatId).store.findChat chatId).isSome = true := by
  obtain ⟨c, hc⟩ := Option.isSome_iff_exists.1 h
  by_cases hm : c.mutedBy.contains actor.id = true
  · have h1 := findChat_updateChat_same s chatId
      (fun c => { c with mutedBy := pull c.mutedBy actor.id }) (fun _ => rfl)
    rw [hc, Option.map_some'] at h1
    simp only [toggleMute, isMutedBy, hc, hm, if_true, h1, contains_pull]
    exact ⟨rfl, rfl, rfl⟩
  · simp only [Bool.not_eq_true] at hm
    have h1 := findChat_updateChat_same s chatId
      (fun c => { c with mutedBy := addToSet c.mutedBy actor.id }) (fun _ => rfl)
    rw [hc, Option.map_some'] at h1
    simp only [toggleMute, isMutedBy, hc, hm, Bool.false_eq_true, if_false, h1,
      contains_addToSet]
    exact ⟨rfl, rfl, rfl⟩

theorem toggleArchive_step (actor : User) (chatId : Nat) (s : Store)
    (h : (s.findChat chatId).isSome = true) :
    (toggleArchive s actor chatId).response.flag? = some (!isArchivedBy chatId actor.id s) ∧
    isArchivedBy chatId actor.id (toggleArchive s actor chatId).store
      = !isArchivedBy chatId actor.id s ∧
    ((toggleArchive s actor chatId).store.findChat chatId).isSome = true := by
  obtain ⟨c, hc⟩ := Option.isSome_iff_exists.1 h
  by_cases hm : c.archivedBy.contains actor.id = true
  · have h1 := findChat_updateChat_same s chatId
      (fun c => { c with archivedBy := pull c.archivedBy actor.id }) (fun _ => rfl)
    rw [hc, Option.map_some'] at h1
    simp only [toggleArchive, isArchivedBy, hc, hm, if_true, h1, contains_pull]
    exact ⟨rfl, rfl, rfl⟩
  · simp only [Bool.not_eq_true] at hm
    have h1 := findChat_updateChat_same s chatId
      (fun c => { c with archivedBy := addToSet c.archivedBy actor.id }) (fun _ => rfl)
    rw [hc, Option.map_some'] at h1
    simp only [toggleArchive, isArchivedBy, hc, hm, Bool.false_eq_true, if_false, h1,
      contains_addToSet]
    exact ⟨rfl, rfl, rfl⟩

theorem toggleSharePhone_step (actor : User) (chatId : Nat) (s : Store)
    (h : (s.findChat chatId).isSome = true) :
    (toggleSharePhone s actor chatId).response.flag?
      = some (!sharesPhoneIn chatId actor.id s) ∧
    sharesPhoneIn chatId actor.id (toggleSharePhone s actor chatId).store
      = !sharesPhoneIn chatId actor.id s ∧
    ((toggleSharePhone s actor chatId).store.findChat chatId).isSome = true := by
  obtain ⟨c, hc⟩ := Option.isSome_iff_exists.1 h
  by_cases hm : c.sharedPhoneNumbers.contains actor.id = true
  · have h1 := findChat_updateChat_same s chatId
      (fun c => { c with sharedPhoneNumbers := pull c.sharedPhoneNumbers actor.id })
      (fun _ => rfl)
    rw [hc, Option.map_some'] at h1
    simp only [toggleSharePhone, sharesPhoneIn, hc, hm, if_true, h1, contains_pull]
    exact ⟨rfl, rfl, rfl⟩
  · simp only [Bool.not_eq_true] at hm
    have h1 := findChat_updateChat_same s chatId
      (fun c => { c with sharedPhoneNumbers := addToSet c.sharedPhoneNumbers actor.id })
      (fun _ => rfl)
    rw [hc, Option.map_some'] at h1
    simp only [toggleSharePhone, sharesPhoneIn, hc, hm, Bool.false_eq_true, if_false, h1,
      contains_addToSet]
    exact ⟨rfl, rfl, rfl⟩

theorem blockUser_step (actor : User) (target : Nat) (s : Store)
    (h : (s.findUser actor.id).isSome = true) :
    (blockUser s actor target).response.flag? = some (!hasBlocked actor.id target s) ∧
    hasBlocked actor.id target (blockUser s actor target).store
      = !hasBlocked actor.id target s ∧
    ((blockUser s actor target).store.findUser actor.id).isSome = true := by
  obtain ⟨d, hd⟩ := Option.isSome_iff_exists.1 h
  by_cases hm : d.blockedUsers.contains target = true
  · have h1 := findUser_updateUser_same s actor.id
      (fun u => { u with blockedUsers := pull u.blockedUsers target }) (fun _ => rfl)
    rw [hd, Option.map_some'] at h1
    simp only [blockUser, hasBlocked, hd, hm, if_true, h1, contains_pull]
    exact ⟨rfl, rfl, rfl⟩
  · simp only [Bool.not_eq_true] at hm
    have h1 := findUser_updateUser_same s actor.id
      (fun u => { u with blockedUsers := addToSet u.blockedUsers target }) (fun _ => rfl)
    rw [hd, Option.map_some'] at h1
    simp only [blockUser, hasBlocked, hd, hm, Bool.false_eq_true, if_false, h1,
      contains_addToSet]
    exact ⟨rfl, rfl, rfl⟩

/-- C13: on an existing chat, one call of `toggleMute`, `toggleArchive` or
`toggleSharePhone` answers the negation of the prior membership of the actor in
`mutedBy`, `archivedBy` or `sharedPhoneNumbers`, and the stored membership then
equals the answer; a second call answers and restores the original membership. The
same holds for `blockUser` and the membership of the target in `blockedUsers` of the
stored document of the actor. -/
theorem toggles_round_trip (s : Store) (actor : User) :
    (∀ chatId, (s.findChat chatId).isSome = true →
      TogglesFlag (isMutedBy chatId actor.id) (fun t => toggleMute t actor chatId) s ∧
      TogglesFlag (isArchivedBy chatId actor.id) (fun t => toggleArchive t actor chatId) s ∧
      TogglesFlag (sharesPhoneIn chatId actor.id)
        (fun t => toggleSharePhone t actor chatId) s) ∧
    (∀ target, (s.findUser actor.id).isSome = true →
      TogglesFlag (hasBlocked actor.id target) (fun t => blockUser t actor target) s) := by
  constructor
  · intro chatId h
    exact ⟨togglesFlag_of_step _ _ (fun t => (t.findChat chatId).isSome = true)
        (toggleMute_step actor chatId) s h,
      togglesFlag_of_step _ _ (fun t => (t.findChat chatId).isSome = true)
        (toggleArchive_step actor chatId) s h,
      togglesFlag_of_step _ _ (fun t => (t.findChat chatId).isSome = true)
        (toggleSharePhone_step actor chatId) s h⟩
  · intro target h
    exact togglesFlag_of_step _ _ (fun t => (t.findUser actor.id).isSome = true)
      (blockUser_step actor target) s h

/-- C13 at concrete stores: in the sample group nothing is muted, archived or blocked
and the first call answers `true`; in `mutedStore` the flags are set and the first
call answers `false`; two calls restore the flag in both. -/
theorem toggles_round_trip_witness :
    (TogglesFlag (isMutedBy 0 ann.id) (fun t => toggleMute t ann 0) teamStore ∧
      TogglesFlag (isArchivedBy 0 ann.id) (fun t => toggleArchive t ann 0) teamStore ∧
      TogglesFlag (sharesPhoneIn 0 ann.id) (fun t => toggleSharePhone t ann 0) teamStore) ∧
    TogglesFlag (hasBlocked ann.id 2) (fun t => blockUser t ann 2) mutedStore ∧
    (toggleMute teamStore ann 0).response.flag? = some true ∧
    (toggleMute mutedStore ann 0).response.flag? = some false ∧
    (blockUser mutedStore ann 2).response.flag? = some false :=
  ⟨(toggles_round_trip teamStore ann).1 0 (by decide),
    (toggles_round_trip mutedStore ann).2 2 (by decide),
    by decide, by decide, by decide⟩

/-! ## deleteUserChat and fetchChats -/

theorem addToSet_of_mem (xs : List Nat) (u : Nat) (h : u ∈ xs) : addToSet xs u = xs := by
  have : xs.contains u = true := by simpa using h
  simp only [addToSet, this, if_true]

theorem addToSet_of_not_mem (xs : List Nat) (u : Nat) (h : u ∉ xs) :
    addToSet xs u = xs ++ [u] := by
  have : xs.contains u = false := by simpa using h
  simp only [addToSet, this, Bool.false_eq_true, if_false]

theorem count_addToSet (xs : List Nat) (u : Nat) (h : xs.count u ≤ 1) :
    (addToSet xs u).count u = 1 := by
  by_cases hu : u ∈ xs
  · rw [addToSet_of_mem xs u hu]
    have := List.count_pos_iff.2 hu
    omega
  · rw [addToSet_of_not_mem xs u hu, List.count_append, List.count_eq_zero.2 hu]
    simp

/-- C15: on an existing chat whose `deletedBy` lists the actor at most once,
`deleteUserChat` leaves the actor exactly once in `deletedBy` and not in
`archivedBy`, keeps the presence of every other user in both lists, keeps `users`,
`mutedBy` and `sharedPhoneNumbers`, and a second call leaves the store as the first
call left it. -/
theorem deleteUserChat_soft_deletes (s : Store) (actor : User) (chatId : Nat) (c : Chat)
    (hc : s.findChat chatId = some c) (hone : c.deletedBy.count actor.id ≤ 1) :
    (deleteUserChat s actor chatId).response = .sent 200 (.flagged "Chat Deleted" true) ∧
    (∃ c1, (deleteUserChat s actor chatId).store.findChat chatId = some c1 ∧
      c1.deletedBy.count actor.id = 1 ∧ actor.id ∉ c1.archivedBy ∧
      (∀ u, u ≠ actor.id →
        (u ∈ c1.deletedBy ↔ u ∈ c.deletedBy) ∧ (u ∈ c1.archivedBy ↔ u ∈ c.archivedBy)) ∧
      c1.users = c.users ∧ c1.mutedBy = c.mutedBy ∧
      c1.sharedPhoneNumbers = c.sharedPhoneNumbers) ∧
    (deleteUserChat (deleteUserChat s actor chatId).store actor chatId).store =
      (deleteUserChat s actor chatId).store := by
  have h1 := findChat_updateChat_same s chatId
    (fun c => { c with deletedBy := addToSet c.deletedBy actor.id,
                       archivedBy := pull c.archivedBy actor.id }) (fun _ => rfl)
  rw [hc, Option.map_some'] at h1
  have hk : deleteUserChat s actor chatId =
      { store := s.updateChat chatId
          (fun c => { c with deletedBy := addToSet c.deletedBy actor.id,
                             archivedBy := pull c.archivedBy actor.id }),
        response := .sent 200 (.flagged "Chat Deleted" true) } := by
    simp only [deleteUserChat, hc]
  rw [hk]
  refine ⟨rfl, ⟨_, h1, count_addToSet _ _ hone, not_mem_pull _ _, ?_, rfl, rfl, rfl⟩, ?_⟩
  · intro u hu
    constructor
    · rw [mem_addToSet]
      exact ⟨fun h => h.resolve_right hu, Or.inl⟩
    · rw [mem_pull]
      exact ⟨fun h => h.1, fun h => ⟨h, hu⟩⟩
  · simp only [deleteUserChat, h1]
    show ({ (s.updateChat chatId _) with chats := _ } : Store) = _
    have : updateFirst (fun c => c.id == chatId)
        (fun c => { c with deletedBy := addToSet c.deletedBy actor.id,
                           archivedBy := pull c.archivedBy actor.id })
        (s.updateChat chatId
          (fun c => { c with deletedBy := addToSet c.deletedBy actor.id,
                             archivedBy := pull c.archivedBy actor.id })).chats =
        (s.updateChat chatId
          (fun c => { c with deletedBy := addToSet c.deletedBy actor.id,
                             archivedBy := pull c.archivedBy actor.id })).chats := by
      apply updateFirst_eq_self
      intro x hx
      have hx1 : x = { c with deletedBy := addToSet c.deletedBy actor.id,
                              archivedBy := pull c.archivedBy actor.id } := by
        unfold Store.findChat at h1
        rw [h1] at hx
        exact (Option.some.inj hx).symm
      rw [hx1]
      simp only [addToSet_of_mem _ _ ((mem_addToSet c.deletedBy actor.id actor.id).2 (Or.inr rfl)),
        pull_of_not_mem _ _ (not_mem_pull c.archivedBy actor.id)]
    simp only [Store.updateChat] at this ⊢
    rw [this]

/-- C15 at a concrete chat: Ann archived chat 0 (`mutedStore`) and then deletes it for
herself. -/
theorem deleteUserChat_soft_deletes_witness :
    ((deleteUserChat mutedStore ann 0).store.findChat 0).map Chat.deletedBy = some [1] ∧
    ((deleteUserChat mutedStore ann 0).store.findChat 0).map Chat.archivedBy = some [] ∧
    (mutedStore.findChat 0).map Chat.archivedBy = some [1] ∧
    (deleteUserChat (deleteUserChat mutedStore ann 0).store ann 0).store =
      (deleteUserChat mutedStore ann 0).store :=
  ⟨by decide, by decide, by decide,
    (deleteUserChat_soft_deletes mutedStore ann 0
      { id := 0, chatName := "Team", isGroupChat := true, users := [2, 3, 1],
        latestMessage := none, groupDetails := some 1, mutedBy := [1],
        sharedPhoneNumbers := [], archivedBy := [1], deletedBy := [] }
      (by decide) (by decide)).2.2⟩

theorem mem_fetchChats (updatedAt : Chat → Nat) (s : Store) (u : User) (x : Chat) :
    x ∈ (fetchChats updatedAt s u).response.chats ↔
      x ∈ s.chats ∧ u.id ∈ x.users ∧ u.id ∉ x.deletedBy := by
  simp only [fetchChats, Response.chats, List.mem_insertionSort, List.mem_filter,
    Bool.and_eq_true, Bool.not_eq_true']
  constructor
  · rintro ⟨hx, hu, hd⟩
    refine ⟨hx, by simpa using hu, ?_⟩
    intro hmem
    have : x.deletedBy.contains u.id = true := by simpa using hmem
    rw [this] at hd
    exact Bool.noConfusion hd
  · rintro ⟨hx, hu, hd⟩
    refine ⟨hx, by simpa using hu, ?_⟩
    cases h : x.deletedBy.contains u.id with
    | false => rfl
    | true => exact absurd (by simpa using h) hd

theorem mem_updateChat (s : Store) (k : Nat) (f : Chat → Chat)
    (hids : (s.chats.map Chat.id).Nodup) (x : Chat) :
    x ∈ (s.updateChat k f).chats ↔ ∃ c0 ∈ s.chats, x = if c0.id = k then f c0 else c0 := by
  unfold Store.updateChat
  simp only [updateFirst_eq_map Chat.id k f s.chats hids, beq_iff_eq, List.mem_map]
  constructor
  · rintro ⟨c0, hc0, rfl⟩
    exact ⟨c0, hc0, rfl⟩
  · rintro ⟨c0, hc0, rfl⟩
    exact ⟨c0, hc0, rfl⟩

/-- C16: soft delete is per viewer. In a store with unique chat ids, after
`deleteUserChat` by `a` on an existing chat the listing of `a` holds no chat with that
id, while the listing of any other user `b` holds a chat with that id exactly when it
did before (whatever the `updatedAt` timestamps are before and after); in general
`fetchChats` for a user lists exactly the stored chats whose users contain the user
and whose `deletedBy` does not. -/
theorem fetchChats_per_viewer (s : Store) (a b : User) (chatId : Nat) (c : Chat)
    (stampBefore stampAfter : Chat → Nat) (hc : s.findChat chatId = some c)
    (hids : (s.chats.map Chat.id).Nodup) (hab : a.id ≠ b.id) :
    (∀ x ∈ (fetchChats stampAfter (deleteUserChat s a chatId).store a).response.chats,
      x.id ≠ chatId) ∧
    ((∃ x ∈ (fetchChats stampAfter (deleteUserChat s a chatId).store b).response.chats,
        x.id = chatId) ↔
      ∃ x ∈ (fetchChats stampBefore s b).response.chats, x.id = chatId) ∧
    (∀ (t : Store) (u : User) (x : Chat),
      x ∈ (fetchChats stampBefore t u).response.chats ↔
        x ∈ t.chats ∧ u.id ∈ x.users ∧ u.id ∉ x.deletedBy) := by
  have hk : (deleteUserChat s a chatId).store = s.updateChat chatId
      (fun c => { c with deletedBy := addToSet c.deletedBy a.id,
                         archivedBy := pull c.archivedBy a.id }) := by
    simp only [deleteUserChat, hc]
  refine ⟨?_, ?_, fun t u x => mem_fetchChats stampBefore t u x⟩
  · intro x hx hid
    rw [mem_fetchChats, hk, mem_updateChat s chatId _ hids] at hx
    obtain ⟨⟨c0, _, hx0⟩, _, hdel⟩ := hx
    by_cases h0 : c0.id = chatId
    · rw [if_pos h0] at hx0
      apply hdel
      rw [hx0]
      exact (mem_addToSet _ _ _).2 (Or.inr rfl)
    · rw [if_neg h0] at hx0
      rw [hx0] at hid
      exact h0 hid
  · constructor
    · rintro ⟨x, hx, hid⟩
      rw [mem_fetchChats, hk, mem_updateChat s chatId _ hids] at hx
      obtain ⟨⟨c0, hc0, hx0⟩, hu, hdel⟩ := hx
      refine ⟨c0, (mem_fetchChats _ _ _ _).2 ⟨hc0, ?_, ?_⟩, ?_⟩
      · by_cases h0 : c0.id = chatId
        · rw [if_pos h0] at hx0; rw [hx0] at hu; exact hu
        · rw [if_neg h0] at hx0; rw [hx0] at hu; exact hu
      · by_cases h0 : c0.id = chatId
        · rw [if_pos h0] at hx0
          rw [hx0] at hdel
          exact fun h => hdel ((mem_addToSet _ _ _).2 (Or.inl h))
        · rw [if_neg h0] at hx0; rw [hx0] at hdel; exact hdel
      · by_cases h0 : c0.id = chatId
        · exact h0
        · rw [if_neg h0] at hx0; rw [hx0] at hid; exact hid
    · rintro ⟨x, hx, hid⟩
      rw [mem_fetchChats] at hx
      obtain ⟨hx0, hu, hdel⟩ := hx
      refine ⟨{ x with deletedBy := addToSet x.deletedBy a.id,
                       archivedBy := pull x.archivedBy a.id }, ?_, hid⟩
      rw [mem_fetchChats, hk, mem_updateChat s chatId _ hids]
      refine ⟨⟨x, hx0, by rw [if_pos hid]⟩, hu, ?_⟩
      intro h
      rcases (mem_addToSet _ _ _).1 h with h | h
      · exact hdel h
      · exact hab h.symm

/-- C16 at a concrete chat: Ann deletes chat 0 of the sample group for herself; her
listing is then empty and the listing of Bob still holds chat 0. -/
theorem fetchChats_per_viewer_witness :
    (fetchChats (fun _ => 0) (deleteUserChat teamStore ann 0).store ann).response.chats
      = [] ∧
    ((fetchChats (fun _ => 0) (deleteUserChat teamStore ann 0).store bob).response.chats).map
      Chat.id = [0] ∧
    ((∃ x ∈ (fetchChats (fun _ => 0) (deleteUserChat teamStore ann 0).store bob).response.chats,
        x.id = 0) ↔
      ∃ x ∈ (fetchChats (fun _ => 0) teamStore bob).response.chats, x.id = 0) :=
  ⟨by decide, by decide,
    (fetchChats_per_viewer teamStore ann bob 0
      { id := 0, chatName := "Team", isGroupChat := true, users := [2, 3, 1],
        latestMessage := none, groupDetails := some 1, mutedBy := [],
        sharedPhoneNumbers := [], archivedBy := [], deletedBy := [] }
      (fun _ => 0) (fun _ => 0) (by decide) (by decide) (by decide)).2.1⟩

/-! ## accessChat with the foundByMobile flag -/

theorem findChat_of_mem_nodup (s : Store) (c : Chat) (hids : (s.chats.map Chat.id).Nodup)
    (hc : c ∈ s.chats) : s.findChat c.id = some c := by
  obtain ⟨c0, hc0, hid0⟩ := findChat_of_mem s c hc
  have hm0 := (find_some_id_chat s c.id c0 hc0).2
  rw [hc0, eq_of_mem_of_id_eq Chat.id s.chats hids c0 c hm0 hc hid0]

/-- C17 as stated fails for a pair with two one-to-one chats: in `twoDirectChats` the
chats 0 and 2 are both chats of Ann and Bob, and Ann has deleted chat 2 for herself.
`accessChat` with the `foundByMobile` flag works on chat 0, the first one found; chat 2
keeps Ann in `deletedBy` and does not get Bob into `sharedPhoneNumbers`. -/
theorem accessChat_second_chat_untouched :
    (directChats twoDirectChats 1 2).map (fun c => (c.id, c.isGroupChat, c.users))
      = [(0, false, [1, 2]), (2, false, [1, 2])] ∧
    (twoDirectChats.findChat 2).map (fun c => (c.sharedPhoneNumbers, c.deletedBy))
      = some ([], [1]) ∧
    (accessChat twoDirectChats ann (some 2) true).response.chatId? = some 0 ∧
    ((accessChat twoDirectChats ann (some 2) true).store.findChat 0).map
      (fun c => (c.sharedPhoneNumbers, c.deletedBy)) = some ([2], []) ∧
    ((accessChat twoDirectChats ann (some 2) true).store.findChat 2).map
      (fun c => (c.sharedPhoneNumbers, c.deletedBy)) = some ([], [1]) := by
  decide

/-- C17 (amended): in a store with unique chat ids, when one-to-one chats of actor and
target exist, `accessChat` with the `foundByMobile` flag works on the chat found, the
first of them: if it lists the target at most once in `sharedPhoneNumbers`, the call
leaves the target exactly once in `sharedPhoneNumbers` of that stored chat (appended
only if it was absent) and the actor out of its `deletedBy`, and every other chat,
further chats of the pair included, is left as it was. When no such chat exists, the
chat created has `sharedPhoneNumbers` equal to the target alone with the flag and
empty without it. -/
theorem accessChat_found_by_mobile (s : Store) (actor : User) (target : Nat) :
    (∀ chat rest, directChats s actor.id target = chat :: rest →
      (s.chats.map Chat.id).Nodup → chat.sharedPhoneNumbers.count target ≤ 1 →
      ∃ c1, (accessChat s actor (some target) true).store.findChat chat.id = some c1 ∧
        c1.sharedPhoneNumbers.count target = 1 ∧
        c1.sharedPhoneNumbers =
          (if target ∈ chat.sharedPhoneNumbers then chat.sharedPhoneNumbers
           else chat.sharedPhoneNumbers ++ [target]) ∧
        actor.id ∉ c1.deletedBy ∧
        ∀ other, other ≠ chat.id →
          (accessChat s actor (some target) true).store.findChat other = s.findChat other) ∧
    (directChats s actor.id target = [] →
      ∀ flag, ∃ c1,
        (accessChat s actor (some target) flag).store.chats = s.chats ++ [c1] ∧
        c1.users = [actor.id, target] ∧
        c1.sharedPhoneNumbers = (if flag = true then [target] else [])) := by
  constructor
  · intro chat rest hd hids hone
    have hmem : chat ∈ s.chats := by
      have : chat ∈ directChats s actor.id target := by rw [hd]; exact List.mem_cons_self _ _
      exact (List.mem_filter.1 this).1
    have hc0 := findChat_of_mem_nodup s chat hids hmem
    by_cases hsh : chat.sharedPhoneNumbers.contains target = true
    · have hin : target ∈ chat.sharedPhoneNumbers := by simpa using hsh
      have hcount : chat.sharedPhoneNumbers.count target = 1 := by
        have := List.count_pos_iff.2 hin
        omega
      by_cases hdel : chat.deletedBy.contains actor.id = true
      · have hk : accessChat s actor (some target) true =
            { store := s.updateChat chat.id
                (fun c => { c with deletedBy := pull c.deletedBy actor.id }),
              response := .sent 200 (.chat (some chat) none) } := by
          simp only [accessChat, hd, if_true, hsh, Bool.not_true, Bool.false_eq_true, if_false,
            hdel]
        have h1 := findChat_updateChat_same s chat.id
          (fun c => { c with deletedBy := pull c.deletedBy actor.id }) (fun _ => rfl)
        rw [hc0, Option.map_some'] at h1
        rw [hk]
        exact ⟨_, h1, hcount, by rw [if_pos hin], not_mem_pull _ _,
          fun other hne => findChat_updateChat_other s chat.id other
            (fun c => { c with deletedBy := pull c.deletedBy actor.id }) (fun _ => rfl) hne⟩
      · have hk : accessChat s actor (some target) true =
            { store := s, response := .sent 200 (.chat (some chat) none) } := by
          simp only [accessChat, hd, if_true, hsh, Bool.not_true, Bool.false_eq_true, if_false,
            hdel]
        rw [hk]
        exact ⟨chat, hc0, hcount, by rw [if_pos hin], by simpa using hdel, fun _ _ => rfl⟩
    · simp only [Bool.not_eq_true] at hsh
      have hnin : target ∉ chat.sharedPhoneNumbers := by simpa using hsh
      have h1 := findChat_updateChat_same s chat.id
        (fun c => { c with sharedPhoneNumbers := addToSet c.sharedPhoneNumbers target })
        (fun _ => rfl)
      rw [hc0, Option.map_some'] at h1
      have hshared : addToSet chat.sharedPhoneNumbers target
          = chat.sharedPhoneNumbers ++ [target] := addToSet_of_not_mem _ _ hnin
      have hcount : (addToSet chat.sharedPhoneNumbers target).count target = 1 :=
        count_addToSet _ _ hone
      by_cases hdel : chat.deletedBy.contains actor.id = true
      · have hk : accessChat s actor (some target) true =
            { store := (s.updateChat chat.id (fun c =>
                  { c with sharedPhoneNumbers := addToSet c.sharedPhoneNumbers target })).updateChat
                chat.id (fun c => { c with deletedBy := pull c.deletedBy actor.id }),
              response := .sent 200 (.chat (some
                { chat with sharedPhoneNumbers := addToSet chat.sharedPhoneNumbers target })
                none) } := by
          simp only [accessChat, hd, if_true, hsh, Bool.not_false, h1, hdel]
        have h2 := findChat_updateChat_same
          (s.updateChat chat.id (fun c =>
            { c with sharedPhoneNumbers := addToSet c.sharedPhoneNumbers target })) chat.id
          (fun c => { c with deletedBy := pull c.deletedBy actor.id }) (fun _ => rfl)
        rw [h1, Option.map_some'] at h2
        have hother : ∀ other, other ≠ chat.id →
            ((s.updateChat chat.id (fun c =>
                { c with sharedPhoneNumbers := addToSet c.sharedPhoneNumbers target })).updateChat
              chat.id (fun c => { c with deletedBy := pull c.deletedBy actor.id })).findChat other
              = s.findChat other := by
          intro other hne
          rw [findChat_updateChat_other _ chat.id other
            (fun c => { c with deletedBy := pull c.deletedBy actor.id }) (fun _ => rfl) hne]
          exact findChat_updateChat_other s chat.id other
            (fun c => { c with sharedPhoneNumbers := addToSet c.sharedPhoneNumbers target })
            (fun _ => rfl) hne
        rw [hk]
        exact ⟨_, h2, hcount, by rw [if_neg hnin]; exact hshared, not_mem_pull _ _, hother⟩
      · have hk : accessChat s actor (some target) true =
            { store := s.updateChat chat.id (fun c =>
                  { c with sharedPhoneNumbers := addToSet c.sharedPhoneNumbers target }),
              response := .sent 200 (.chat (some
                { chat with sharedPhoneNumbers := addToSet chat.sharedPhoneNumbers target })
                none) } := by
          simp only [accessChat, hd, if_true, hsh, Bool.not_false, h1, hdel, if_false,
            Bool.false_eq_true]
        rw [hk]
        exact ⟨_, h1, hcount, by rw [if_neg hnin]; exact hshared, by simpa using hdel,
          fun other hne => findChat_updateChat_other s chat.id other
            (fun c => { c with sharedPhoneNumbers := addToSet c.sharedPhoneNumbers target })
            (fun _ => rfl) hne⟩
  · intro hd flag
    have hk : (accessChat s actor (some target) flag).store =
        s.insertChat (newDirectChat s actor target flag) := by
      simp only [accessChat, hd]
    rw [hk]
    exact ⟨newDirectChat s actor target flag, rfl, rfl, rfl⟩

/-- C17 (amended) at concrete calls: Ann had deleted her chat with Bob for herself and
finds him again by phone number; without a chat, the flag decides the initial
sharing. -/
theorem accessChat_found_by_mobile_witness :
    (hiddenDirectStore.findChat 0).map Chat.deletedBy = some [1] ∧
    ((accessChat hiddenDirectStore ann (some 2) true).store.findChat 0).map
      Chat.sharedPhoneNumbers = some [2] ∧
    ((accessChat hiddenDirectStore ann (some 2) true).store.findChat 0).map
      Chat.deletedBy = some [] ∧
    (accessChat usersOnly ann (some 2) true).store.chats.map Chat.sharedPhoneNumbers
      = [[2]] ∧
    (accessChat usersOnly ann (some 2) false).store.chats.map Chat.sharedPhoneNumbers
      = [[]] := by
  obtain ⟨c1, hc1, _, hs, hdel, _⟩ := (accessChat_found_by_mobile hiddenDirectStore ann 2).1
    { id := 0, chatName := "sender", isGroupChat := false, users := [1, 2],
      latestMessage := none, groupDetails := none, mutedBy := [],
      sharedPhoneNumbers := [], archivedBy := [], deletedBy := [1] } []
    (by decide) (by decide) (by decide)
  refine ⟨by decide, ?_, by decide, by decide, by decide⟩
  rw [hc1, Option.map_some', hs]
  decide

/-! ## sendMessage -/

theorem sendMessage_eq (s : Store) (actor : User) (req : MessageRequest) (chatId : Nat)
    (ty : MessageType) (hchat : req.chatId = some chatId) (hcontent : req.content ≠ "")
    (hty : MessageType.ofString? req.typeName = some ty) :
    sendMessage s actor req =
      { store := (s.insertMessage (newMessage s actor req chatId ty)).updateChat chatId
          (fun c => { c with latestMessage := some s.nextId }),
        response := .sent 200 (.message (newMessage s actor req chatId ty)) } := by
  have hc : (req.content == "") = false := by simpa using hcontent
  simp only [sendMessage, hchat, hc, Bool.false_eq_true, if_false, hty]
  rfl

/-- C18 as stated fails: Dan is not in the users of chat 0, yet his `sendMessage`
succeeds, the message is stored and it becomes the latest message of the chat. -/
theorem sendMessage_by_non_member :
    (teamStore.findChat 0).map Chat.users = some [2, 3, 1] ∧ dan.id ∉ [2, 3, 1] ∧
    (sendMessage teamStore dan outsiderPost).response.status? = some 200 ∧
    (sendMessage teamStore dan outsiderPost).store.messages.map Message.sender = [some 4] ∧
    ((sendMessage teamStore dan outsiderPost).store.findChat 0).map Chat.latestMessage
      = some (some 2) := by
  decide

/-- C18 (amended): `sendMessage` makes no membership check. For every actor, in the
users of the chat or not, a request with a chat id, a non-empty content and a valid
type succeeds, stores exactly one new message sent by the actor for that chat, and
sets `latestMessage` of the chat, when the chat exists, to that message. A request
without chat id or content answers 400 and changes nothing, and so does a request
whose type is outside the enum; the call ends with status 400 exactly in these three
cases, and with status 200 in every other. -/
theorem sendMessage_needs_no_membership (s : Store) (actor : User) (req : MessageRequest) :
    (∀ chatId ty, req.chatId = some chatId → req.content ≠ "" →
      MessageType.ofString? req.typeName = some ty →
      (sendMessage s actor req).response =
        .sent 200 (.message (newMessage s actor req chatId ty)) ∧
      (sendMessage s actor req).store.messages =
        s.messages ++ [newMessage s actor req chatId ty] ∧
      (newMessage s actor req chatId ty).sender = some actor.id ∧
      (newMessage s actor req chatId ty).chat = chatId ∧
      ∀ c, s.findChat chatId = some c →
        (sendMessage s actor req).store.findChat chatId =
          some { c with latestMessage := some (newMessage s actor req chatId ty).id }) ∧
    ((req.chatId = none ∨ req.content = "") →
      (sendMessage s actor req).response = .sent 400 .empty ∧
      (sendMessage s actor req).store = s) ∧
    (req.chatId ≠ none → req.content ≠ "" → MessageType.ofString? req.typeName = none →
      (sendMessage s actor req).response = .thrown (some 400) "Message validation failed" ∧
      (sendMessage s actor req).store = s) ∧
    ((sendMessage s actor req).response.status? = some 400 ↔
      (req.chatId = none ∨ req.content = "" ∨ MessageType.ofString? req.typeName = none)) ∧
    ((sendMessage s actor req).response.status? = some 200 ↔
      ¬ (req.chatId = none ∨ req.content = "" ∨
        MessageType.ofString? req.typeName = none)) := by
  have hmissing : (req.chatId = none ∨ req.content = "") →
      sendMessage s actor req = { store := s, response := .sent 400 .empty } := by
    intro h
    cases hchat : req.chatId with
    | none => simp only [sendMessage, hchat]
    | some chatId =>
      have hcontent : req.content = "" := by
        rcases h with h | h
        · rw [hchat] at h; exact absurd h (by simp)
        · exact h
      simp only [sendMessage, hchat, hcontent, beq_self_eq_true, if_true]
  have hbogus : req.chatId ≠ none → req.content ≠ "" →
      MessageType.ofString? req.typeName = none →
      sendMessage s actor req =
        { store := s, response := .thrown (some 400) "Message validation failed" } := by
    intro hchat hcontent hty
    cases hc : req.chatId with
    | none => exact absurd hc hchat
    | some chatId =>
      have hne : (req.content == "") = false := by simpa using hcontent
      simp only [sendMessage, hc, hne, Bool.false_eq_true, if_false, hty]
  have hcases : (req.chatId = none ∨ req.content = "" ∨
        MessageType.ofString? req.typeName = none) →
      (sendMessage s actor req).response.status? = some 400 := by
    intro h
    by_cases hm : req.chatId = none ∨ req.content = ""
    · rw [hmissing hm]; rfl
    · have hchat : req.chatId ≠ none := fun h1 => hm (Or.inl h1)
      have hcontent : req.content ≠ "" := fun h1 => hm (Or.inr h1)
      have hty : MessageType.ofString? req.typeName = none := by
        rcases h with h | h | h
        · exact absurd h hchat
        · exact absurd h hcontent
        · exact h
      rw [hbogus hchat hcontent hty]; rfl
  have hvalid : ¬ (req.chatId = none ∨ req.content = "" ∨
        MessageType.ofString? req.typeName = none) →
      (sendMessage s actor req).response.status? = some 200 := by
    intro h
    cases hc : req.chatId with
    | none => exact absurd (Or.inl hc) h
    | some chatId =>
      cases hty : MessageType.ofString? req.typeName with
      | none => exact absurd (Or.inr (Or.inr hty)) h
      | some ty =>
        have hcontent : req.content ≠ "" := fun h1 => h (Or.inr (Or.inl h1))
        rw [sendMessage_eq s actor req chatId ty hc hcontent hty]; rfl
  refine ⟨?_, ?_, ?_, ?_, ?_⟩
  · intro chatId ty hchat hcontent hty
    rw [sendMessage_eq s actor req chatId ty hchat hcontent hty]
    refine ⟨rfl, rfl, rfl, rfl, ?_⟩
    intro c hc
    have h1 := findChat_updateChat_same (s.insertMessage (newMessage s actor req chatId ty))
      chatId (fun c => { c with latestMessage := some s.nextId }) (fun _ => rfl)
    have h0 : (s.insertMessage (newMessage s actor req chatId ty)).findChat chatId = some c :=
      hc
    rw [h0, Option.map_some'] at h1
    exact h1
  · intro h
    rw [hmissing h]
    exact ⟨rfl, rfl⟩
  · intro hchat hcontent hty
    rw [hbogus hchat hcontent hty]
    exact ⟨rfl, rfl⟩
  · constructor
    · intro h400
      by_contra hno
      rw [hvalid hno] at h400
      exact absurd h400 (by decide)
    · exact hcases
  · constructor
    · intro h200 hbad
      rw [hcases hbad] at h200
      exact absurd h200 (by decide)
    · exact hvalid

/-- C18 (amended) at the call of a non-member, and at a call of a member with a type
outside the enum. -/
theorem sendMessage_needs_no_membership_witness :
    ((sendMessage teamStore dan outsiderPost).response =
        .sent 200 (.message (newMessage teamStore dan outsiderPost 0 .text)) ∧
      (sendMessage teamStore dan outsiderPost).store.messages =
        teamStore.messages ++ [newMessage teamStore dan outsiderPost 0 .text]) ∧
    ((sendMessage teamStore ann bogusPost).response =
        .thrown (some 400) "Message validation failed" ∧
      (sendMessage teamStore ann bogusPost).store = teamStore) :=
  have h := (sendMessage_needs_no_membership teamStore dan outsiderPost).1 0 .text rfl
    (by decide) (by decide)
  ⟨⟨h.1, h.2.1⟩,
    (sendMessage_needs_no_membership teamStore ann bogusPost).2.2.1 (by decide) (by decide)
      (by decide)⟩

/-- C19 as stated fails: message 2 belongs to chat 0, and the request of Bob for chat
3 that names it in `replyTo` is accepted and stored as it is. -/
theorem sendMessage_cross_chat_reply :
    twoTeams.messages.map (fun m => (m.id, m.chat)) = [(2, 0)] ∧
    (sendMessage twoTeams bob crossReply).response.status? = some 200 ∧
    (sendMessage twoTeams bob crossReply).store.messages.map
      (fun m => (m.id, m.chat, m.replyTo)) = [(2, 0, none), (5, 3, some 2)] := by
  decide

/-- C19 (amended): `sendMessage` does not validate `replyTo`. For every request with a
chat id, a non-empty content and a valid type, the message is stored with `replyTo`
exactly as the request gives it, whatever message, of whatever chat, it names. -/
theorem sendMessage_keeps_replyTo (s : Store) (actor : User) (req : MessageRequest)
    (chatId : Nat) (ty : MessageType) (hchat : req.chatId = some chatId)
    (hcontent : req.content ≠ "") (hty : MessageType.ofString? req.typeName = some ty) :
    (sendMessage s actor req).response.status? = some 200 ∧
    ∃ m, (sendMessage s actor req).store.messages = s.messages ++ [m] ∧
      m.chat = chatId ∧ m.replyTo = req.replyTo := by
  rw [sendMessage_eq s actor req chatId ty hchat hcontent hty]
  exact ⟨rfl, newMessage s actor req chatId ty, rfl, rfl, rfl⟩

/-- C19 (amended) at the cross-chat reply of Bob. -/
theorem sendMessage_keeps_replyTo_witness :
    crossReply.chatId = some 3 ∧ crossReply.content ≠ "" ∧
    (sendMessage twoTeams bob crossReply).response.status? = some 200 ∧
    ∃ m, (sendMessage twoTeams bob crossReply).store.messages = twoTeams.messages ++ [m] ∧
      m.chat = 3 ∧ m.replyTo = crossReply.replyTo :=
  have h := sendMessage_keeps_replyTo twoTeams bob crossReply 3 .text rfl (by decide)
    (by decide)
  ⟨rfl, by decide, h.1, h.2⟩

/-- C20, the failing input: `removeFromGroup` stores the system message 2 for chat 0
through `createSystemMessage`, and `latestMessage` of chat 0 stays empty; a regular
message sent to the same chat does become its latest message. -/
theorem createSystemMessage_skips_latestMessage :
    (removeFromGroup teamStore ann 0 2).store.messages.map (fun m => (m.id, m.chat, m.sender))
      = [(2, 0, none)] ∧
    ((removeFromGroup teamStore ann 0 2).store.findChat 0).map Chat.latestMessage
      = some none ∧
    (sendMessage teamStore ann outsiderPost).store.messages.map (fun m => (m.id, m.chat))
      = [(2, 0)] ∧
    ((sendMessage teamStore ann outsiderPost).store.findChat 0).map Chat.latestMessage
      = some (some 2) := by
  decide

/-! ## Concurrent accessChat calls -/

theorem accessChatResume_query (s : Store) (actor : User) (target : Nat) (fm : Bool) :
    accessChatResume s actor target fm (directChats s actor.id target) =
      accessChat s actor (some target) fm := by
  unfold accessChat accessChatResume
  rfl

theorem accessBetween_eq (a b : User) (s : Store) (call : DirectCall) :
    accessBetween a b s call =
      accessChat s (call.actor a b) (some (call.target a b)) call.foundByMobile := by
  unfold accessBetween DirectCall.actor DirectCall.target
  cases call.fromFirst <;> rfl

/-- Every interleaving of the two steps of two calls is serial or overlapping. -/
theorem schedules_complete (schedule : List Bool) (hlen : schedule.length = 4)
    (htrue : schedule.count true = 2) :
    schedule ∈ serialSchedules ∨ schedule ∈ overlappingSchedules := by
  match schedule, hlen with
  | [x1, x2, x3, x4], _ =>
    revert htrue
    cases x1 <;> cases x2 <;> cases x3 <;> cases x4 <;> decide

theorem directChats_call (a b : User) (call : DirectCall) (s : Store) :
    directChats s (call.actor a b).id (call.target a b) = directChats s a.id b.id := by
  unfold DirectCall.actor DirectCall.target
  cases call.fromFirst
  · simp only [Bool.false_eq_true, if_false]
    exact directChats_comm s b.id a.id
  · simp only [if_true]

theorem accessChatResume_created (t : Store) (actor : User) (target : Nat) (fm : Bool) :
    (accessChatResume t actor target fm []).store =
      t.insertChat (newDirectChat t actor target fm) ∧
    (accessChatResume t actor target fm []).response.chatId? = some t.nextId := by
  obtain ⟨c0, hc0, hid0⟩ := findChat_of_mem (t.insertChat (newDirectChat t actor target fm))
    (newDirectChat t actor target fm) (by simp [Store.insertChat])
  have hc1 : (t.insertChat (newDirectChat t actor target fm)).findChat t.nextId = some c0 := hc0
  have hk : accessChatResume t actor target fm [] =
      { store := t.insertChat (newDirectChat t actor target fm),
        response := .sent 200 (.chat
          ((t.insertChat (newDirectChat t actor target fm)).findChat t.nextId) none) } := rfl
  rw [hk, hc1]
  exact ⟨rfl, congrArg some hid0⟩

theorem race_serial_first (a b : User) (c1 c2 : DirectCall) (s : Store) :
    race a b c1 c2 s [true, true, false, false] =
      { store := (accessBetween a b (accessBetween a b s c1).store c2).store,
        first := .done (accessBetween a b s c1).response,
        second := .done (accessBetween a b (accessBetween a b s c1).store c2).response } := by
  simp only [race, List.foldl, Race.step, CallState.step, if_true, Bool.false_eq_true, if_false,
    accessChatResume_query, accessBetween_eq]

theorem race_serial_second (a b : User) (c1 c2 : DirectCall) (s : Store) :
    race a b c1 c2 s [false, false, true, true] =
      { store := (accessBetween a b (accessBetween a b s c2).store c1).store,
        first := .done (accessBetween a b (accessBetween a b s c2).store c1).response,
        second := .done (accessBetween a b s c2).response } := by
  simp only [race, List.foldl, Race.step, CallState.step, if_true, Bool.false_eq_true, if_false,
    accessChatResume_query, accessBetween_eq]

theorem race_overlap_first (a b : User) (c1 c2 : DirectCall) (s : Store)
    (hnone : directChats s a.id b.id = []) (schedule : List Bool)
    (h : schedule = [true, false, true, false] ∨ schedule = [false, true, true, false]) :
    race a b c1 c2 s schedule =
      { store := (accessChatResume
          (accessChatResume s (c1.actor a b) (c1.target a b) c1.foundByMobile []).store
          (c2.actor a b) (c2.target a b) c2.foundByMobile []).store,
        first := .done
          (accessChatResume s (c1.actor a b) (c1.target a b) c1.foundByMobile []).response,
        second := .done (accessChatResume
          (accessChatResume s (c1.actor a b) (c1.target a b) c1.foundByMobile []).store
          (c2.actor a b) (c2.target a b) c2.foundByMobile []).response } := by
  rcases h with rfl | rfl <;>
    simp only [race, List.foldl, Race.step, CallState.step, if_true, Bool.false_eq_true,
      if_false, directChats_call, hnone]

theorem race_overlap_second (a b : User) (c1 c2 : DirectCall) (s : Store)
    (hnone : directChats s a.id b.id = []) (schedule : List Bool)
    (h : schedule = [true, false, false, true] ∨ schedule = [false, true, false, true]) :
    race a b c1 c2 s schedule =
      { store := (accessChatResume
          (accessChatResume s (c2.actor a b) (c2.target a b) c2.foundByMobile []).store
          (c1.actor a b) (c1.target a b) c1.foundByMobile []).store,
        first := .done (accessChatResume
          (accessChatResume s (c2.actor a b) (c2.target a b) c2.foundByMobile []).store
          (c1.actor a b) (c1.target a b) c1.foundByMobile []).response,
        second := .done
          (accessChatResume s (c2.actor a b) (c2.target a b) c2.foundByMobile []).response } := by
  rcases h with rfl | rfl <;>
    simp only [race, List.foldl, Race.step, CallState.step, if_true, Bool.false_eq_true,
      if_false, directChats_call, hnone]

theorem directChats_two_created (a b : User) (c1 c2 : DirectCall) (s : Store)
    (hnone : directChats s a.id b.id = []) :
    (directChats (accessChatResume
      (accessChatResume s (c1.actor a b) (c1.target a b) c1.foundByMobile []).store
      (c2.actor a b) (c2.target a b) c2.foundByMobile []).store a.id b.id).length = 2 := by
  rw [(accessChatResume_created _ _ _ _).1, (accessChatResume_created _ _ _ _).1]
  unfold directChats at hnone ⊢
  simp only [Store.insertChat, List.filter_append, hnone, List.nil_append]
  unfold DirectCall.actor DirectCall.target
  cases c1.fromFirst <;> cases c2.fromFirst <;> simp [newDirectChat]

theorem race_serial_result (a b : User) (c1 c2 : DirectCall) (s : Store)
    (hnone : directChats s a.id b.id = []) :
    (accessBetween a b s c1).response.chatId? = some s.nextId ∧
    (accessBetween a b (accessBetween a b s c1).store c2).response.chatId? = some s.nextId ∧
    (directChats (accessBetween a b (accessBetween a b s c1).store c2).store
      a.id b.id).length = 1 := by
  have hids : directIds s a.id b.id = [] := by rw [directIds, hnone]; rfl
  obtain ⟨hr1, hd1⟩ := accessBetween_created a b s c1 hids
  obtain ⟨hr2, hd2⟩ := accessBetween_found a b (accessBetween a b s c1).store c2 s.nextId hd1
  refine ⟨hr1, hr2, ?_⟩
  have := congrArg List.length hd2
  simpa [directIds] using this

/-- C14 as stated fails: when both calls run their find step before either creates,
each finds nothing and each creates a chat; the store then holds two one-to-one chats
of Ann and Bob and the calls return the different ids 0 and 1. -/
theorem accessChat_race_duplicates :
    directChats usersOnly ann.id bob.id = [] ∧
    (race ann bob ⟨true, false⟩ ⟨false, false⟩ usersOnly
      [true, false, true, false]).first.chatId? = some 0 ∧
    (race ann bob ⟨true, false⟩ ⟨false, false⟩ usersOnly
      [true, false, true, false]).second.chatId? = some 1 ∧
    (directChats (race ann bob ⟨true, false⟩ ⟨false, false⟩ usersOnly
      [true, false, true, false]).store ann.id bob.id).map Chat.id = [0, 1] := by
  decide

/-- C14 (amended): for a pair of users without a one-to-one chat and two `accessChat`
calls for the pair, each made of its find step and its create step: under the two
interleavings in which one call finishes before the other starts, both calls return
the same chat id and one chat of the pair exists afterwards; under the four
interleavings in which the calls overlap, each call creates a chat, so two chats of
the pair exist afterwards and the calls return different ids. -/
theorem accessChat_race (a b : User) (c1 c2 : DirectCall) (s : Store)
    (hnone : directChats s a.id b.id = []) :
    (∀ schedule ∈ serialSchedules, ∃ k,
      (race a b c1 c2 s schedule).first.chatId? = some k ∧
      (race a b c1 c2 s schedule).second.chatId? = some k ∧
      (directChats (race a b c1 c2 s schedule).store a.id b.id).length = 1) ∧
    (∀ schedule ∈ overlappingSchedules, ∃ k1 k2,
      (race a b c1 c2 s schedule).first.chatId? = some k1 ∧
      (race a b c1 c2 s schedule).second.chatId? = some k2 ∧ k1 ≠ k2 ∧
      (directChats (race a b c1 c2 s schedule).store a.id b.id).length = 2) := by
  constructor
  · intro schedule hs
    simp only [serialSchedules, List.mem_cons, List.mem_singleton, List.not_mem_nil,
      or_false] at hs
    rcases hs with rfl | rfl
    · obtain ⟨h1, h2, h3⟩ := race_serial_result a b c1 c2 s hnone
      rw [race_serial_first]
      exact ⟨s.nextId, h1, h2, h3⟩
    · obtain ⟨h1, h2, h3⟩ := race_serial_result a b c2 c1 s hnone
      rw [race_serial_second]
      exact ⟨s.nextId, h2, h1, h3⟩
  · intro schedule hs
    simp only [overlappingSchedules, List.mem_cons, List.mem_singleton, List.not_mem_nil,
      or_false] at hs
    have hfirst : schedule = [true, false, true, false] ∨ schedule = [false, true, true, false]
        ∨ (schedule = [true, false, false, true] ∨ schedule = [false, true, false, true]) := by
      rcases hs with h | h | h | h
      · exact Or.inl h
      · exact Or.inr (Or.inr (Or.inl h))
      · exact Or.inr (Or.inl h)
      · exact Or.inr (Or.inr (Or.inr h))
    have hnext : ∀ (t : Store) (x : User) (y : Nat) (f : Bool),
        (accessChatResume t x y f []).store.nextId = t.nextId + 1 := by
      intro t x y f
      rw [(accessChatResume_created t x y f).1]
      rfl
    rcases hfirst with h | h | h
    · rw [race_overlap_first a b c1 c2 s hnone schedule (Or.inl h)]
      refine ⟨s.nextId, s.nextId + 1, (accessChatResume_created _ _ _ _).2, ?_, by omega,
        directChats_two_created a b c1 c2 s hnone⟩
      show (accessChatResume _ _ _ _ []).response.chatId? = _
      rw [(accessChatResume_created _ _ _ _).2, hnext]
    · rw [race_overlap_first a b c1 c2 s hnone schedule (Or.inr h)]
      refine ⟨s.nextId, s.nextId + 1, (accessChatResume_created _ _ _ _).2, ?_, by omega,
        directChats_two_created a b c1 c2 s hnone⟩
      show (accessChatResume _ _ _ _ []).response.chatId? = _
      rw [(accessChatResume_created _ _ _ _).2, hnext]
    · rw [race_overlap_second a b c1 c2 s hnone schedule h]
      refine ⟨s.nextId + 1, s.nextId, ?_, (accessChatResume_created _ _ _ _).2, by omega,
        directChats_two_created a b c2 c1 s hnone⟩
      show (accessChatResume _ _ _ _ []).response.chatId? = _
      rw [(accessChatResume_created _ _ _ _).2, hnext]

/-- C14 (amended) for Ann and Bob: a serial run returns chat 0 twice, an overlapping
run returns two different ids. -/
theorem accessChat_race_witness :
    directChats usersOnly ann.id bob.id = [] ∧
    (∃ k, (race ann bob ⟨true, true⟩ ⟨false, false⟩ usersOnly
        [true, true, false, false]).first.chatId? = some k ∧
      (race ann bob ⟨true, true⟩ ⟨false, false⟩ usersOnly
        [true, true, false, false]).second.chatId? = some k ∧
      (directChats (race ann bob ⟨true, true⟩ ⟨false, false⟩ usersOnly
        [true, true, false, false]).store ann.id bob.id).length = 1) ∧
    (∃ k1 k2, (race ann bob ⟨true, true⟩ ⟨false, false⟩ usersOnly
        [false, true, false, true]).first.chatId? = some k1 ∧
      (race ann bob ⟨true, true⟩ ⟨false, false⟩ usersOnly
        [false, true, false, true]).second.chatId? = some k2 ∧ k1 ≠ k2 ∧
      (directChats (race ann bob ⟨true, true⟩ ⟨false, false⟩ usersOnly
        [false, true, false, true]).store ann.id bob.id).length = 2) :=
  ⟨by decide,
    (accessChat_race ann bob ⟨true, true⟩ ⟨false, false⟩ usersOnly (by decide)).1
      [true, true, false, false] (by decide),
    (accessChat_race ann bob ⟨true, true⟩ ⟨false, false⟩ usersOnly (by decide)).2
      [false, true, false, true] (by decide)⟩

/-! ## reactToMessage -/

theorem isReactionOf_iff (u : Nat) (emoji : String) (r : Nat × String) :
    isReactionOf u emoji r = true ↔ r = (u, emoji) := by
  obtain ⟨a, b⟩ := r
  simp [isReactionOf]

theorem any_isReactionOf (rs : List (Nat × String)) (u : Nat) (emoji : String) :
    rs.any (isReactionOf u emoji) = true ↔ (u, emoji) ∈ rs := by
  rw [List.any_eq_true]
  constructor
  · rintro ⟨r, hr, hp⟩
    rw [(isReactionOf_iff u emoji r).1 hp] at hr
    exact hr
  · intro h
    exact ⟨(u, emoji), h, (isReactionOf_iff u emoji _).2 rfl⟩

theorem eraseP_isReactionOf (rs : List (Nat × String)) (u : Nat) (emoji : String) :
    rs.eraseP (isReactionOf u emoji) = rs.erase (u, emoji) := by
  induction rs with
  | nil => rfl
  | cons r rs ih =>
    by_cases hr : r = (u, emoji)
    · have hp := (isReactionOf_iff u emoji r).2 hr
      rw [List.eraseP_cons, hp, hr]
      simp
    · have hp : isReactionOf u emoji r = false := by
        cases h : isReactionOf u emoji r with
        | false => rfl
        | true => exact absurd ((isReactionOf_iff u emoji r).1 h) hr
      rw [List.eraseP_cons, List.erase_cons]
      simp only [hp, Bool.false_eq_true, if_false, ih]
      have : (r == (u, emoji)) = false := by simpa using hr
      simp [this]

theorem toggleReaction_of_mem (rs : List (Nat × String)) (u : Nat) (emoji : String)
    (h : (u, emoji) ∈ rs) : toggleReaction rs u emoji = rs.erase (u, emoji) := by
  unfold toggleReaction
  rw [if_pos ((any_isReactionOf rs u emoji).2 h), eraseP_isReactionOf]

theorem toggleReaction_of_not_mem (rs : List (Nat × String)) (u : Nat) (emoji : String)
    (h : (u, emoji) ∉ rs) : toggleReaction rs u emoji = rs ++ [(u, emoji)] := by
  unfold toggleReaction
  have : ¬ rs.any (isReactionOf u emoji) = true := fun hh => h ((any_isReactionOf rs u emoji).1 hh)
  rw [if_neg this]

theorem count_toggleReaction (rs : List (Nat × String)) (u : Nat) (emoji : String)
    (h : rs.count (u, emoji) ≤ 1) :
    (toggleReaction rs u emoji).count (u, emoji) ≤ 1 ∧
    ((u, emoji) ∈ toggleReaction rs u emoji ↔ (u, emoji) ∉ rs) := by
  by_cases hm : (u, emoji) ∈ rs
  · rw [toggleReaction_of_mem rs u emoji hm]
    have hc : (rs.erase (u, emoji)).count (u, emoji) = 0 := by
      rw [List.count_erase_self]
      omega
    refine ⟨by omega, ?_⟩
    have hnot : (u, emoji) ∉ rs.erase (u, emoji) := List.count_eq_zero.1 hc
    exact ⟨fun hh => absurd hh hnot, fun hh => absurd hm hh⟩
  · rw [toggleReaction_of_not_mem rs u emoji hm]
    refine ⟨?_, ?_⟩
    · rw [List.count_append, List.count_eq_zero.2 hm]
      simp
    · exact ⟨fun _ => hm, fun _ => List.mem_append_right _ (List.mem_singleton_self _)⟩

theorem erase_append_perm (rs : List (Nat × String)) (p : Nat × String) (h : p ∈ rs) :
    (rs.erase p ++ [p]).Perm rs := by
  induction rs with
  | nil => simp at h
  | cons r rs ih =>
    by_cases hr : r = p
    · subst hr
      rw [List.erase_cons_head]
      exact List.perm_append_comm
    · have h1 : (r == p) = false := by simpa using hr
      have hp : p ∈ rs := by
        rcases List.mem_cons.1 h with h | h
        · exact absurd h.symm hr
        · exact h
      rw [List.erase_cons]
      simp only [h1, Bool.false_eq_true, if_false, List.cons_append]
      exact List.Perm.cons r (ih hp)

theorem toggleReaction_twice_perm (rs : List (Nat × String)) (u : Nat) (emoji : String)
    (h : rs.count (u, emoji) ≤ 1) :
    (toggleReaction (toggleReaction rs u emoji) u emoji).Perm rs := by
  by_cases hm : (u, emoji) ∈ rs
  · have hnot : (u, emoji) ∉ rs.erase (u, emoji) := by
      apply List.count_eq_zero.1
      rw [List.count_erase_self]
      omega
    rw [toggleReaction_of_mem rs u emoji hm, toggleReaction_of_not_mem _ u emoji hnot]
    exact erase_append_perm rs (u, emoji) hm
  · rw [toggleReaction_of_not_mem rs u emoji hm,
      toggleReaction_of_mem _ u emoji (List.mem_append_right _ (List.mem_singleton_self _)),
      List.erase_append_right _ hm]
    simp

theorem toggleReaction_others (rs : List (Nat × String)) (u : Nat) (emoji : String) :
    (toggleReaction rs u emoji).filter (fun r => r != (u, emoji)) =
      rs.filter (fun r => r != (u, emoji)) := by
  by_cases hm : (u, emoji) ∈ rs
  · rw [toggleReaction_of_mem rs u emoji hm]
    clear hm
    induction rs with
    | nil => rfl
    | cons r rs ih =>
      by_cases hr : r = (u, emoji)
      · subst hr
        simp
      · have h1 : (r == (u, emoji)) = false := by simpa using hr
        rw [List.erase_cons]
        simp only [h1, Bool.false_eq_true, if_false, List.filter_cons, ih]
  · rw [toggleReaction_of_not_mem rs u emoji hm]
    simp [List.filter_append]

theorem findMessage_updateMessage_same (s : Store) (messageId : Nat) (f : Message → Message)
    (hf : ∀ m, (f m).id = m.id) :
    (s.updateMessage messageId f).findMessage messageId = (s.findMessage messageId).map f := by
  unfold Store.findMessage Store.updateMessage
  exact updateFirst_find_same _ f (fun m => by simp [hf m]) s.messages

theorem reactToMessage_toggles (s : Store) (actor : User) (messageId : Nat) (emoji : String)
    (m : Message) (hm : s.findMessage messageId = some m) (he : emoji ≠ "") :
    (reactToMessage s actor messageId emoji).store =
      s.updateMessage messageId
        (fun x => { x with reactions := toggleReaction m.reactions actor.id emoji }) ∧
    (reactToMessage s actor messageId emoji).store.findMessage messageId =
      some { m with reactions := toggleReaction m.reactions actor.id emoji } ∧
    (reactToMessage s actor messageId emoji).response =
      .sent 200 (.message { m with reactions := toggleReaction m.reactions actor.id emoji }) := by
  have he1 : (emoji == "") = false := by simpa using he
  have h1 := findMessage_updateMessage_same s messageId
    (fun x => { x with reactions := toggleReaction m.reactions actor.id emoji }) (fun _ => rfl)
  rw [hm, Option.map_some'] at h1
  have hk : reactToMessage s actor messageId emoji =
      { store := s.updateMessage messageId
          (fun x => { x with reactions := toggleReaction m.reactions actor.id emoji }),
        response := .sent 200
          (.message { m with reactions := toggleReaction m.reactions actor.id emoji }) } := by
    simp only [reactToMessage, hm, he1, Bool.and_false, Bool.false_eq_true, if_false, h1,
      Body.ofMessage]
  rw [hk]
  exact ⟨rfl, h1, rfl⟩

theorem reactRepeatedly_state (s : Store) (actor : User) (messageId : Nat) (emoji : String)
    (m : Message) (hm : s.findMessage messageId = some m) (he : emoji ≠ "") (n : Nat) :
    ∃ mn, (reactRepeatedly s actor messageId emoji n).findMessage messageId = some mn ∧
      mn.reactions.filter (fun r => r != (actor.id, emoji)) =
        m.reactions.filter (fun r => r != (actor.id, emoji)) ∧
      (m.reactions.count (actor.id, emoji) ≤ 1 →
        mn.reactions.count (actor.id, emoji) ≤ 1 ∧
        ((actor.id, emoji) ∈ mn.reactions ↔ ((actor.id, emoji) ∈ m.reactions ↔ n % 2 = 0))) := by
  induction n with
  | zero => exact ⟨m, hm, rfl, fun h => ⟨h, by simp⟩⟩
  | succ n ih =>
    obtain ⟨mn, hmn, hfilter, hcount⟩ := ih
    obtain ⟨_, hfind, _⟩ := reactToMessage_toggles
      (reactRepeatedly s actor messageId emoji n) actor messageId emoji mn hmn he
    refine ⟨_, hfind, ?_, ?_⟩
    · show (toggleReaction mn.reactions actor.id emoji).filter _ = _
      rw [toggleReaction_others, hfilter]
    · intro h
      obtain ⟨hc, hmem⟩ := hcount h
      obtain ⟨hc1, hmem1⟩ := count_toggleReaction mn.reactions actor.id emoji hc
      refine ⟨hc1, ?_⟩
      show (actor.id, emoji) ∈ toggleReaction mn.reactions actor.id emoji ↔ _
      rw [hmem1, hmem]
      by_cases hin : (actor.id, emoji) ∈ m.reactions <;>
        rcases Nat.mod_two_eq_zero_or_one n with h0 | h0 <;>
        simp [hin, h0, Nat.succ_mod_two_eq_zero_iff, Nat.add_mod]

/-- C21 as stated fails for an arbitrary initial list: with the same reaction entered
twice on message 2, two successive calls remove both entries instead of restoring
the list. -/
theorem reactToMessage_duplicate_entries :
    (doubledReactionStore.findMessage 2).map Message.reactions
      = some [(1, "+1"), (1, "+1")] ∧
    ((reactRepeatedly doubledReactionStore ann 2 "+1" 2).findMessage 2).map Message.reactions
      = some [] := by
  decide

/-- C21 (amended): for a stored message, a user and a non-empty emoji. If the pair has
no reaction initially, it has one after `n` successive `reactToMessage` calls exactly
when `n` is odd. If the initial list holds the pair at most once, two successive calls
leave the reactions unchanged up to order. For any initial list and any number of
calls, the reactions of all other (user, emoji) pairs are kept as they were, in
order. -/
theorem reactToMessage_toggle_parity (s : Store) (actor : User) (messageId : Nat)
    (emoji : String) (m : Message) (hm : s.findMessage messageId = some m)
    (he : emoji ≠ "") :
    ((actor.id, emoji) ∉ m.reactions → ∀ n, ∃ mn,
      (reactRepeatedly s actor messageId emoji n).findMessage messageId = some mn ∧
      ((actor.id, emoji) ∈ mn.reactions ↔ n % 2 = 1)) ∧
    (m.reactions.count (actor.id, emoji) ≤ 1 → ∃ m2,
      (reactRepeatedly s actor messageId emoji 2).findMessage messageId = some m2 ∧
      m2.reactions.Perm m.reactions) ∧
    (∀ n, ∃ mn,
      (reactRepeatedly s actor messageId emoji n).findMessage messageId = some mn ∧
      mn.reactions.filter (fun r => r != (actor.id, emoji)) =
        m.reactions.filter (fun r => r != (actor.id, emoji))) := by
  refine ⟨?_, ?_, ?_⟩
  · intro hnot n
    obtain ⟨mn, hmn, _, hcount⟩ := reactRepeatedly_state s actor messageId emoji m hm he n
    refine ⟨mn, hmn, ?_⟩
    have h0 : m.reactions.count (actor.id, emoji) ≤ 1 := by
      rw [List.count_eq_zero.2 hnot]
      omega
    rw [(hcount h0).2]
    rcases Nat.mod_two_eq_zero_or_one n with h | h <;> simp [hnot, h]
  · intro hone
    obtain ⟨_, hfind1, _⟩ := reactToMessage_toggles s actor messageId emoji m hm he
    obtain ⟨_, hfind2, _⟩ := reactToMessage_toggles
      (reactToMessage s actor messageId emoji).store actor messageId emoji _ hfind1 he
    exact ⟨_, hfind2, toggleReaction_twice_perm m.reactions actor.id emoji hone⟩
  · intro n
    obtain ⟨mn, hmn, hfilter, _⟩ := reactRepeatedly_state s actor messageId emoji m hm he n
    exact ⟨mn, hmn, hfilter⟩

/-- C21 (amended) on message 2 of `postedStore`, which has no reaction: one call by Ann
adds the reaction, two remove it, three add it again. -/
theorem reactToMessage_toggle_parity_witness :
    (postedStore.findMessage 2).map Message.reactions = some [] ∧
    ((reactRepeatedly postedStore ann 2 "+1" 1).findMessage 2).map Message.reactions
      = some [(1, "+1")] ∧
    ((reactRepeatedly postedStore ann 2 "+1" 2).findMessage 2).map Message.reactions
      = some [] ∧
    ((reactRepeatedly postedStore ann 2 "+1" 3).findMessage 2).map Message.reactions
      = some [(1, "+1")] ∧
    (∃ mn, (reactRepeatedly postedStore ann 2 "+1" 3).findMessage 2 = some mn ∧
      ((ann.id, "+1") ∈ mn.reactions ↔ 3 % 2 = 1)) :=
  ⟨by decide, by decide, by decide, by decide,
    (reactToMessage_toggle_parity postedStore ann 2 "+1"
      { id := 2, sender := some 2, content := "hello team", chat := 0, readBy := [],
        type := MessageType.text, replyTo := none, reactions := [], isDeleted := false }
      (by decide) (by decide)).1 (by decide) 3⟩

theorem nodup_toggleReaction (rs : List (Nat × String)) (u : Nat) (emoji : String)
    (h : rs.Nodup) : (toggleReaction rs u emoji).Nodup := by
  by_cases hm : (u, emoji) ∈ rs
  · rw [toggleReaction_of_mem rs u emoji hm, ← eraseP_isReactionOf]
    exact h.sublist (List.eraseP_sublist rs)
  · rw [toggleReaction_of_not_mem rs u emoji hm]
    refine List.Nodup.append h (List.nodup_singleton _) ?_
    rw [List.disjoint_singleton]
    exact hm

theorem reactToMessage_nodup (s : Store) (actor : User) (messageId : Nat) (emoji : String)
    (hs : ∀ m ∈ s.messages, m.reactions.Nodup) :
    ∀ m ∈ (reactToMessage s actor messageId emoji).store.messages, m.reactions.Nodup := by
  unfold reactToMessage
  split
  · exact hs
  · rename_i message hfind
    split
    · exact hs
    · intro m1 hm1
      rcases mem_updateFirst _ _ _ _ hm1 with hold | ⟨x, _, rfl⟩
      · exact hs m1 hold
      · exact nodup_toggleReaction _ _ _
          (hs message (List.mem_of_find?_eq_some hfind))

theorem reactAll_append_emojis (u : User) (messageId : Nat) (emojis : List String) :
    ∀ (s : Store) (m : Message) (pre : List String), s.findMessage messageId = some m →
      m.reactions = pre.map (fun e => (u.id, e)) → (pre ++ emojis).Nodup → "" ∉ emojis →
      ∃ m1, (reactAll s (emojis.map (fun e => ⟨u, messageId, e⟩))).findMessage messageId
          = some m1 ∧
        m1.reactions = (pre ++ emojis).map (fun e => (u.id, e)) := by
  induction emojis with
  | nil =>
    intro s m pre hm hr _ _
    exact ⟨m, hm, by simpa using hr⟩
  | cons e rest ih =>
    intro s m pre hm hr hnodup hempty
    have he : e ≠ "" := fun h => hempty (h ▸ List.mem_cons_self _ _)
    have hnot : (u.id, e) ∉ m.reactions := by
      rw [hr]
      intro hin
      obtain ⟨e1, he1, heq⟩ := List.mem_map.1 hin
      have : e1 = e := (Prod.mk.inj heq).2
      rw [this] at he1
      have hd := (List.nodup_append.1 hnodup).2.2
      exact hd he1 (List.mem_cons_self _ _)
    obtain ⟨_, hfind, _⟩ := reactToMessage_toggles s u messageId e m hm he
    rw [toggleReaction_of_not_mem _ _ _ hnot] at hfind
    obtain ⟨m1, hm1, hr1⟩ := ih (reactToMessage s u messageId e).store _ (pre ++ [e]) hfind
      (by simp [hr]) (by simpa using hnodup)
      (fun h => hempty (List.mem_cons_of_mem _ h))
    exact ⟨m1, hm1, by simpa using hr1⟩

/-- C22: when every stored message has at most one reaction entry per (user, emoji)
pair, so it has after every sequence of `reactToMessage` calls, by any users, on any
messages, with any emojis; and one user reacting to a message without reactions with
any number of distinct emojis holds one entry for each of them. -/
theorem reactions_stay_unique (s : Store) (hs : ∀ m ∈ s.messages, m.reactions.Nodup) :
    (∀ calls, ∀ m ∈ (reactAll s calls).messages, m.reactions.Nodup) ∧
    (∀ (u : User) (messageId : Nat) (m : Message) (emojis : List String),
      s.findMessage messageId = some m → m.reactions = [] → emojis.Nodup → "" ∉ emojis →
      ∃ m1, (reactAll s (emojis.map (fun e => ⟨u, messageId, e⟩))).findMessage messageId
          = some m1 ∧
        m1.reactions = emojis.map (fun e => (u.id, e))) := by
  constructor
  · intro calls
    induction calls generalizing s with
    | nil => exact hs
    | cons call rest ih =>
      exact ih _ (reactToMessage_nodup s call.actor call.messageId call.emoji hs)
  · intro u messageId m emojis hm hr hnodup hempty
    exact reactAll_append_emojis u messageId emojis s m [] hm (by simpa using hr)
      (by simpa using hnodup) hempty

/-- C22 on message 2 of `postedStore`: Ann and Bob react, Ann takes one reaction back
and reacts with three distinct emojis in all. -/
theorem reactions_stay_unique_witness :
    (∀ m ∈ postedStore.messages, m.reactions.Nodup) ∧
    (∀ m ∈ (reactAll postedStore
        [⟨ann, 2, "+1"⟩, ⟨bob, 2, "+1"⟩, ⟨ann, 2, "+1"⟩, ⟨ann, 2, "joy"⟩, ⟨ann, 2, "+1"⟩,
         ⟨ann, 2, "heart"⟩]).messages, m.reactions.Nodup) ∧
    ((reactAll postedStore
        [⟨ann, 2, "+1"⟩, ⟨bob, 2, "+1"⟩, ⟨ann, 2, "+1"⟩, ⟨ann, 2, "joy"⟩, ⟨ann, 2, "+1"⟩,
         ⟨ann, 2, "heart"⟩]).findMessage 2).map Message.reactions
      = some [(2, "+1"), (1, "joy"), (1, "+1"), (1, "heart")] :=
  ⟨by decide,
    (reactions_stay_unique postedStore (by decide)).1
      [⟨ann, 2, "+1"⟩, ⟨bob, 2, "+1"⟩, ⟨ann, 2, "+1"⟩, ⟨ann, 2, "joy"⟩, ⟨ann, 2, "+1"⟩,
       ⟨ann, 2, "heart"⟩],
    by decide⟩

/-! ## deleteMessage -/

/-- C23: for a stored message with a sender, `deleteMessage` by any other actor fails
with status 401 and leaves the store unchanged; by the sender it succeeds and the
stored message is the former one with `isDeleted` set, every other field as it was. -/
theorem deleteMessage_sender_only (s : Store) (actor : User) (messageId : Nat) (m : Message)
    (sender : Nat) (hm : s.findMessage messageId = some m) (hs : m.sender = some sender) :
    (actor.id ≠ sender →
      (deleteMessage s actor messageId).response =
        .thrown (some 401) "Not authorized to delete this message" ∧
      (deleteMessage s actor messageId).store = s) ∧
    (actor.id = sender →
      (deleteMessage s actor messageId).response =
        .sent 200 (.message { m with isDeleted := true }) ∧
      (deleteMessage s actor messageId).store.findMessage messageId =
        some { m with isDeleted := true }) := by
  constructor
  · intro hne
    have h1 : (sender != actor.id) = true := by simpa using Ne.symm hne
    have hk : deleteMessage s actor messageId =
        { store := s, response := .thrown (some 401) "Not authorized to delete this message" } := by
      simp only [deleteMessage, hm, hs, h1, if_true]
    rw [hk]
    exact ⟨rfl, rfl⟩
  · intro heq
    have h1 : (sender != actor.id) = false := by simp [heq]
    have h2 := findMessage_updateMessage_same s messageId
      (fun x => { x with isDeleted := true }) (fun _ => rfl)
    rw [hm, Option.map_some'] at h2
    have hk : deleteMessage s actor messageId =
        { store := s.updateMessage messageId (fun x => { x with isDeleted := true }),
          response := .sent 200 (.message { m with isDeleted := true }) } := by
      simp only [deleteMessage, hm, hs, h1, Bool.false_eq_true, if_false]
    rw [hk]
    exact ⟨rfl, h2⟩

/-- C23 on message 2 of `postedStore`, sent by Bob: Ann is refused, Bob deletes it. -/
theorem deleteMessage_sender_only_witness :
    ((deleteMessage postedStore ann 2).response =
        .thrown (some 401) "Not authorized to delete this message" ∧
      (deleteMessage postedStore ann 2).store = postedStore) ∧
    ((deleteMessage postedStore bob 2).store.findMessage 2).map
      (fun m => (m.isDeleted, m.content, m.sender)) = some (true, "hello team", some 2) := by
  have h := deleteMessage_sender_only postedStore ann 2
    { id := 2, sender := some 2, content := "hello team", chat := 0, readBy := [],
      type := MessageType.text, replyTo := none, reactions := [], isDeleted := false }
    2 (by decide) rfl
  exact ⟨h.1 (by decide), by decide⟩

/-- C29: for a stored message without sender, `deleteMessage` by any actor ends in a
failure (the exception thrown by `message.sender.toString()`) and leaves the store,
hence the message and its `isDeleted` flag, unchanged. -/
theorem deleteMessage_system_message (s : Store) (actor : User) (messageId : Nat)
    (m : Message) (hm : s.findMessage messageId = some m) (hs : m.sender = none) :
    (deleteMessage s actor messageId).response = .thrown none "TypeError" ∧
    (deleteMessage s actor messageId).store = s ∧
    (deleteMessage s actor messageId).store.findMessage messageId = some m := by
  have hk : deleteMessage s actor messageId =
      { store := s, response := .thrown none "TypeError" } := by
    simp only [deleteMessage, hm, hs]
  rw [hk]
  exact ⟨rfl, rfl, hm⟩

/-- C29 on the system message 2 of `systemMessageStore`. -/
theorem deleteMessage_system_message_witness :
    (systemMessageStore.findMessage 2).map Message.sender = some none ∧
    (deleteMessage systemMessageStore ann 2).response = .thrown none "TypeError" ∧
    (deleteMessage systemMessageStore ann 2).store = systemMessageStore := by
  have h := deleteMessage_system_message systemMessageStore ann 2
    { id := 2, sender := none, content := "A member left the group.", chat := 0,
      readBy := [], type := MessageType.system, replyTo := none, reactions := [],
      isDeleted := false }
    (by decide) rfl
  exact ⟨by decide, h.1, h.2.1⟩

/-! ## updateGroupSettings -/

theorem settingsMessage_trim_flags (a i : Bool) (o h p : Option Bool) :
    jsTrim (jsTrim (settingsMessage
      { about := if a then some "" else none, chatImage := if i then some "" else none,
        onlyAdminsCanMessage := o, hideMembersList := h, isPrivate := p })) =
      String.intercalate " " (settingsSentences
        { about := if a then some "" else none, chatImage := if i then some "" else none,
          onlyAdminsCanMessage := o, hideMembersList := h, isPrivate := p }) ∧
    ((settingsMessage
      { about := if a then some "" else none, chatImage := if i then some "" else none,
        onlyAdminsCanMessage := o, hideMembersList := h, isPrivate := p } != "") =
      !(settingsSentences
        { about := if a then some "" else none, chatImage := if i then some "" else none,
          onlyAdminsCanMessage := o, hideMembersList := h, isPrivate := p }).isEmpty) := by
  cases a <;> cases i <;> rcases o with _ | _ | _ <;> rcases h with _ | _ | _ <;>
    rcases p with _ | _ | _ <;> exact ⟨by decide, by decide⟩

theorem settingsMessage_trim (req : SettingsRequest) :
    jsTrim (jsTrim (settingsMessage req)) = String.intercalate " " (settingsSentences req) ∧
    ((settingsMessage req != "") = !(settingsSentences req).isEmpty) := by
  obtain ⟨about, chatImage, onlyAdmins, hide, priv⟩ := req
  cases about with
  | none =>
    cases chatImage with
    | none => exact settingsMessage_trim_flags false false onlyAdmins hide priv
    | some _ => exact settingsMessage_trim_flags false true onlyAdmins hide priv
  | some _ =>
    cases chatImage with
    | none => exact settingsMessage_trim_flags true false onlyAdmins hide priv
    | some _ => exact settingsMessage_trim_flags true true onlyAdmins hide priv

theorem settingsSentences_nil_iff (req : SettingsRequest) :
    settingsSentences req = [] ↔
      req.about = none ∧ req.chatImage = none ∧ req.onlyAdminsCanMessage = none ∧
      req.hideMembersList = none ∧ req.isPrivate = none := by
  obtain ⟨about, chatImage, onlyAdmins, hide, priv⟩ := req
  cases about <;> cases chatImage <;> rcases onlyAdmins with _ | _ | _ <;>
    rcases hide with _ | _ | _ <;> rcases priv with _ | _ | _ <;>
    simp [settingsSentences]

/-- C24: on an existing chat `updateGroupSettings` succeeds; it creates no message
when none of `about`, `chatImage`, `onlyAdminsCanMessage`, `hideMembersList`,
`isPrivate` is supplied, and exactly one sender-less system message when at least one
is, whose content is the sentences of the supplied fields in that order, joined by
single spaces, without trailing space. -/
theorem updateGroupSettings_one_message (s : Store) (actor : User) (chatId : Nat)
    (req : SettingsRequest) (c : Chat) (hc : s.findChat chatId = some c) :
    (updateGroupSettings s actor chatId req).response.status? = some 200 ∧
    ((req.about = none ∧ req.chatImage = none ∧ req.onlyAdminsCanMessage = none ∧
        req.hideMembersList = none ∧ req.isPrivate = none) →
      (updateGroupSettings s actor chatId req).store.messages = s.messages) ∧
    (¬ (req.about = none ∧ req.chatImage = none ∧ req.onlyAdminsCanMessage = none ∧
        req.hideMembersList = none ∧ req.isPrivate = none) →
      (updateGroupSettings s actor chatId req).store.messages = s.messages ++
        [{ id := s.nextId, sender := none,
           content := String.intercalate " " (settingsSentences req), chat := chatId,
           readBy := [], type := MessageType.system, replyTo := none, reactions := [],
           isDeleted := false }]) := by
  obtain ⟨htrim, hne⟩ := settingsMessage_trim req
  refine ⟨?_, ?_, ?_⟩
  · simp only [updateGroupSettings, hc]
    rfl
  · intro hnone
    have hempty : settingsSentences req = [] := (settingsSentences_nil_iff req).2 hnone
    have hmsg : (settingsMessage req != "") = false := by rw [hne, hempty]; rfl
    simp only [updateGroupSettings, hc, hmsg, Bool.false_eq_true, if_false]
    rfl
  · intro hsome
    have hnonempty : settingsSentences req ≠ [] :=
      fun h => hsome ((settingsSentences_nil_iff req).1 h)
    have hmsg : (settingsMessage req != "") = true := by
      rw [hne]
      cases h : settingsSentences req with
      | nil => exact absurd h hnonempty
      | cons x xs => rfl
    simp only [updateGroupSettings, hc, hmsg, if_true, createSystemMessage, htrim]
    rfl

/-- C24 on the sample group: a request touching all five fields creates one message
with the five sentences, a request touching none creates no message. -/
theorem updateGroupSettings_one_message_witness :
    (updateGroupSettings teamStore ann 0 allSettings).store.messages.map Message.content =
      ["Group about updated. Group icon updated. Only admins can send messages now. Members list is visible to everyone. Group is now Private."] ∧
    (updateGroupSettings teamStore ann 0 noSettings).store.messages = [] := by
  have h := updateGroupSettings_one_message teamStore ann 0 allSettings
    { id := 0, chatName := "Team", isGroupChat := true, users := [2, 3, 1],
      latestMessage := none, groupDetails := some 1, mutedBy := [],
      sharedPhoneNumbers := [], archivedBy := [], deletedBy := [] } (by decide)
  refine ⟨?_, by decide⟩
  rw [h.2.2 (by decide)]
  decide

/-! ## getStatuses -/

/-- C26: for every caller, store and time `now`, every status returned by
`getStatuses` is stored and has `expiresAt > now`; a stored status with
`expiresAt ≤ now` is never returned. -/
theorem getStatuses_unexpired (s : Store) (actor : User) (now : Nat) :
    (∀ st ∈ (getStatuses s actor now).response.statuses,
      st ∈ s.statuses ∧ now < st.expiresAt) ∧
    (∀ st ∈ s.statuses, st.expiresAt ≤ now →
      st ∉ (getStatuses s actor now).response.statuses) := by
  have hmem : ∀ st ∈ (getStatuses s actor now).response.statuses,
      st ∈ s.statuses ∧ now < st.expiresAt := by
    intro st hst
    simp only [getStatuses, Response.statuses, List.mem_insertionSort, List.mem_filter,
      Bool.and_eq_true, decide_eq_true_eq] at hst
    exact ⟨hst.1, hst.2.2⟩
  refine ⟨hmem, ?_⟩
  intro st _ hexp hin
  have := (hmem st hin).2
  omega

/-- C26 on `statusStore`: at time 100 Ann is shown the status expiring at 500 only,
although the two statuses that expired at 100 are still stored; at time 99 she is
shown her own group status and personal status. -/
theorem getStatuses_unexpired_witness :
    statusStore.statuses.map Status.id = [50, 51, 52] ∧
    (getStatuses statusStore ann 100).response.statuses.map Status.id = [52] ∧
    (getStatuses statusStore ann 99).response.statuses.map Status.id = [52, 51] ∧
    (∀ st ∈ (getStatuses statusStore ann 100).response.statuses,
      st ∈ statusStore.statuses ∧ 100 < st.expiresAt) :=
  ⟨by decide, by decide, by decide, (getStatuses_unexpired statusStore ann 100).1⟩

/-! ## Socket sessions -/

/-- C25 as stated fails: Ann has the two set-up sockets 10 and 11; when socket 10
disconnects, she is stored as offline and `user_offline` is sent, although socket 11
is still connected. -/
theorem disconnect_one_of_two_sessions :
    twoSessions.sessions.map (fun x => (x.id, x.userData))
      = [(10, some 1), (11, some 1), (12, some 2)] ∧
    (twoSessions.store.findUser 1).map User.isOnline = some true ∧
    ((twoSessions.disconnect 10 777).store.findUser 1).map User.isOnline = some false ∧
    (twoSessions.disconnect 10 777).sessions.map (fun x => (x.id, x.userData))
      = [(11, some 1), (12, some 2)] ∧
    ((twoSessions.disconnect 10 777).emitted.drop twoSessions.emitted.length)
      = [{ event := "user_offline", payload := some 1, recipients := [11, 12] }] := by
  decide

/-- C25 (amended): there is no count of sessions; the disconnect of any set-up socket
marks its user offline. For every connected socket that was set up for a stored user,
its disconnect stores `isOnline = false` and `lastSeen = now` for that user, sends one
`user_offline` event to all other sockets, and leaves every other socket connected,
further sockets of the same user included. -/
theorem disconnect_marks_offline (sv : Server) (socketId now userId : Nat) (socket : Session)
    (d : User) (hs : sv.sessions.find? (fun x => x.id == socketId) = some socket)
    (hu : socket.userData = some userId) (hd : sv.store.findUser userId = some d) :
    (sv.disconnect socketId now).store.findUser userId =
      some { d with isOnline := false, lastSeen := now } ∧
    (sv.disconnect socketId now).emitted = sv.emitted ++
      [{ event := "user_offline", payload := some userId,
         recipients := (sv.disconnect socketId now).sessions.map Session.id }] ∧
    (∀ x ∈ sv.sessions, x.id ≠ socketId → x ∈ (sv.disconnect socketId now).sessions) := by
  have h1 := findUser_updateUser_same sv.store userId
    (fun u => { u with isOnline := false, lastSeen := now }) (fun _ => rfl)
  rw [hd, Option.map_some'] at h1
  have hk : sv.disconnect socketId now =
      { store := sv.store.updateUser userId
          (fun u => { u with isOnline := false, lastSeen := now }),
        sessions := sv.sessions.eraseP (fun x => x.id == socketId),
        emitted := sv.emitted ++
          [{ event := "user_offline", payload := some userId,
             recipients := (sv.sessions.eraseP (fun x => x.id == socketId)).map Session.id }] } := by
    simp only [Server.disconnect, hs, hu]
  rw [hk]
  refine ⟨h1, rfl, ?_⟩
  intro x hx hne
  exact (List.mem_eraseP_of_neg (by simpa using hne)).2 hx

/-- C25 (amended) on `twoSessions`: socket 10 of Ann disconnects at time 777. -/
theorem disconnect_marks_offline_witness :
    ((twoSessions.disconnect 10 777).store.findUser 1).map
      (fun u => (u.isOnline, u.lastSeen)) = some (false, 777) ∧
    (twoSessions.disconnect 10 777).emitted = twoSessions.emitted ++
      [{ event := "user_offline", payload := some 1,
         recipients := (twoSessions.disconnect 10 777).sessions.map Session.id }] := by
  have h := disconnect_marks_offline twoSessions 10 777 1
    { id := 10, userData := some 1, rooms := [1] } { ann with isOnline := true }
    (by decide) rfl (by decide)
  refine ⟨?_, h.2.1⟩
  rw [h.1]
  rfl

/-! ## Groups and their admins -/

theorem everyGroupHasAdmin_updateGroup {s : Store} (h : EveryGroupHasAdmin s)
    (ref : Option Nat) (f : Group → Group)
    (hf : ∀ g, s.findGroup ref = some g → (f g).admins ≠ []) :
    EveryGroupHasAdmin (s.updateGroup ref f) := by
  cases ref with
  | none => exact h
  | some gid =>
    intro g hg
    rcases mem_updateFirst _ _ _ _ hg with h1 | ⟨x, hx, rfl⟩
    · exact h g h1
    · exact hf x hx

theorem pull_ne_nil (xs : List Nat) (u : Nat) (h : xs.any (fun a => a != u) = true) :
    pull xs u ≠ [] := by
  obtain ⟨a, ha, hau⟩ := List.any_eq_true.1 h
  have : a ∈ pull xs u := (mem_pull xs u a).2 ⟨ha, by simpa using hau⟩
  exact List.ne_nil_of_mem this

theorem addToSet_ne_nil (xs : List Nat) (u : Nat) : addToSet xs u ≠ [] :=
  List.ne_nil_of_mem ((mem_addToSet xs u u).2 (Or.inr rfl))

theorem everyGroupHasAdmin_createGroupChat {s : Store} (h : EveryGroupHasAdmin s)
    (actor : User) (req : GroupRequest) :
    EveryGroupHasAdmin (createGroupChat .noFault s actor req).store := by
  cases hu : req.users with
  | none =>
    have : (Chatify.createGroupChat .noFault s actor req).store = s := by
      simp only [Chatify.createGroupChat, hu]
    rw [this]; exact h
  | some members =>
    by_cases hname : req.name = ""
    · have : (Chatify.createGroupChat .noFault s actor req).store = s := by
        simp only [Chatify.createGroupChat, hu, hname, beq_self_eq_true, if_true]
      rw [this]; exact h
    · by_cases hm : members = []
      · have : (Chatify.createGroupChat .noFault s actor req).store = s := by
          simp [Chatify.createGroupChat, hu, hname, hm]
        rw [this]; exact h
      · have hlen : ¬ members.length < 1 := by
          cases members with
          | nil => exact absurd rfl hm
          | cons _ _ => simp
        have hg : (Chatify.createGroupChat .noFault s actor req).store.groups =
            s.groups ++ [newGroup (s.insertChat (newGroupChat s actor req.name members))
              s.nextId actor req.name req.isPrivate] := by
          simp [Chatify.createGroupChat, hu, hname, hlen, Store.updateChat, Store.insertGroup,
            Store.insertChat, newGroupChat]
        intro g hin
        rw [hg, List.mem_append, List.mem_singleton] at hin
        rcases hin with hin | rfl
        · exact h g hin
        · simp [newGroup]

theorem everyGroupHasAdmin_apply {s : Store} (h : EveryGroupHasAdmin s) (op : Op)
    (hop : op.sparesAnAdmin s = true) : EveryGroupHasAdmin (op.apply s).store := by
  cases op with
  | createGroupChat actor req => exact everyGroupHasAdmin_createGroupChat h actor req
  | addToGroup actor chatId userId =>
    simp only [Op.apply]
    unfold Chatify.addToGroup
    dsimp only
    split <;> exact h
  | removeFromGroup actor chatId userId =>
    have hfind := findChat_updateChat_same s chatId
      (fun c => { c with users := pull c.users userId }) (fun _ => rfl)
    simp only [Op.apply]
    unfold Chatify.removeFromGroup
    dsimp only
    split
    · exact h
    · rename_i chat hchat
      have key : EveryGroupHasAdmin
          ((s.updateChat chatId (fun c => { c with users := pull c.users userId })).updateGroup
            chat.groupDetails (fun g => { g with admins := pull g.admins userId })) := by
        refine everyGroupHasAdmin_updateGroup (s := s.updateChat chatId _) h _ _ ?_
        intro g hg
        rw [findGroup_updateChat] at hg
        cases hc : s.findChat chatId with
        | none => rw [hfind, hc] at hchat; simp at hchat
        | some c0 =>
          rw [hfind, hc, Option.map_some'] at hchat
          have href : chat.groupDetails = c0.groupDetails := by
            rw [← Option.some.inj hchat]
          rw [href] at hg
          simp only [Op.sparesAnAdmin, hc, hg] at hop
          exact pull_ne_nil _ _ hop
      split <;> exact key
  | makeGroupAdmin actor chatId userId =>
    simp only [Op.apply]
    unfold Chatify.makeGroupAdmin
    dsimp only
    split
    · exact h
    · rename_i chat hchat
      have key : EveryGroupHasAdmin (s.updateGroup chat.groupDetails
          (fun g => { g with admins := addToSet g.admins userId })) :=
        everyGroupHasAdmin_updateGroup h _ _ (fun g _ => addToSet_ne_nil _ _)
      split <;> exact key
  | removeGroupAdmin actor chatId userId =>
    simp only [Op.apply]
    unfold Chatify.removeGroupAdmin
    dsimp only
    split
    · exact h
    · rename_i chat hchat
      have key : EveryGroupHasAdmin (s.updateGroup chat.groupDetails
          (fun g => { g with admins := pull g.admins userId })) := by
        refine everyGroupHasAdmin_updateGroup h _ _ ?_
        intro g hg
        simp only [Op.sparesAnAdmin, hchat, hg] at hop
        exact pull_ne_nil _ _ hop
      split <;> exact key
  | joinGroup actor chatId =>
    simp only [Op.apply]
    unfold Chatify.joinGroup
    dsimp only
    split
    · exact h
    · split
      · exact h
      · split
        · exact h
        · rename_i group hg
          split
          · split
            · exact h
            · exact everyGroupHasAdmin_updateGroup h (some group.id)
                (fun g => { g with joinRequests := push g.joinRequests actor.id })
                (fun g hfg => h g (find_some_id_group s _ g hfg).2)
          · exact h
  | handleJoinRequest actor chatId userId action =>
    simp only [Op.apply]
    unfold Chatify.handleJoinRequest
    dsimp only
    have key : ∀ gid, EveryGroupHasAdmin
        ((s.updateChat chatId (fun c => { c with users := push c.users userId })).updateGroup
          (some gid) (fun g => { g with joinRequests := pull g.joinRequests userId })) := by
      intro gid
      refine everyGroupHasAdmin_updateGroup (s := s.updateChat chatId _) h _ _ ?_
      intro g hfg
      rw [findGroup_updateChat] at hfg
      exact h g (find_some_id_group s _ g hfg).2
    split
    · exact h
    · split
      · exact h
      · rename_i group hg
        split
        · exact h
        · split
          · split
            · exact key group.id
            · exact key group.id
          · exact everyGroupHasAdmin_updateGroup h (some group.id)
              (fun g => { g with joinRequests := pull g.joinRequests userId })
              (fun g hfg => h g (find_some_id_group s _ g hfg).2)

theorem everyGroupHasAdmin_run (ops : List Op) (s : Store) (h : EveryGroupHasAdmin s)
    (hops : sparesAdmins s ops = true) : EveryGroupHasAdmin (run s ops) := by
  induction ops generalizing s with
  | nil => exact h
  | cons op rest ih =>
    simp only [sparesAdmins, Bool.and_eq_true] at hops
    exact ih _ (everyGroupHasAdmin_apply h op hops.1) hops.2

/-- C27 as stated fails: no handler looks at who is left as admin. Ann creates a group
and is its only admin; after `removeGroupAdmin` is called for her, and likewise after
`removeFromGroup` is called for her, the group is still stored and has no admin. -/
theorem sole_admin_removed :
    (run usersOnly [.createGroupChat ann teamRequest]).groups.map Group.admins = [[1]] ∧
    (run usersOnly [.createGroupChat ann teamRequest,
      .removeGroupAdmin ann 0 1]).groups.map Group.admins = [[]] ∧
    (run usersOnly [.createGroupChat ann teamRequest,
      .removeFromGroup bob 0 1]).groups.map Group.admins = [[]] ∧
    ¬ EveryGroupHasAdmin (run usersOnly [.createGroupChat ann teamRequest,
      .removeGroupAdmin ann 0 1]) := by
  decide

/-- C27 (amended): start from a store without groups and run any sequence of
`createGroupChat`, `addToGroup`, `removeFromGroup`, `makeGroupAdmin`,
`removeGroupAdmin`, `joinGroup` and `handleJoinRequest` calls, with arbitrary actors,
chat ids and user ids, in which every `removeGroupAdmin` and `removeFromGroup` call
names a user besides whom the group has another admin when the call is made. Then the
admins list of every group is non-empty. -/
theorem admins_stay_nonempty (us : List User) (ops : List Op)
    (hops : sparesAdmins (Store.ofUsers us) ops = true) :
    EveryGroupHasAdmin (run (Store.ofUsers us) ops) :=
  everyGroupHasAdmin_run ops (Store.ofUsers us)
    (by intro g hg; simp [Store.ofUsers, Store.empty] at hg) hops

/-- C27 (amended) on a concrete history: a group is created, user 4 is added and made
admin, Ann is demoted and removed, user 2 joins the admins and user 4 is demoted. -/
theorem admins_stay_nonempty_witness :
    sparesAdmins (Store.ofUsers [ann, bob, dan])
      [.createGroupChat ann teamRequest, .addToGroup bob 0 4, .makeGroupAdmin ann 0 4,
       .removeGroupAdmin dan 0 1, .removeFromGroup dan 0 1, .joinGroup dan 0,
       .handleJoinRequest dan 0 7 "accept", .makeGroupAdmin dan 0 2,
       .removeGroupAdmin bob 0 4] = true ∧
    (run (Store.ofUsers [ann, bob, dan])
      [.createGroupChat ann teamRequest, .addToGroup bob 0 4, .makeGroupAdmin ann 0 4,
       .removeGroupAdmin dan 0 1, .removeFromGroup dan 0 1, .joinGroup dan 0,
       .handleJoinRequest dan 0 7 "accept", .makeGroupAdmin dan 0 2,
       .removeGroupAdmin bob 0 4]).groups.map Group.admins = [[2]] ∧
    EveryGroupHasAdmin (run (Store.ofUsers [ann, bob, dan])
      [.createGroupChat ann teamRequest, .addToGroup bob 0 4, .makeGroupAdmin ann 0 4,
       .removeGroupAdmin dan 0 1, .removeFromGroup dan 0 1, .joinGroup dan 0,
       .handleJoinRequest dan 0 7 "accept", .makeGroupAdmin dan 0 2,
       .removeGroupAdmin bob 0 4]) :=
  ⟨by decide, by decide, admins_stay_nonempty [ann, bob, dan] _ (by decide)⟩

/-! ## One-to-one chats -/

theorem pairsKept_updateChat {s : Store} (h : PairsKept s) (k : Nat) (f : Chat → Chat)
    (hf : ∀ c, s.findChat k = some c → (f c).isGroupChat = false →
      ((f c).users.length = 2 ∧ (f c).users.Nodup) ∧ (f c).groupDetails = none) :
    PairsKept (s.updateChat k f) := by
  intro c hc
  rcases mem_updateFirst _ _ _ _ hc with h1 | ⟨x, hx, rfl⟩
  · exact h c h1
  · exact hf x hx

theorem pairsKept_keep {s : Store} (h : PairsKept s) (k : Nat) (f : Chat → Chat)
    (hg : ∀ c, (f c).isGroupChat = c.isGroupChat) (hu : ∀ c, (f c).users = c.users)
    (hr : ∀ c, (f c).groupDetails = c.groupDetails) :
    PairsKept (s.updateChat k f) := by
  refine pairsKept_updateChat h k f ?_
  intro c hc hfc
  rw [hu, hr]
  rw [hg] at hfc
  exact h c (find_some_id_chat s k c hc).2 hfc

theorem pairsKept_updateGroup {s : Store} (h : PairsKept s) (ref : Option Nat)
    (f : Group → Group) : PairsKept (s.updateGroup ref f) := h

theorem pairsKept_groupChat {s : Store} (h : PairsKept s) (k : Nat) (f : Chat → Chat)
    (hg : ∀ c, (f c).isGroupChat = c.isGroupChat)
    (hk : ∀ c, s.findChat k = some c → c.isGroupChat = true) :
    PairsKept (s.updateChat k f) := by
  refine pairsKept_updateChat h k f ?_
  intro c hc hfc
  rw [hg, hk c hc] at hfc
  exact absurd hfc (by simp)

theorem pairsKept_accessChat {s : Store} (h : PairsKept s) (actor : User)
    (userId : Option Nat) (foundByMobile : Bool) (hne : userId ≠ some actor.id) :
    PairsKept (accessChat s actor userId foundByMobile).store := by
  unfold Chatify.accessChat
  split
  · exact h
  · rename_i target
    split
    · rename_i chat rest hd
      cases foundByMobile with
      | false => exact h
      | true =>
        simp only [if_true]
        have h1 : PairsKept (s.updateChat chat.id
            (fun c => { c with sharedPhoneNumbers := addToSet c.sharedPhoneNumbers target })) :=
          pairsKept_keep h chat.id
            (fun c => { c with sharedPhoneNumbers := addToSet c.sharedPhoneNumbers target })
            (fun _ => rfl) (fun _ => rfl) (fun _ => rfl)
        by_cases hcond : chat.sharedPhoneNumbers.contains target = true
        · simp only [hcond, Bool.not_true, Bool.false_eq_true, if_false]
          split
          · exact pairsKept_keep h chat.id
              (fun c => { c with deletedBy := pull c.deletedBy actor.id })
              (fun _ => rfl) (fun _ => rfl) (fun _ => rfl)
          · exact h
        · simp only [Bool.not_eq_true] at hcond
          simp only [hcond, Bool.not_false, if_true]
          split
          · exact h1
          · split
            · rename_i chat1 _ _
              exact pairsKept_keep h1 chat1.id
                (fun c => { c with deletedBy := pull c.deletedBy actor.id })
                (fun _ => rfl) (fun _ => rfl) (fun _ => rfl)
            · exact h1
    · intro c hc hg
      simp only [Store.insertChat, List.mem_append, List.mem_singleton] at hc
      rcases hc with hc | rfl
      · exact h c hc hg
      · refine ⟨⟨rfl, ?_⟩, rfl⟩
        simp only [newDirectChat, List.nodup_cons, List.mem_singleton, List.not_mem_nil,
          not_false_eq_true, List.nodup_nil, and_true]
        intro heq
        exact hne (by rw [heq])

theorem pairsKept_apply {s : Store} (h : PairsKept s) (op : ChatOp)
    (hop : op.respectsPairs s = true) : PairsKept (op.apply s).store := by
  cases op with
  | accessChat actor userId foundByMobile =>
    exact pairsKept_accessChat h actor userId foundByMobile (by simpa [ChatOp.respectsPairs] using hop)
  | addToGroup actor chatId userId =>
    have h1 : PairsKept (s.updateChat chatId (fun c => { c with users := push c.users userId })) := by
      refine pairsKept_groupChat h _ _ (fun _ => rfl) ?_
      intro c hc
      simpa [ChatOp.respectsPairs, hc] using hop
    simp only [ChatOp.apply]
    unfold Chatify.addToGroup
    dsimp only
    split <;> exact h1
  | removeFromGroup actor chatId userId =>
    have h1 : PairsKept (s.updateChat chatId (fun c => { c with users := pull c.users userId })) := by
      refine pairsKept_groupChat h _ _ (fun _ => rfl) ?_
      intro c hc
      simpa [ChatOp.respectsPairs, hc] using hop
    simp only [ChatOp.apply]
    unfold Chatify.removeFromGroup
    dsimp only
    split
    · exact h1
    · split <;> exact h1
  | joinGroup actor chatId =>
    simp only [ChatOp.apply]
    unfold Chatify.joinGroup
    dsimp only
    split
    · exact h
    · rename_i chat hchat
      split
      · exact h
      · split
        · exact h
        · rename_i group hg
          split
          · split
            · exact h
            · exact h
          · refine pairsKept_groupChat h _ (fun c => { c with users := push c.users actor.id })
              (fun _ => rfl) ?_
            intro c hc
            rw [hchat] at hc
            cases Option.some.inj hc
            cases hgc : chat.isGroupChat with
            | true => rfl
            | false =>
              have := (h chat (find_some_id_chat s chatId chat hchat).2 hgc).2
              rw [this] at hg
              simp [Store.findGroup] at hg
  | handleJoinRequest actor chatId userId action =>
    simp only [ChatOp.apply]
    unfold Chatify.handleJoinRequest
    dsimp only
    split
    · exact h
    · rename_i chat hchat
      split
      · exact h
      · rename_i group hg
        have h1 : PairsKept
            (s.updateChat chatId (fun c => { c with users := push c.users userId })) := by
          refine pairsKept_groupChat h _ _ (fun _ => rfl) ?_
          intro c hc
          rw [hchat] at hc
          cases Option.some.inj hc
          cases hgc : chat.isGroupChat with
          | true => rfl
          | false =>
            have := (h chat (find_some_id_chat s chatId chat hchat).2 hgc).2
            rw [this] at hg
            simp [Store.findGroup] at hg
        split
        · exact h
        · split
          · split
            · exact h1
            · exact h1
          · exact h

theorem pairsKept_run (ops : List ChatOp) (s : Store) (h : PairsKept s)
    (hops : respectPairs s ops = true) : PairsKept (runChatOps s ops) := by
  induction ops generalizing s with
  | nil => exact h
  | cons op rest ih =>
    simp only [respectPairs, Bool.and_eq_true] at hops
    exact ih _ (pairsKept_apply h op hops.1) hops.2

/-- C28 as stated fails: in `teamAndDirect` chat 2 is the one-to-one chat of Ann and
Bob. `addToGroup` puts a third user into it, `removeFromGroup` leaves it with one user,
and `accessChat` with the id of the caller creates a chat whose two users are the same;
each of these chats has `isGroupChat = false`. -/
theorem direct_chat_not_a_pair :
    DirectChatsArePairs teamAndDirect ∧
    (teamAndDirect.findChat 2).map (fun c => (c.isGroupChat, c.users)) = some (false, [1, 2]) ∧
    ((runChatOps teamAndDirect [.addToGroup ann 2 4]).findChat 2).map
      (fun c => (c.isGroupChat, c.users)) = some (false, [1, 2, 4]) ∧
    ((runChatOps teamAndDirect [.removeFromGroup ann 2 2]).findChat 2).map
      (fun c => (c.isGroupChat, c.users)) = some (false, [1]) ∧
    ((runChatOps teamAndDirect [.accessChat dan (some 4) false]).findChat 3).map
      (fun c => (c.isGroupChat, c.users)) = some (false, [4, 4]) ∧
    ¬ DirectChatsArePairs (runChatOps teamAndDirect [.addToGroup ann 2 4]) ∧
    ¬ DirectChatsArePairs (runChatOps teamAndDirect [.removeFromGroup ann 2 2]) ∧
    ¬ DirectChatsArePairs (runChatOps teamAndDirect [.accessChat dan (some 4) false]) := by
  decide

/-- C28 (amended): start from a store in which every chat with `isGroupChat = false`
has two different users and no group document, and run any sequence of `accessChat`,
`addToGroup`, `removeFromGroup`, `joinGroup` and `handleJoinRequest` calls in which
every `accessChat` call names a user other than the caller and every `addToGroup` and
`removeFromGroup` call names a group chat or a chat that is not found. Then every chat
with `isGroupChat = false` still has two different users and no group document. -/
theorem direct_chats_stay_pairs (s : Store) (ops : List ChatOp)
    (hpairs : DirectChatsArePairs s) (hnone : DirectChatsHaveNoGroup s)
    (hops : respectPairs s ops = true) :
    DirectChatsArePairs (runChatOps s ops) ∧ DirectChatsHaveNoGroup (runChatOps s ops) := by
  have h : PairsKept (runChatOps s ops) :=
    pairsKept_run ops s (fun c hc hg => ⟨hpairs c hc hg, hnone c hc hg⟩) hops
  exact ⟨fun c hc hg => (h c hc hg).1, fun c hc hg => (h c hc hg).2⟩

/-- C28 (amended) on a concrete history from `teamAndDirect`: the one-to-one chat is
fetched again from both sides, Dan opens a chat with Ann, joins the group and is removed
from it, and calls that take the one-to-one chat 2 for a group fail without a write. -/
theorem direct_chats_stay_pairs_witness :
    respectPairs teamAndDirect
      [.accessChat bob (some 1) true, .accessChat ann (some 2) true,
       .accessChat dan (some 1) false, .joinGroup dan 0, .joinGroup dan 2,
       .handleJoinRequest ann 2 4 "accept", .addToGroup ann 0 7,
       .removeFromGroup ann 0 4, .addToGroup ann 9 4] = true ∧
    (runChatOps teamAndDirect
      [.accessChat bob (some 1) true, .accessChat ann (some 2) true,
       .accessChat dan (some 1) false, .joinGroup dan 0, .joinGroup dan 2,
       .handleJoinRequest ann 2 4 "accept", .addToGroup ann 0 7,
       .removeFromGroup ann 0 4, .addToGroup ann 9 4]).chats.map
        (fun c => (c.id, c.isGroupChat, c.users))
      = [(0, true, [2, 3, 1, 7]), (2, false, [1, 2]), (3, false, [4, 1])] ∧
    DirectChatsArePairs (runChatOps teamAndDirect
      [.accessChat bob (some 1) true, .accessChat ann (some 2) true,
       .accessChat dan (some 1) false, .joinGroup dan 0, .joinGroup dan 2,
       .handleJoinRequest ann 2 4 "accept", .addToGroup ann 0 7,
       .removeFromGroup ann 0 4, .addToGroup ann 9 4]) :=
  ⟨by decide, by decide,
    (direct_chats_stay_pairs teamAndDirect _ (by decide) (by decide) (by decide)).1⟩

/-! ## updateUserProfile -/

theorem daysLeft_bounds (diff : Int) (h0 : 0 ≤ diff) (h1 : diff < (fourteenDays : Int)) :
    1 ≤ daysLeft diff ∧ daysLeft diff ≤ 14 ∧
    ((daysLeft diff : Int) - 1) * (oneDay : Int) < (fourteenDays : Int) - diff ∧
    (fourteenDays : Int) - diff ≤ (daysLeft diff : Int) * (oneDay : Int) := by
  simp only [daysLeft, fourteenDays, oneDay] at *
  norm_num at *
  omega

theorem cooldownMessage_ne_taken (d : Nat) : cooldownMessage d ≠ "Username already taken." := by
  intro h
  have := congrArg (fun s => s.data.head?) h
  simp [cooldownMessage, String.data_append] at this

theorem announce_users (text : String) (chats : List Chat) (s : Store) :
    (announce s text chats).users = s.users := by
  induction chats generalizing s with
  | nil => rfl
  | cons chat rest ih =>
    simp only [announce]
    rw [ih]
    rfl

theorem usernameLogic_cooling (s : Store) (user : User) (name : String) (now last : Nat)
    (hne : name ≠ "") (hd : name ≠ user.username) (hl : user.lastUsernameChange = some last)
    (hlt : (now : Int) - (last : Int) < (fourteenDays : Int)) :
    usernameLogic s user (some name) now =
      .error (.thrown (some 400) (cooldownMessage (daysLeft ((now : Int) - (last : Int))))) := by
  simp [usernameLogic, hne, hd, hl, hlt]

theorem usernameLogic_free (s : Store) (user : User) (name : String) (now : Nat)
    (hne : name ≠ "") (hd : name ≠ user.username)
    (hfree : ∀ last, user.lastUsernameChange = some last →
      ¬ ((now : Int) - (last : Int) < (fourteenDays : Int))) :
    usernameLogic s user (some name) now =
      if s.users.any (fun u => u.username == name) then
        .error (.thrown (some 400) "Username already taken.")
      else .ok { user with username := name, lastUsernameChange := some now } := by
  cases hl : user.lastUsernameChange with
  | none => simp [usernameLogic, hne, hd, hl]
  | some last =>
    have := hfree last hl
    simp [usernameLogic, hne, hd, hl, this]

theorem find_updateFirst_of_find {α : Type} (p : α → Bool) (f : α → α) (xs : List α) (x : α)
    (h : xs.find? p = some x) (hp : p (f x) = true) :
    (updateFirst p f xs).find? p = some (f x) := by
  induction xs with
  | nil => simp at h
  | cons y ys ih =>
    by_cases hy : p y = true
    · have hxy : y = x := by simpa [List.find?, hy] using h
      subst hxy
      simp [updateFirst, hy, List.find?, hp]
    · simp only [Bool.not_eq_true] at hy
      have h2 : ys.find? p = some x := by simpa [List.find?, hy] using h
      simp [updateFirst, hy, List.find?, ih h2]

/-- C30: a profile request of a stored user carries a username `name` that is not empty
and differs from the stored one; `diff = now - lastUsernameChange` in milliseconds.
The request is rejected by the cooldown exactly when `lastUsernameChange` is set and
`diff < 14 * 24 * 60 * 60 * 1000`. It is then answered with status 400 and the message
built from `daysLeft`, the store is left as it was (although the request also names
other fields), and for `0 ≤ diff` the value `daysLeft` is the ceiling of
`(14 days - diff) / 1 day` and lies between 1 and 14. Outside the cooldown a username
that no stored user has is accepted: status 200, and the username is stored together
with `lastUsernameChange = now`. -/
theorem updateUserProfile_cooldown (s : Store) (actor user : User) (req : ProfileRequest)
    (name : String) (now : Nat) (hu : s.findUser actor.id = some user)
    (hn : req.username = some name) (hne : name ≠ "") (hd : name ≠ user.username) :
    ((∃ d, (updateUserProfile s actor req now).response
        = .thrown (some 400) (cooldownMessage d)) ↔
      ∃ last, user.lastUsernameChange = some last ∧
        (now : Int) - (last : Int) < 14 * 24 * 60 * 60 * 1000) ∧
    (∀ last, user.lastUsernameChange = some last →
      (now : Int) - (last : Int) < 14 * 24 * 60 * 60 * 1000 →
        (updateUserProfile s actor req now).response
          = .thrown (some 400) (cooldownMessage (daysLeft ((now : Int) - (last : Int)))) ∧
        (updateUserProfile s actor req now).store = s ∧
        (0 ≤ (now : Int) - (last : Int) →
          1 ≤ daysLeft ((now : Int) - (last : Int)) ∧
          daysLeft ((now : Int) - (last : Int)) ≤ 14 ∧
          ((daysLeft ((now : Int) - (last : Int)) : Int) - 1) * (24 * 60 * 60 * 1000)
            < 14 * 24 * 60 * 60 * 1000 - ((now : Int) - (last : Int)) ∧
          14 * 24 * 60 * 60 * 1000 - ((now : Int) - (last : Int))
            ≤ (daysLeft ((now : Int) - (last : Int)) : Int) * (24 * 60 * 60 * 1000))) ∧
    ((¬ ∃ last, user.lastUsernameChange = some last ∧
        (now : Int) - (last : Int) < 14 * 24 * 60 * 60 * 1000) →
      (∀ u ∈ s.users, u.username ≠ name) →
        (updateUserProfile s actor req now).response.status? = some 200 ∧
        ((updateUserProfile s actor req now).store.findUser actor.id).map
          (fun u => (u.username, u.lastUsernameChange)) = some (name, some now)) := by
  have h14 : ((fourteenDays : Nat) : Int) = 14 * 24 * 60 * 60 * 1000 := by
    simp only [fourteenDays]; norm_num
  have h1d : ((oneDay : Nat) : Int) = 24 * 60 * 60 * 1000 := by
    simp only [oneDay]; norm_num
  have hcool : ∀ last, user.lastUsernameChange = some last →
      (now : Int) - (last : Int) < 14 * 24 * 60 * 60 * 1000 →
      updateUserProfile s actor req now =
        { store := s,
          response := .thrown (some 400)
            (cooldownMessage (daysLeft ((now : Int) - (last : Int)))) } := by
    intro last hl hlt
    rw [← h14] at hlt
    have hstep := usernameLogic_cooling s (applyUpdates user req) name now last hne hd hl hlt
    simp only [updateUserProfile, hu, hn, hstep]
  have hfree : (¬ ∃ last, user.lastUsernameChange = some last ∧
        (now : Int) - (last : Int) < 14 * 24 * 60 * 60 * 1000) →
      usernameLogic s (applyUpdates user req) (some name) now =
        if s.users.any (fun u => u.username == name) then
          .error (.thrown (some 400) "Username already taken.")
        else .ok
          { applyUpdates user req with username := name, lastUsernameChange := some now } := by
    intro hno
    refine usernameLogic_free s (applyUpdates user req) name now hne hd ?_
    intro last hl hlt
    rw [h14] at hlt
    exact hno ⟨last, hl, hlt⟩
  refine ⟨⟨?_, ?_⟩, ?_, ?_⟩
  · rintro ⟨d, hresp⟩
    by_contra hno
    have hf := hfree hno
    by_cases htaken : s.users.any (fun u => u.username == name) = true
    · rw [if_pos htaken] at hf
      simp only [updateUserProfile, hu, hn, hf] at hresp
      injection hresp with _ hmsg
      exact cooldownMessage_ne_taken d hmsg.symm
    · rw [if_neg htaken] at hf
      simp only [updateUserProfile, hu, hn, hf] at hresp
      cases hresp
  · rintro ⟨last, hl, hlt⟩
    exact ⟨_, by rw [hcool last hl hlt]⟩
  · intro last hl hlt
    rw [hcool last hl hlt]
    refine ⟨rfl, rfl, ?_⟩
    intro h0
    have hb := daysLeft_bounds ((now : Int) - (last : Int)) h0 (by rw [h14]; exact hlt)
    rw [h14, h1d] at hb
    exact hb
  · intro hno hnot
    have hf := hfree hno
    have htaken : ¬ s.users.any (fun u => u.username == name) = true := by
      intro h
      obtain ⟨u, hin, heq⟩ := List.any_eq_true.1 h
      exact hnot u hin (by simpa using heq)
    rw [if_neg htaken] at hf
    have hid : user.id = actor.id := by
      have := List.find?_some hu
      simpa using this
    constructor
    · simp only [updateUserProfile, hu, hn, hf, Response.status?]
    · have hfind : ∀ v : User, v.id = actor.id →
          (s.updateUser user.id (fun _ => v)).findUser actor.id = some v := by
        intro v hv
        unfold Store.findUser Store.updateUser
        rw [hid]
        exact find_updateFirst_of_find _ (fun _ => v) s.users user hu (by simp [hv])
      have hstore : ∀ (b : Prop) [Decidable b] (s1 : Store) (t : String) (cs : List Chat),
          (if b then announce s1 t cs else s1).users = s1.users := by
        intro b _ s1 t cs
        split
        · exact announce_users t cs s1
        · rfl
      simp only [updateUserProfile, hu, hn, hf]
      unfold Store.findUser at hfind ⊢
      rw [hstore]
      cases req.privacy with
      | none =>
        dsimp only
        rw [hfind { applyUpdates user req with username := name, lastUsernameChange := some now }
          hid]
        rfl
      | some privacy =>
        dsimp only
        rw [hfind
          { applyUpdates user req with
            username := name, lastUsernameChange := some now,
            searchByUsername :=
              privacy.searchByUsername.getD (applyUpdates user req).searchByUsername,
            searchByMobile :=
              privacy.searchByMobile.getD (applyUpdates user req).searchByMobile } hid]
        rfl

/-- C30 on `namedStore`: Ann changed her username at time 1000 and asks for `annie` and
the first name `Anna` three days and one millisecond later: eleven days are left and
the stored document keeps `Ann` and `ann`. -/
theorem updateUserProfile_cooldown_witness :
    (updateUserProfile namedStore ann renameRequest 259201001).response
      = .thrown (some 400) "You can change username again in 11 days." ∧
    (updateUserProfile namedStore ann renameRequest 259201001).store = namedStore ∧
    (1 ≤ daysLeft 259200001 ∧ daysLeft 259200001 ≤ 14) ∧
    (updateUserProfile namedStore ann renameRequest (1000 + fourteenDays)).response.status?
      = some 200 ∧
    ((updateUserProfile namedStore ann renameRequest (1000 + fourteenDays)).store.findUser 1).map
      (fun u => (u.firstName, u.username, u.lastUsernameChange))
      = some ("Anna", "annie", some 1209601000) := by
  have h := updateUserProfile_cooldown namedStore ann
    { ann with username := "ann", mobile := "555", lastUsernameChange := some 1000 }
    renameRequest "annie" 259201001 (by decide) rfl (by decide) (by decide)
  have h2 := h.2.1 1000 rfl (by norm_num)
  have h3 := h2.2.2 (by norm_num)
  refine ⟨?_, h2.2.1, ⟨?_, ?_⟩, by decide, by decide⟩
  · rw [h2.1]; decide
  · exact h3.1
  · exact h3.2.1

end Chatify
